import Mathlib

/-!
# sFlow v5 packet decoder (plugins/inputs/sflow/packetdecoder.go)

A shallow embedding of the recursive-descent decoder and theorems about it.

* A byte stream is a `List UInt8`; an `io.Reader` is a `Reader` value that is
  passed in and handed back (explicit state passing).
* Go functions returning `(value, error)` return a triple
  `(value, Option Error, Reader)`: the (possibly partially filled) value, the
  error (`none` for `nil`) and the reader state afterwards.
* Unsigned wire integers are natural numbers; where the Go code computes in a
  fixed width the reduction `% 2^w` is written out.
* What depends on the Go runtime (the width of `int`, how large a slice `make`
  can reserve) is a parameter `Runtime` of the functions it reaches. A stop of
  the program by the runtime is carried as `Error.makesliceFailed`.
-/

namespace Sflow

/-! ## Errors -/

/-- The two sentinel errors of package io that a short read produces. -/
inductive IOError
  | EOF
  | ErrUnexpectedEOF
  deriving DecidableEq, Repr

/-- The error values the decoder can return. `failedToRead` is the error built
by `read` with `fmt.Errorf("failed to read %q: %w", name, err)`; it wraps its
cause. The next three are built by `fmt.Errorf` without `%w`.
`makesliceFailed cap` is not an error value of the program: it stands for the
Go runtime stopping the program inside `make([]sample, 0, cap)` (the panic
"makeslice: cap out of range", or the fatal error "out of memory"). It is
carried in the error position because every caller up to `Decode` hands on
unchanged what it finds there; where it appears the function did not return. -/
inductive Error
  | failedToRead (name : String) (cause : IOError)
  | versionNotSupported (v : Nat)
  | unknownAddressIPType (t : Nat)
  | unexpectedIPv6Version (v : Nat)
  | makesliceFailed (cap : Nat)
  deriving DecidableEq, Repr

/-- Text of the io sentinel errors. -/
def IOError.message : IOError → String
  | .EOF => "EOF"
  | .ErrUnexpectedEOF => "unexpected EOF"

/-- Lower-case hexadecimal digits of a number, as printed by `%x`. -/
def hexString (v : Nat) : String := String.mk (Nat.toDigits 16 v)

/-- Text of an error (`err.Error()`). Field names contain no character that
`%q` escapes, so `%q` puts the name between double quotes. For the stop of the
runtime the text is the one of the panic, with the capacity asked for. -/
def Error.message : Error → String
  | .failedToRead name cause => "failed to read \"" ++ name ++ "\": " ++ cause.message
  | .versionNotSupported v => "version " ++ toString v ++ " not supported, only version 5"
  | .unknownAddressIPType t => "unknown address IP type " ++ toString t
  | .unexpectedIPv6Version v => "unexpected IPv6 header version 0x" ++ hexString v
  | .makesliceFailed cap => "runtime error: makeslice: cap out of range (" ++ toString cap ++ ")"

/-- The test `errors.Is(err, io.EOF)`: true exactly for an error that wraps
io.EOF. -/
def Error.isEOF : Error → Bool
  | .failedToRead _ .EOF => true
  | _ => false

/-! ## The Go runtime -/

/-- What the decoder depends on besides the bytes it reads. `intBits` is the
width of Go's `int` (32 or 64). `maxSampleCap` is the largest capacity for
which the runtime can reserve the memory of a `[]sample`: it depends on the
machine and on what the program holds already. -/
structure Runtime where
  intBits : Nat
  maxSampleCap : Nat
  deriving DecidableEq, Repr

/-- A runtime whose `int` has 64 bits. -/
def runtime64 (maxSampleCap : Nat) : Runtime := ⟨64, maxSampleCap⟩

/-- A runtime whose `int` has 32 bits. -/
def runtime32 (maxSampleCap : Nat) : Runtime := ⟨32, maxSampleCap⟩

/-- The conversion `int(v)` of a `uint32` value: the low `intBits` bits of `v`
read as a two's complement number. With 64 bits it is `v`; with 32 bits a value
of `2^31` or more becomes negative. -/
def intOfUint32 (intBits : Nat) (v : Nat) : Int :=
  if v % 2 ^ intBits < 2 ^ (intBits - 1) then ((v % 2 ^ intBits : Nat) : Int)
  else ((v % 2 ^ intBits : Nat) : Int) - ((2 ^ intBits : Nat) : Int)

/-- Whether `make([]sample, 0, cap)` with a `uint32` capacity stops the
program instead of returning. The statement reserves room for `cap` samples at
once. The capacity must be a non-negative `int` (else the panic "makeslice: cap
out of range") and the runtime must be able to reserve the memory (else the
same panic, or the fatal error "out of memory"). -/
def makeSamplesFails (rt : Runtime) (cap : Nat) : Prop :=
  rt.maxSampleCap < cap ∨ intOfUint32 rt.intBits cap < 0

instance decidableMakeSamplesFails (rt : Runtime) (cap : Nat) :
    Decidable (makeSamplesFails rt cap) := by
  unfold makeSamplesFails; infer_instance

/-! ## Readers -/

/-- Modelled from the spec: the length-bounded reader of package binaryio
(`binaryio.MinReader`, spec 4.1), whose source is not part of the decoder file.
A reader is either the caller's byte source (`base`, the bytes not yet read) or
a bounded reader wrapping a parent reader with a remaining budget. -/
inductive Reader
  | base (data : List UInt8)
  | bounded (parent : Reader) (budget : Nat)
  deriving DecidableEq, Repr

/-- Modelled from the spec: one `Read` call asking for `n` bytes (spec 4.1).
The byte source hands out what it has, at most `n` bytes. A bounded reader
passes the request on to its parent, cut down to its budget ("reads return
fewer bytes than requested only at budget exhaustion; once the budget is
zero, subsequent reads signal end-of-stream"), and lowers the budget by what
it got. An empty result for `n > 0` is the end-of-stream signal. -/
def Reader.Read : Reader → Nat → List UInt8 × Reader
  | .base data, n => (data.take n, .base (data.drop n))
  | .bounded parent budget, n =>
    let res := parent.Read (min n budget)
    (res.1, .bounded res.2 (budget - res.1.length))

/-- Modelled from the spec: `binaryio.MinReader(r, n)` wraps `r` with budget
`n`. -/
def MinReader (r : Reader) (n : Nat) : Reader := .bounded r n

/-- Modelled from the spec: `Close` of a bounded reader (spec 4.1): "if the
budget is nonzero, the close operation silently discards up to budget bytes
from the underlying source". The result is the state of the parent reader
after the close. The budget is a natural number here: it never goes below
zero because `Read` never hands out more than the budget. -/
def Reader.Close : Reader → Reader
  | .bounded parent budget => (parent.Read budget).2
  | .base data => .base data

/-- Go `io.ReadFull(r, buf)` with `len(buf) = n`, as called by `binary.Read`:
for `n = 0` nothing is read; otherwise `io.EOF` if no byte could be read and
`io.ErrUnexpectedEOF` if some but fewer than `n`. (`Read` hands out all it
can in one call, so the loop of `ReadFull` needs one call.) -/
def ReadFull (r : Reader) (n : Nat) : Option IOError × List UInt8 × Reader :=
  if n = 0 then (none, [], r)
  else
    let res := r.Read n
    if res.1.length = n then (none, res.1, res.2)
    else if res.1.length = 0 then (some .EOF, [], res.2)
    else (some .ErrUnexpectedEOF, [], res.2)

/-- Go `read(r, data, name)`: `binary.Read` of a value of `size` bytes; a
failure is wrapped with the field name. The bytes read are returned for the
caller to store in the destination. -/
def read (r : Reader) (size : Nat) (name : String) : Option Error × List UInt8 × Reader :=
  match ReadFull r size with
  | (some err, _, r1) => (some (.failedToRead name err), [], r1)
  | (none, bs, r1) => (none, bs, r1)

/-- The recurring statement
`if err := read(r, &x, name); err != nil { return ret, err }`
followed by the rest `k` of the function, which receives the bytes read. -/
def readThen {α : Type} (r : Reader) (size : Nat) (name : String) (ret : α)
    (k : List UInt8 → Reader → α × Option Error × Reader) : α × Option Error × Reader :=
  match read r size name with
  | (some err, _, r1) => (ret, some err, r1)
  | (none, bs, r1) => k bs r1

/-- Big-endian value of a byte string (`binary.BigEndian`). -/
def beUint (bs : List UInt8) : Nat :=
  bs.foldl (fun acc b => acc * 256 + b.toNat) 0

/-! ## Data model

The struct declarations live in a file of the package that is not among the
sources; the fields are those the decoder assigns, with the widths of the
wire format (spec 3). Interface-typed fields are options: `none` is the nil
interface. -/

/-- Modelled from the spec: `udpHeader` (spec 3, 4.11). -/
structure udpHeader where
  SourcePort : Nat := 0
  DestinationPort : Nat := 0
  UDPLength : Nat := 0
  Checksum : Nat := 0
  deriving DecidableEq, Repr

/-- Modelled from the spec: `tcpHeader` (spec 3, 4.11). -/
structure tcpHeader where
  SourcePort : Nat := 0
  DestinationPort : Nat := 0
  Sequence : Nat := 0
  AckNumber : Nat := 0
  TCPHeaderLength : Nat := 0
  Flags : Nat := 0
  TCPWindowSize : Nat := 0
  Checksum : Nat := 0
  TCPUrgentPointer : Nat := 0
  deriving DecidableEq, Repr

/-- The value of a `ProtocolHeader` interface field. -/
inductive protocolHeader
  | tcp (h : tcpHeader)
  | udp (h : udpHeader)
  deriving DecidableEq, Repr

/-- Modelled from the spec: `ipV4Header` (spec 3, 4.9). -/
structure ipV4Header where
  Version : Nat := 0
  InternetHeaderLength : Nat := 0
  DSCP : Nat := 0
  ECN : Nat := 0
  TotalLength : Nat := 0
  Identification : Nat := 0
  Flags : Nat := 0
  FragmentOffset : Nat := 0
  TTL : Nat := 0
  Protocol : Nat := 0
  HeaderChecksum : Nat := 0
  SourceIP : List UInt8 := List.replicate 4 0
  DestIP : List UInt8 := List.replicate 4 0
  ProtocolHeader : Option protocolHeader := none
  deriving DecidableEq, Repr

/-- Modelled from the spec: `ipV6Header` (spec 3, 4.10). -/
structure ipV6Header where
  DSCP : Nat := 0
  ECN : Nat := 0
  PayloadLength : Nat := 0
  NextHeaderProto : Nat := 0
  HopLimit : Nat := 0
  SourceIP : List UInt8 := List.replicate 16 0
  DestIP : List UInt8 := List.replicate 16 0
  ProtocolHeader : Option protocolHeader := none
  deriving DecidableEq, Repr

/-- The value of an `IPHeader` interface field. -/
inductive ipHeader
  | v4 (h : ipV4Header)
  | v6 (h : ipV6Header)
  deriving DecidableEq, Repr

/-- Modelled from the spec: `ethHeader` (spec 3, 4.8). -/
structure ethHeader where
  DestinationMAC : List UInt8 := List.replicate 6 0
  SourceMAC : List UInt8 := List.replicate 6 0
  EtherTypeCode : Nat := 0
  EtherType : String := ""
  IPHeader : Option ipHeader := none
  deriving DecidableEq, Repr

/-- Modelled from the spec: `rawPacketHeaderFlowData` (spec 3, 4.7). -/
structure rawPacketHeaderFlowData where
  HeaderProtocol : Nat := 0
  FrameLength : Nat := 0
  Bytes : Nat := 0
  StrippedOctets : Nat := 0
  HeaderLength : Nat := 0
  Header : Option ethHeader := none
  deriving DecidableEq, Repr

/-- Modelled from the spec: `flowRecord` (spec 3). -/
structure flowRecord where
  FlowFormat : Nat := 0
  FlowData : Option rawPacketHeaderFlowData := none
  deriving DecidableEq, Repr

/-- Modelled from the spec: `sampleDataFlowSampleExpanded`, the record both
flow-sample decoders fill (spec 3). -/
structure sampleDataFlowSampleExpanded where
  SequenceNumber : Nat := 0
  SourceIDType : Nat := 0
  SourceIDIndex : Nat := 0
  SamplingRate : Nat := 0
  SamplePool : Nat := 0
  Drops : Nat := 0
  SampleDirection : String := ""
  InputIfFormat : Nat := 0
  InputIfIndex : Nat := 0
  OutputIfFormat : Nat := 0
  OutputIfIndex : Nat := 0
  FlowRecords : List flowRecord := []
  deriving DecidableEq, Repr

/-- Modelled from the spec: `sample` (spec 3). -/
structure sample where
  SampleType : Nat := 0
  SampleData : Option sampleDataFlowSampleExpanded := none
  deriving DecidableEq, Repr

/-- The `net.IPAddr` value of the agent address. -/
structure IPAddr where
  IP : List UInt8 := []
  Zone : String := ""
  deriving DecidableEq, Repr

/-- Modelled from the spec: `v5Format`, the datagram (spec 3). -/
structure v5Format where
  Version : Nat := 0
  AgentAddress : IPAddr := {}
  SubAgentID : Nat := 0
  SequenceNumber : Nat := 0
  Uptime : Nat := 0
  Samples : List sample := []
  deriving DecidableEq, Repr

/-! ## Constants -/

def AddressTypeUnknown : Nat := 0
def AddressTypeIPV4 : Nat := 1
def AddressTypeIPV6 : Nat := 2

/-- Modelled from the spec: sample-type tag of a flow sample (spec 4.4). -/
def sampleTypeFlowSample : Nat := 1
/-- Modelled from the spec: sample-type tag of an expanded flow sample
(spec 4.4). -/
def sampleTypeFlowSampleExpanded : Nat := 3
/-- Modelled from the spec: flow-format tag of a raw packet header
(spec 4.6). -/
def flowFormatTypeRawPacketHeader : Nat := 1
/-- Modelled from the spec: header-protocol value of Ethernet-ISO88023
(spec 4.7). -/
def headerProtocolTypeEthernetISO88023 : Nat := 1
/-- Modelled from the spec: IP protocol number of TCP (spec 4.9). -/
def ipProtocolTCP : Nat := 6
/-- Modelled from the spec: IP protocol number of UDP (spec 4.9). -/
def ipProtocolUDP : Nat := 17

/-- Modelled from the spec: the ether-type table `eTypeMap` (spec 4.8: "the
relevant entries for onward dispatch are 0x0800 = IPv4 and 0x86DD = IPv6"); a
code that is not in the map gives the empty string. -/
def eTypeMap (code : Nat) : String :=
  if code = 0x0800 then "IPv4"
  else if code = 0x86DD then "IPv6"
  else ""

/-! ## The decoder -/

def decodeUDPHeader (r : Reader) : udpHeader × Option Error × Reader :=
  let h : udpHeader := {}
  readThen r 2 "SourcePort" h fun bs r =>
  let h := { h with SourcePort := beUint bs }
  readThen r 2 "DestinationPort" h fun bs r =>
  let h := { h with DestinationPort := beUint bs }
  readThen r 2 "UDPLength" h fun bs r =>
  let h := { h with UDPLength := beUint bs }
  readThen r 2 "Checksum" h fun bs r =>
  let h := { h with Checksum := beUint bs }
  (h, none, r)

def decodeTCPHeader (r : Reader) : tcpHeader × Option Error × Reader :=
  let h : tcpHeader := {}
  readThen r 2 "SourcePort" h fun bs r =>
  let h := { h with SourcePort := beUint bs }
  readThen r 2 "DestinationPort" h fun bs r =>
  let h := { h with DestinationPort := beUint bs }
  readThen r 4 "Sequence" h fun bs r =>
  let h := { h with Sequence := beUint bs }
  readThen r 4 "AckNumber" h fun bs r =>
  let h := { h with AckNumber := beUint bs }
  readThen r 2 "TCP Header Octet offset 12" h fun bs r =>
  let dataOffsetAndReservedAndFlags := beUint bs
  let h := { h with TCPHeaderLength := ((dataOffsetAndReservedAndFlags >>> 12) * 4) % 2 ^ 8 }
  let h := { h with Flags := dataOffsetAndReservedAndFlags &&& 0x1FF }
  readThen r 2 "TCPWindowSize" h fun bs r =>
  let h := { h with TCPWindowSize := beUint bs }
  readThen r 2 "Checksum" h fun bs r =>
  let h := { h with Checksum := beUint bs }
  readThen r 2 "TCPUrgentPointer" h fun bs r =>
  let h := { h with TCPUrgentPointer := beUint bs }
  (h, none, r)

def decodeIPv4Header (r : Reader) : ipV4Header × Option Error × Reader :=
  let h : ipV4Header := {}
  readThen r 1 "Version" h fun bs r =>
  let h := { h with Version := beUint bs }
  let h := { h with InternetHeaderLength := h.Version &&& 0x0F }
  let h := { h with Version := h.Version &&& 0xF0 }
  readThen r 1 "DSCP" h fun bs r =>
  let h := { h with DSCP := beUint bs }
  let h := { h with ECN := h.DSCP &&& 0x03 }
  let h := { h with DSCP := h.DSCP >>> 2 }
  readThen r 2 "TotalLength" h fun bs r =>
  let h := { h with TotalLength := beUint bs }
  readThen r 2 "Identification" h fun bs r =>
  let h := { h with Identification := beUint bs }
  readThen r 2 "FragmentOffset" h fun bs r =>
  let h := { h with FragmentOffset := beUint bs }
  let h := { h with Flags := (h.FragmentOffset >>> 13) % 2 ^ 8 }
  let h := { h with FragmentOffset := h.FragmentOffset &&& 0x1FFF }
  readThen r 1 "TTL" h fun bs r =>
  let h := { h with TTL := beUint bs }
  readThen r 1 "Protocol" h fun bs r =>
  let h := { h with Protocol := beUint bs }
  readThen r 2 "HeaderChecksum" h fun bs r =>
  let h := { h with HeaderChecksum := beUint bs }
  readThen r 4 "SourceIP" h fun bs r =>
  let h := { h with SourceIP := bs }
  readThen r 4 "DestIP" h fun bs r =>
  let h := { h with DestIP := bs }
  if h.Protocol = ipProtocolTCP then
    let res := decodeTCPHeader r
    ({ h with ProtocolHeader := some (.tcp res.1) }, res.2.1, res.2.2)
  else if h.Protocol = ipProtocolUDP then
    let res := decodeUDPHeader r
    ({ h with ProtocolHeader := some (.udp res.1) }, res.2.1, res.2.2)
  else
    (h, none, r)

def decodeIPv6Header (r : Reader) : ipV6Header × Option Error × Reader :=
  let h : ipV6Header := {}
  readThen r 4 "IPv6 header octet 0" h fun bs r =>
  let fourByteBlock := beUint bs
  let version := fourByteBlock >>> 28
  if version ≠ 0x6 then
    (h, some (.unexpectedIPv6Version version), r)
  else
  let h := { h with DSCP := ((fourByteBlock &&& 0xFC00000) >>> 22) % 2 ^ 8 }
  let h := { h with ECN := ((fourByteBlock &&& 0x300000) >>> 20) % 2 ^ 8 }
  readThen r 2 "PayloadLength" h fun bs r =>
  let h := { h with PayloadLength := beUint bs }
  readThen r 1 "NextHeaderProto" h fun bs r =>
  let h := { h with NextHeaderProto := beUint bs }
  readThen r 1 "HopLimit" h fun bs r =>
  let h := { h with HopLimit := beUint bs }
  readThen r 16 "SourceIP" h fun bs r =>
  let h := { h with SourceIP := bs }
  readThen r 16 "DestIP" h fun bs r =>
  let h := { h with DestIP := bs }
  if h.NextHeaderProto = ipProtocolTCP then
    let res := decodeTCPHeader r
    ({ h with ProtocolHeader := some (.tcp res.1) }, res.2.1, res.2.2)
  else if h.NextHeaderProto = ipProtocolUDP then
    let res := decodeUDPHeader r
    ({ h with ProtocolHeader := some (.udp res.1) }, res.2.1, res.2.2)
  else
    (h, none, r)

def decodeEthHeader (r : Reader) : ethHeader × Option Error × Reader :=
  let h : ethHeader := {}
  readThen r 6 "DestinationMAC" h fun bs r =>
  let h := { h with DestinationMAC := bs }
  readThen r 6 "SourceMAC" h fun bs r =>
  let h := { h with SourceMAC := bs }
  readThen r 2 "tagOrEtype" h fun bs r =>
  let tagOrEType := beUint bs
  let rest := fun (h : ethHeader) (r : Reader) =>
    let h := { h with EtherType := eTypeMap h.EtherTypeCode }
    if h.EtherType = "IPv4" then
      let res := decodeIPv4Header r
      ({ h with IPHeader := some (.v4 res.1) }, res.2.1, res.2.2)
    else if h.EtherType = "IPv6" then
      let res := decodeIPv6Header r
      ({ h with IPHeader := some (.v6 res.1) }, res.2.1, res.2.2)
    else
      (h, none, r)
  if tagOrEType = 0x8100 then
    readThen r 2 "unknown" h fun _ r =>
    readThen r 2 "EtherTypeCode" h fun bs r =>
    let h := { h with EtherTypeCode := beUint bs }
    rest h r
  else
    let h := { h with EtherTypeCode := tagOrEType }
    rest h r

/-- The assignment `h.Bytes = h.FrameLength * samplingRate` multiplies two
`uint32` values (the parameter `samplingRate` is declared `uint32`, and Go
multiplies and assigns only operands of one type), so the product is reduced
modulo 2^32. -/
def decodeRawPacketHeaderFlowData (r : Reader) (samplingRate : Nat) :
    rawPacketHeaderFlowData × Option Error × Reader :=
  let h : rawPacketHeaderFlowData := {}
  readThen r 4 "HeaderProtocol" h fun bs r =>
  let h := { h with HeaderProtocol := beUint bs }
  readThen r 4 "FrameLength" h fun bs r =>
  let h := { h with FrameLength := beUint bs }
  let h := { h with Bytes := (h.FrameLength * samplingRate) % 2 ^ 32 }
  readThen r 4 "StrippedOctets" h fun bs r =>
  let h := { h with StrippedOctets := beUint bs }
  readThen r 4 "HeaderLength" h fun bs r =>
  let h := { h with HeaderLength := beUint bs }
  let mr := MinReader r h.HeaderLength
  if h.HeaderProtocol = headerProtocolTypeEthernetISO88023 then
    let res := decodeEthHeader mr
    ({ h with Header := some res.1 }, res.2.1, res.2.2.Close)
  else
    (h, none, mr.Close)

/-- The loop of `decodeFlowRecords`; the first argument is the number of
iterations still to run (`count - i`). -/
def decodeFlowRecordsLoop (samplingRate : Nat) :
    Nat → Reader → List flowRecord → List flowRecord × Option Error × Reader
  | 0, r, recs => (recs, none, r)
  | n + 1, r, recs =>
    let fr : flowRecord := {}
    readThen r 4 "FlowFormat" recs fun bs r =>
    let fr := { fr with FlowFormat := beUint bs }
    readThen r 4 "Flow data length" recs fun bs r =>
    let flowDataLen := beUint bs
    let mr := MinReader r flowDataLen
    if fr.FlowFormat = flowFormatTypeRawPacketHeader then
      let res := decodeRawPacketHeaderFlowData mr samplingRate
      match res.2.1 with
      | some err => (recs, some err, res.2.2.Close)
      | none =>
        decodeFlowRecordsLoop samplingRate n res.2.2.Close
          (recs ++ [{ fr with FlowData := some res.1 }])
    else
      decodeFlowRecordsLoop samplingRate n mr.Close (recs ++ [fr])

def decodeFlowRecords (r : Reader) (samplingRate : Nat) :
    List flowRecord × Option Error × Reader :=
  readThen r 4 "FlowRecord count" [] fun bs r =>
  let count := beUint bs
  decodeFlowRecordsLoop samplingRate count r []

/-- The `switch t.SourceIDIndex` that both flow-sample decoders run. -/
def sampleDirection (t : sampleDataFlowSampleExpanded) : sampleDataFlowSampleExpanded :=
  if t.SourceIDIndex = t.OutputIfIndex then { t with SampleDirection := "egress" }
  else if t.SourceIDIndex = t.InputIfIndex then { t with SampleDirection := "ingress" }
  else t

def decodeFlowSample (r : Reader) : sampleDataFlowSampleExpanded × Option Error × Reader :=
  let t : sampleDataFlowSampleExpanded := {}
  readThen r 4 "SequenceNumber" t fun bs r =>
  let t := { t with SequenceNumber := beUint bs }
  readThen r 4 "SourceID" t fun bs r =>
  let sourceID := beUint bs
  let t := { t with SourceIDIndex := sourceID &&& 0x00ffffff }
  let t := { t with SourceIDType := sourceID >>> 24 }
  readThen r 4 "SamplingRate" t fun bs r =>
  let t := { t with SamplingRate := beUint bs }
  readThen r 4 "SamplePool" t fun bs r =>
  let t := { t with SamplePool := beUint bs }
  readThen r 4 "Drops" t fun bs r =>
  let t := { t with Drops := beUint bs }
  readThen r 4 "InputIfIndex" t fun bs r =>
  let t := { t with InputIfIndex := beUint bs }
  let t := { t with InputIfFormat := t.InputIfIndex >>> 30 }
  let t := { t with InputIfIndex := t.InputIfIndex &&& 0x3FFFFFFF }
  readThen r 4 "OutputIfIndex" t fun bs r =>
  let t := { t with OutputIfIndex := beUint bs }
  let t := { t with OutputIfFormat := t.OutputIfIndex >>> 30 }
  let t := { t with OutputIfIndex := t.OutputIfIndex &&& 0x3FFFFFFF }
  let t := sampleDirection t
  let res := decodeFlowRecords r t.SamplingRate
  ({ t with FlowRecords := res.1 }, res.2.1, res.2.2)

def decodeFlowSampleExpanded (r : Reader) :
    sampleDataFlowSampleExpanded × Option Error × Reader :=
  let t : sampleDataFlowSampleExpanded := {}
  readThen r 4 "SequenceNumber" t fun bs r =>
  let t := { t with SequenceNumber := beUint bs }
  readThen r 4 "SourceIDType" t fun bs r =>
  let t := { t with SourceIDType := beUint bs }
  readThen r 4 "SourceIDIndex" t fun bs r =>
  let t := { t with SourceIDIndex := beUint bs }
  readThen r 4 "SamplingRate" t fun bs r =>
  let t := { t with SamplingRate := beUint bs }
  readThen r 4 "SamplePool" t fun bs r =>
  let t := { t with SamplePool := beUint bs }
  readThen r 4 "Drops" t fun bs r =>
  let t := { t with Drops := beUint bs }
  readThen r 4 "InputIfFormat" t fun bs r =>
  let t := { t with InputIfFormat := beUint bs }
  readThen r 4 "InputIfIndex" t fun bs r =>
  let t := { t with InputIfIndex := beUint bs }
  readThen r 4 "OutputIfFormat" t fun bs r =>
  let t := { t with OutputIfFormat := beUint bs }
  readThen r 4 "OutputIfIndex" t fun bs r =>
  let t := { t with OutputIfIndex := beUint bs }
  let t := sampleDirection t
  let res := decodeFlowRecords r t.SamplingRate
  ({ t with FlowRecords := res.1 }, res.2.1, res.2.2)

/-- The deferred `mr.Close()` runs on every return after `mr` is made. -/
def decodeSample (r : Reader) : sample × Option Error × Reader :=
  let sam : sample := {}
  readThen r 4 "sampleType" sam fun bs r =>
  let sam := { sam with SampleType := beUint bs }
  readThen r 4 "Sample data length" sam fun bs r =>
  let sampleDataLen := beUint bs
  let mr := MinReader r sampleDataLen
  if sam.SampleType = sampleTypeFlowSample then
    let res := decodeFlowSample mr
    ({ sam with SampleData := some res.1 }, res.2.1, res.2.2.Close)
  else if sam.SampleType = sampleTypeFlowSampleExpanded then
    let res := decodeFlowSampleExpanded mr
    ({ sam with SampleData := some res.1 }, res.2.1, res.2.2.Close)
  else
    (sam, none, mr.Close)

/-- The loop of `decodeSamples`; the first argument is the number of
iterations still to run (`int(numOfSamples) - i`, none when that is negative). -/
def decodeSamplesLoop : Nat → Reader → List sample → List sample × Option Error × Reader
  | 0, r, result => (result, none, r)
  | n + 1, r, result =>
    let res := decodeSample r
    match res.2.1 with
    | some err => (result, some err, res.2.2)
    | none => decodeSamplesLoop n res.2.2 (result ++ [res.1])

/-- The slice is reserved with `make([]sample, 0, numOfSamples)` before the
loop; the loop runs while `i < int(numOfSamples)`. -/
def decodeSamples (rt : Runtime) (r : Reader) : List sample × Option Error × Reader :=
  readThen r 4 "sample count" [] fun bs r =>
  let numOfSamples := beUint bs
  if makeSamplesFails rt numOfSamples then
    ([], some (.makesliceFailed numOfSamples), r)
  else
  let result : List sample := []
  decodeSamplesLoop (intOfUint32 rt.intBits numOfSamples).toNat r result

/-- The first component is the returned pointer: `none` is `nil`. -/
def DecodeOnePacket (rt : Runtime) (r : Reader) : Option v5Format × Option Error × Reader :=
  let p : v5Format := {}
  readThen r 4 "version" none fun bs r =>
  let p := { p with Version := beUint bs }
  if p.Version ≠ 5 then
    (none, some (.versionNotSupported p.Version), r)
  else
  readThen r 4 "address ip type" none fun bs r =>
  let addressIPType := beUint bs
  let rest := fun (p : v5Format) (r : Reader) =>
    readThen r p.AgentAddress.IP.length "Agent Address IP" none fun bs r =>
    let p := { p with AgentAddress := { p.AgentAddress with IP := bs } }
    readThen r 4 "SubAgentID" none fun bs r =>
    let p := { p with SubAgentID := beUint bs }
    readThen r 4 "SequenceNumber" none fun bs r =>
    let p := { p with SequenceNumber := beUint bs }
    readThen r 4 "Uptime" none fun bs r =>
    let p := { p with Uptime := beUint bs }
    let res := decodeSamples rt r
    (some { p with Samples := res.1 }, res.2.1, res.2.2)
  if addressIPType = AddressTypeUnknown then
    rest { p with AgentAddress := { p.AgentAddress with IP := List.replicate 0 0 } } r
  else if addressIPType = AddressTypeIPV4 then
    rest { p with AgentAddress := { p.AgentAddress with IP := List.replicate 4 0 } } r
  else if addressIPType = AddressTypeIPV6 then
    rest { p with AgentAddress := { p.AgentAddress with IP := List.replicate 16 0 } } r
  else
    (none, some (.unknownAddressIPType addressIPType), r)

/-- The state of `Decode` when it returns: the returned error, the packets
handed to `d.onPacket` in call order, and the reader. An `err` of
`makesliceFailed` means that the runtime stopped the program: `Decode` did not
return. -/
structure DecodeResult where
  err : Option Error
  delivered : List (Option v5Format)
  reader : Reader
  deriving DecidableEq, Repr

/-- The loop of `Decode` with the sink calls recorded in `delivered`. The
first argument bounds the number of iterations; `none` means the bound was
reached before the loop ended. -/
def DecodeLoop (rt : Runtime) : Nat → Reader → List (Option v5Format) → Option DecodeResult
  | 0, _, _ => none
  | fuel + 1, r, delivered =>
    let res := DecodeOnePacket rt r
    match res.2.1 with
    | some err =>
      if err.isEOF then some ⟨none, delivered, res.2.2⟩
      else some ⟨some err, delivered, res.2.2⟩
    | none => DecodeLoop rt fuel res.2.2 (delivered ++ [res.1])

/-- The bytes of the underlying source that have not been read. -/
def Reader.data : Reader → List UInt8
  | .base data => data
  | .bounded parent _ => parent.data

/-- The number of bytes a reader can still hand out: what the source holds,
cut down to every budget on the way. -/
def Reader.avail : Reader → Nat
  | .base data => data.length
  | .bounded parent budget => min budget parent.avail

/-- The reader after `k` bytes went through it: the source is `k` bytes
further on and every budget on the way is `k` lower. -/
def Reader.advance : Reader → Nat → Reader
  | .base data, k => .base (data.drop k)
  | .bounded parent budget, k => .bounded (parent.advance k) (budget - k)

/-- Reader `r1` is reader `r` after some bytes that `r` could hand out went
through it. -/
def Adv (r r1 : Reader) : Prop := ∃ k, k ≤ r.avail ∧ r1 = r.advance k

/-- `Decode(r)`: every iteration that continues the loop has read at least
one byte, so one more iteration than there are bytes is enough (theorem
`Decode_isSome`). -/
def Decode (rt : Runtime) (r : Reader) : Option DecodeResult :=
  DecodeLoop rt (r.data.length + 1) r []

/-- A returned datagram has version 5. -/
def VersionIs5 (res : Option v5Format × Option Error × Reader) : Prop :=
  ∀ p, res.1 = some p → p.Version = 5

/-- A call that returns no error returns a datagram. -/
def ReturnsPacket (res : Option v5Format × Option Error × Reader) : Prop :=
  res.2.1 = none → ∃ p, res.1 = some p

/-- `Reaches rt r ps rf`: starting with the reader at `r`, successive calls of
`DecodeOnePacket` return no error and the packets `ps`, in this order, and
leave the reader at `rf`. -/
inductive Reaches (rt : Runtime) : Reader → List (Option v5Format) → Reader → Prop
  | done (r : Reader) : Reaches rt r [] r
  | step {r rf : Reader} {ps : List (Option v5Format)} :
      (DecodeOnePacket rt r).2.1 = none → Reaches rt (DecodeOnePacket rt r).2.2 ps rf →
      Reaches rt r ((DecodeOnePacket rt r).1 :: ps) rf

/-- `Trunc rP r`: reader `rP` is reader `r` with the byte source cut short.
The budgets agree as long as the short source still holds bytes. -/
def Trunc : Reader → Reader → Prop
  | .base dataP, .base data => dataP <+: data
  | .bounded parentP budgetP, .bounded parent budget =>
    Trunc parentP parent ∧ (budgetP = budget ∨ parentP.data = [])
  | _, _ => False

/-- `Sim x y`: when the run `y` on the whole source returned no error, the run
`x` on the source cut short either failed on a read, or returned the same
value without error and left its reader at the same place. -/
def Sim {α : Type} (x y : α × Option Error × Reader) : Prop :=
  y.2.1 = none →
    (∃ name c, x.2.1 = some (.failedToRead name c))
      ∨ (x.1 = y.1 ∧ x.2.1 = none ∧ Trunc x.2.2 y.2.2)

/-- The error of a result is nil or a failed read. -/
def ReadErrorOnly {α : Type} (res : α × Option Error × Reader) : Prop :=
  res.2.1 = none ∨ ∃ name c, res.2.1 = some (.failedToRead name c)

/-- Big-endian encoding of a u32 (`binary.BigEndian.PutUint32`); it is used to
write down byte strings. -/
def putUint32 (v : Nat) : List UInt8 :=
  [UInt8.ofNat (v / 2 ^ 24), UInt8.ofNat (v / 2 ^ 16), UInt8.ofNat (v / 2 ^ 8), UInt8.ofNat v]

/-- The expanded form of a non-expanded flow-sample byte string `d` (at least
28 bytes): the source-id word `s` at offset 4 is replaced by the two u32s
`s >> 24` and `s & 0x00FFFFFF`, the input word `i` at offset 20 by `i >> 30`
and `i & 0x3FFFFFFF`, the output word `o` at offset 24 by `o >> 30` and
`o & 0x3FFFFFFF`; all other bytes stay as they are. -/
def expandFlowSample (d : List UInt8) : List UInt8 :=
  let s := beUint ((d.drop 4).take 4)
  let i := beUint ((d.drop 20).take 4)
  let o := beUint ((d.drop 24).take 4)
  d.take 4 ++ (putUint32 (s >>> 24) ++ (putUint32 (s &&& 0x00ffffff)
    ++ ((d.drop 8).take 4 ++ ((d.drop 12).take 4 ++ ((d.drop 16).take 4
    ++ (putUint32 (i >>> 30) ++ (putUint32 (i &&& 0x3FFFFFFF)
    ++ (putUint32 (o >>> 30) ++ (putUint32 (o &&& 0x3FFFFFFF) ++ d.drop 28)))))))))

/-- When the result `res` of a decoder started at reader `r0` has no error, at
least `m` bytes have gone through `r0`. -/
def ConsumedAtLeast {α : Type} (m : Nat) (r0 : Reader) (res : α × Option Error × Reader) :
    Prop :=
  res.2.1 = none → ∃ k, m ≤ k ∧ k ≤ r0.avail ∧ res.2.2 = r0.advance k

/-- `TruncBy c rP r`: reader `rP` is reader `r` with the last `c` bytes of the
byte source cut off (all of what is left when fewer than `c` bytes are). -/
def TruncBy (c : Nat) (rP r : Reader) : Prop :=
  Trunc rP r ∧ rP.data.length = r.data.length - c

/-- `Cut c need rP r x y`: `x` and `y` are the results of one decoder started
with the reader at `rP` and at `r`, where `rP` is `r` with the last `c` bytes
cut off. When the run at `r` returns no error, `need` is the number of bytes,
counted from the reader's position, up to the end of the last field that run
reads: it lies within what `r` can hand out, the run at `rP` returns the same
value without error when `rP` still holds `need` bytes, and it fails on a read
when `rP` holds fewer. -/
def Cut {α : Type} (c need : Nat) (rP r : Reader) (x y : α × Option Error × Reader) : Prop :=
  y.2.1 = none →
    need ≤ r.avail
    ∧ (need ≤ rP.data.length → x.1 = y.1 ∧ x.2.1 = none ∧ TruncBy c x.2.2 y.2.2)
    ∧ (rP.data.length < need → ∃ name cause, x.2.1 = some (.failedToRead name cause))

/-- Bytes that `decodeIPv4Header` reads as fields when it returns no error:
the 20 bytes of the header and the TCP or UDP header behind it. -/
def needIPv4 (d : List UInt8) : Nat :=
  20 + (if beUint ((d.drop 9).take 1) = ipProtocolTCP then 20
        else if beUint ((d.drop 9).take 1) = ipProtocolUDP then 8 else 0)

/-- Bytes that `decodeIPv6Header` reads as fields when it returns no error:
the 40 bytes of the header and the TCP or UDP header behind it. -/
def needIPv6 (d : List UInt8) : Nat :=
  40 + (if beUint ((d.drop 6).take 1) = ipProtocolTCP then 20
        else if beUint ((d.drop 6).take 1) = ipProtocolUDP then 8 else 0)

/-- The IP header behind an Ethernet header with ether-type code `code`. -/
def needIP (code : Nat) (d : List UInt8) : Nat :=
  if eTypeMap code = "IPv4" then needIPv4 d
  else if eTypeMap code = "IPv6" then needIPv6 d
  else 0

/-- Bytes that `decodeEthHeader` reads as fields when it returns no error: 14
bytes, or 18 with a VLAN tag, and the IP header behind them. -/
def needEth (d : List UInt8) : Nat :=
  14 + (if beUint ((d.drop 12).take 2) = 0x8100 then
          4 + needIP (beUint ((d.drop 16).take 2)) (d.drop 18)
        else needIP (beUint ((d.drop 12).take 2)) (d.drop 14))

/-- Bytes that `decodeRawPacketHeaderFlowData` reads as fields when it returns
no error: its four words and, for an Ethernet header, the headers decoded from
the sampled bytes. The rest of the declared header length is not read. -/
def needRawPacketHeader (d : List UInt8) : Nat :=
  16 + (if beUint (d.take 4) = headerProtocolTypeEthernetISO88023 then needEth (d.drop 16)
        else 0)

/-- Bytes needed by a region of declared length `L` in which `inner` bytes are
read as fields, followed by a part that needs `rest` bytes: when nothing is
read after the region, nothing of the region beyond its fields is needed. -/
def needRegion (inner L rest : Nat) : Nat := if rest = 0 then inner else L + rest

/-- Bytes that `n` turns of the loop of `decodeFlowRecords` read as fields when
the loop returns no error. -/
def needFlowRecordsLoop : Nat → List UInt8 → Nat
  | 0, _ => 0
  | n + 1, d =>
    4 + (4 + needRegion
      (if beUint (d.take 4) = flowFormatTypeRawPacketHeader then needRawPacketHeader (d.drop 8)
       else 0)
      (beUint ((d.drop 4).take 4))
      (needFlowRecordsLoop n (d.drop (8 + beUint ((d.drop 4).take 4)))))

def needFlowRecords (d : List UInt8) : Nat :=
  4 + needFlowRecordsLoop (beUint (d.take 4)) (d.drop 4)

def needFlowSample (d : List UInt8) : Nat := 28 + needFlowRecords (d.drop 28)

def needFlowSampleExpanded (d : List UInt8) : Nat := 40 + needFlowRecords (d.drop 40)

/-- Bytes that `decodeSample` reads as fields when it returns no error: the
8-byte header and, for a flow sample, the fields of the sample. Of a sample of
another type only the header is read. -/
def needSample (d : List UInt8) : Nat :=
  8 + (if beUint (d.take 4) = sampleTypeFlowSample then needFlowSample (d.drop 8)
       else if beUint (d.take 4) = sampleTypeFlowSampleExpanded then
         needFlowSampleExpanded (d.drop 8)
       else 0)

/-- Bytes that `n` turns of the loop of `decodeSamples` read as fields when the
loop returns no error. -/
def needSamplesLoop : Nat → List UInt8 → Nat
  | 0, _ => 0
  | n + 1, d =>
    if needSamplesLoop n (d.drop (8 + beUint ((d.drop 4).take 4))) = 0 then needSample d
    else 8 + beUint ((d.drop 4).take 4)
      + needSamplesLoop n (d.drop (8 + beUint ((d.drop 4).take 4)))

def needSamples (rt : Runtime) (d : List UInt8) : Nat :=
  4 + needSamplesLoop (intOfUint32 rt.intBits (beUint (d.take 4))).toNat (d.drop 4)

/-- The length of the agent address for the address type at offset 4. -/
def addressLength (d : List UInt8) : Nat :=
  if beUint ((d.drop 4).take 4) = AddressTypeIPV4 then 4
  else if beUint ((d.drop 4).take 4) = AddressTypeIPV6 then 16
  else 0

/-- Bytes that `DecodeOnePacket` reads as fields when it returns no error: the
offset, from the start of the datagram, of the end of the last field read. -/
def needDecodeOnePacket (rt : Runtime) (d : List UInt8) : Nat :=
  20 + addressLength d + needSamples rt (d.drop (20 + addressLength d))

/-! ## Reader lemmas -/

theorem Reader.avail_le_data (r : Reader) : r.avail ≤ r.data.length := by
  induction r with
  | base d => simp [Reader.avail, Reader.data]
  | bounded p b ih => simp only [Reader.avail, Reader.data]; omega

@[simp] theorem Reader.advance_zero (r : Reader) : r.advance 0 = r := by
  induction r with
  | base d => simp [Reader.advance]
  | bounded p b ih => simp [Reader.advance, ih]

theorem Reader.advance_advance (r : Reader) (a b : Nat) :
    (r.advance a).advance b = r.advance (a + b) := by
  induction r with
  | base d => simp [Reader.advance, List.drop_drop, Nat.add_comm]
  | bounded p c ih => simp [Reader.advance, ih, Nat.sub_sub]

theorem Reader.avail_advance (r : Reader) (k : Nat) :
    (r.advance k).avail = r.avail - k := by
  induction r with
  | base d => simp [Reader.advance, Reader.avail]
  | bounded p b ih => simp only [Reader.advance, Reader.avail, ih]; omega

theorem Reader.data_advance (r : Reader) (k : Nat) :
    (r.advance k).data = r.data.drop k := by
  induction r with
  | base d => simp [Reader.advance, Reader.data]
  | bounded p b ih => simp [Reader.advance, Reader.data, ih]

theorem Reader.Read_eq (r : Reader) (n : Nat) :
    r.Read n = (r.data.take (min n r.avail), r.advance (min n r.avail)) := by
  induction r generalizing n with
  | base d =>
    simp only [Reader.Read, Reader.data, Reader.avail, Reader.advance]
    rcases Nat.le_total n d.length with h | h
    · simp [Nat.min_eq_left h]
    · simp [Nat.min_eq_right h, List.take_of_length_le h, List.drop_of_length_le h]
  | bounded p b ih =>
    have hle := p.avail_le_data
    simp only [Reader.Read, Reader.data, Reader.avail, Reader.advance, ih, List.length_take]
    have e1 : min (min n b) p.avail = min n (min b p.avail) := by omega
    have e2 : min (min (min n b) p.avail) p.data.length = min n (min b p.avail) := by omega
    rw [e2, e1]

theorem Reader.Close_advance (r : Reader) (L k : Nat) (hk : k ≤ min L r.avail) :
    ((MinReader r L).advance k).Close = r.advance (min L r.avail) := by
  simp only [MinReader, Reader.advance, Reader.Close, Reader.Read_eq, Reader.avail_advance,
    Reader.advance_advance]
  congr 1
  omega

theorem read_eq (r : Reader) (n : Nat) (name : String) :
    read r n name =
      if n ≤ r.avail then (none, r.data.take n, r.advance n)
      else if r.avail = 0 then (some (.failedToRead name .EOF), [], r)
      else (some (.failedToRead name .ErrUnexpectedEOF), [], r.advance r.avail) := by
  have hle := r.avail_le_data
  unfold read ReadFull
  by_cases h0 : n = 0
  · subst h0; simp
  · simp only [h0, if_false, Reader.Read_eq, List.length_take]
    by_cases h1 : n ≤ r.avail
    · have e : min n r.avail = n := by omega
      have e2 : min n r.data.length = n := by omega
      simp [h1, e, e2]
    · have e : min n r.avail = r.avail := by omega
      have e2 : min r.avail r.data.length = r.avail := by omega
      have e3 : r.avail ≠ n := by omega
      simp only [h1, e, e2, e3, if_false]
      by_cases h2 : r.avail = 0
      · simp [h2]
      · simp [h2]

theorem Adv.refl (r : Reader) : Adv r r := ⟨0, Nat.zero_le _, by simp⟩

theorem Adv.trans {a b c : Reader} (h1 : Adv a b) (h2 : Adv b c) : Adv a c := by
  obtain ⟨k1, l1, e1⟩ := h1
  obtain ⟨k2, l2, e2⟩ := h2
  subst e1 e2
  rw [Reader.avail_advance] at l2
  exact ⟨k1 + k2, by omega, Reader.advance_advance a k1 k2⟩

theorem read_adv (r : Reader) (n : Nat) (name : String) : Adv r (read r n name).2.2 := by
  rw [read_eq]
  split
  · exact ⟨n, by assumption, rfl⟩
  · split
    · exact Adv.refl r
    · exact ⟨r.avail, Nat.le_refl _, rfl⟩

theorem adv_readThen {α : Type} {r0 r : Reader} {n : Nat} {name : String} {ret : α}
    {k : List UInt8 → Reader → α × Option Error × Reader}
    (h0 : Adv r0 r) (hk : ∀ bs r1, Adv r0 r1 → Adv r0 (k bs r1).2.2) :
    Adv r0 (readThen r n name ret k).2.2 := by
  have h := read_adv r n name
  unfold readThen
  split
  · next err bs r1 heq => rw [heq] at h; exact h0.trans h
  · next bs r1 heq => rw [heq] at h; exact hk bs r1 (h0.trans h)

theorem adv_Close {r r1 : Reader} {L : Nat} (h : Adv (MinReader r L) r1) :
    r1.Close = r.advance (min L r.avail) := by
  obtain ⟨k, hk, e⟩ := h
  subst e
  exact Reader.Close_advance r L k hk

theorem adv_Close_adv {r0 r r1 : Reader} {L : Nat} (h0 : Adv r0 r) (h : Adv (MinReader r L) r1) :
    Adv r0 r1.Close := by
  rw [adv_Close h]
  exact h0.trans ⟨_, Nat.min_le_right _ _, rfl⟩

theorem decodeUDPHeader_adv {r0 r : Reader} (h0 : Adv r0 r) : Adv r0 (decodeUDPHeader r).2.2 := by
  unfold decodeUDPHeader
  repeat (first | exact h0 | assumption | (apply adv_readThen (by assumption); intro _ _ _))

theorem decodeTCPHeader_adv {r0 r : Reader} (h0 : Adv r0 r) : Adv r0 (decodeTCPHeader r).2.2 := by
  unfold decodeTCPHeader
  repeat (first | assumption | (apply adv_readThen (by assumption); intro _ _ _))

theorem decodeIPv4Header_adv {r0 r : Reader} (h0 : Adv r0 r) : Adv r0 (decodeIPv4Header r).2.2 := by
  unfold decodeIPv4Header
  repeat (first | assumption | (apply adv_readThen (by assumption); intro _ _ _))
  dsimp only
  split
  · exact decodeTCPHeader_adv (by assumption)
  · split
    · exact decodeUDPHeader_adv (by assumption)
    · assumption

/-! ## Every decoder only moves its reader forward -/

theorem decodeIPv6Header_adv {r0 r : Reader} (h0 : Adv r0 r) : Adv r0 (decodeIPv6Header r).2.2 := by
  unfold decodeIPv6Header
  apply adv_readThen h0; intro _ _ _
  dsimp only
  split
  · assumption
  · repeat (first | assumption | (apply adv_readThen (by assumption); intro _ _ _))
    dsimp only
    split
    · exact decodeTCPHeader_adv (by assumption)
    · split
      · exact decodeUDPHeader_adv (by assumption)
      · assumption

theorem decodeEthHeader_adv {r0 r : Reader} (h0 : Adv r0 r) : Adv r0 (decodeEthHeader r).2.2 := by
  unfold decodeEthHeader
  repeat (first | assumption | (apply adv_readThen (by assumption); intro _ _ _))
  dsimp only
  split
  · repeat (first | assumption | (apply adv_readThen (by assumption); intro _ _ _))
    split
    · exact decodeIPv4Header_adv (by assumption)
    · split
      · exact decodeIPv6Header_adv (by assumption)
      · assumption
  · split
    · exact decodeIPv4Header_adv (by assumption)
    · split
      · exact decodeIPv6Header_adv (by assumption)
      · assumption

theorem decodeRawPacketHeaderFlowData_adv {r0 r : Reader} (s : Nat) (h0 : Adv r0 r) :
    Adv r0 (decodeRawPacketHeaderFlowData r s).2.2 := by
  unfold decodeRawPacketHeaderFlowData
  repeat (first | assumption | (apply adv_readThen (by assumption); intro _ _ _))
  dsimp only
  split
  · exact adv_Close_adv (by assumption) (decodeEthHeader_adv (Adv.refl _))
  · exact adv_Close_adv (by assumption) (Adv.refl _)

theorem decodeFlowRecordsLoop_adv (s n : Nat) {r0 r : Reader} (recs : List flowRecord)
    (h0 : Adv r0 r) : Adv r0 (decodeFlowRecordsLoop s n r recs).2.2 := by
  induction n generalizing r recs with
  | zero => simpa [decodeFlowRecordsLoop] using h0
  | succ n ih =>
    unfold decodeFlowRecordsLoop
    repeat (first | assumption | (apply adv_readThen (by assumption); intro _ _ _))
    dsimp only
    split
    · split
      · exact adv_Close_adv (by assumption) (decodeRawPacketHeaderFlowData_adv s (Adv.refl _))
      · exact ih _ (adv_Close_adv (by assumption) (decodeRawPacketHeaderFlowData_adv s (Adv.refl _)))
    · exact ih _ (adv_Close_adv (by assumption) (Adv.refl _))

theorem decodeFlowRecords_adv (s : Nat) {r0 r : Reader} (h0 : Adv r0 r) :
    Adv r0 (decodeFlowRecords r s).2.2 := by
  unfold decodeFlowRecords
  apply adv_readThen h0; intro _ _ h
  exact decodeFlowRecordsLoop_adv s _ _ h

theorem decodeFlowSample_adv {r0 r : Reader} (h0 : Adv r0 r) :
    Adv r0 (decodeFlowSample r).2.2 := by
  unfold decodeFlowSample
  repeat (first | assumption | (exact decodeFlowRecords_adv _ (by assumption)) | (apply adv_readThen (by assumption); intro _ _ _))

theorem decodeFlowSampleExpanded_adv {r0 r : Reader} (h0 : Adv r0 r) :
    Adv r0 (decodeFlowSampleExpanded r).2.2 := by
  unfold decodeFlowSampleExpanded
  repeat (first | assumption | (exact decodeFlowRecords_adv _ (by assumption)) | (apply adv_readThen (by assumption); intro _ _ _))

theorem decodeSample_adv {r0 r : Reader} (h0 : Adv r0 r) : Adv r0 (decodeSample r).2.2 := by
  unfold decodeSample
  repeat (first | assumption | (apply adv_readThen (by assumption); intro _ _ _))
  dsimp only
  split
  · exact adv_Close_adv (by assumption) (decodeFlowSample_adv (Adv.refl _))
  · split
    · exact adv_Close_adv (by assumption) (decodeFlowSampleExpanded_adv (Adv.refl _))
    · exact adv_Close_adv (by assumption) (Adv.refl _)

theorem decodeSamplesLoop_adv (n : Nat) {r0 r : Reader} (result : List sample)
    (h0 : Adv r0 r) : Adv r0 (decodeSamplesLoop n r result).2.2 := by
  induction n generalizing r result with
  | zero => simpa [decodeSamplesLoop] using h0
  | succ n ih =>
    unfold decodeSamplesLoop
    dsimp only
    split
    · exact decodeSample_adv h0
    · exact ih _ (decodeSample_adv h0)

theorem decodeSamples_adv (rt : Runtime) {r0 r : Reader} (h0 : Adv r0 r) : Adv r0 (decodeSamples rt r).2.2 := by
  unfold decodeSamples
  apply adv_readThen h0; intro _ _ h
  dsimp only
  split
  · exact h
  · exact decodeSamplesLoop_adv _ _ h

theorem DecodeOnePacket_adv (rt : Runtime) {r0 r : Reader} (h0 : Adv r0 r) :
    Adv r0 (DecodeOnePacket rt r).2.2 := by
  unfold DecodeOnePacket
  apply adv_readThen h0; intro _ _ _
  dsimp only
  split
  · assumption
  · apply adv_readThen (by assumption); intro _ _ _
    dsimp only
    split
    · repeat (first | assumption | (exact decodeSamples_adv rt (by assumption)) | (apply adv_readThen (by assumption); intro _ _ _))
    · split
      · repeat (first | assumption | (exact decodeSamples_adv rt (by assumption)) | (apply adv_readThen (by assumption); intro _ _ _))
      · split
        · repeat (first | assumption | (exact decodeSamples_adv rt (by assumption)) | (apply adv_readThen (by assumption); intro _ _ _))
        · assumption

/-! ## Claims -/

theorem readThen_ok {α : Type} {r : Reader} {n : Nat} (name : String) (ret : α)
    (k : List UInt8 → Reader → α × Option Error × Reader) (h : n ≤ r.avail) :
    readThen r n name ret k = k (r.data.take n) (r.advance n) := by
  simp [readThen, read_eq, h]

theorem readThen_base_ok {α : Type} {s : List UInt8} {n : Nat} (name : String) (ret : α)
    (k : List UInt8 → Reader → α × Option Error × Reader) (h : n ≤ s.length) :
    readThen (.base s) n name ret k = k (s.take n) (.base (s.drop n)) := by
  rw [readThen_ok name ret k (by simpa [Reader.avail] using h)]
  simp [Reader.data, Reader.advance]

theorem drop_eq_of_min (s : List UInt8) (a b : Nat) (h : min a s.length = min b s.length) :
    s.drop a = s.drop b := by
  rcases Nat.lt_or_ge a s.length with ha | ha
  · have : a = b := by omega
    rw [this]
  · have hb : s.length ≤ b := by omega
    rw [List.drop_of_length_le ha, List.drop_of_length_le hb]

theorem decodeSample_reader (s : List UInt8) (h8 : 8 ≤ s.length) :
    (decodeSample (.base s)).2.2 = .base (s.drop (8 + beUint ((s.drop 4).take 4))) := by
  unfold decodeSample
  rw [readThen_base_ok _ _ _ (by omega)]
  dsimp only
  rw [readThen_base_ok _ _ _ (by simp; omega)]
  have key : ∀ r1, Adv (MinReader (.base (List.drop 4 (List.drop 4 s))) (beUint (List.take 4 (List.drop 4 s)))) r1 →
      r1.Close = .base (s.drop (8 + beUint ((s.drop 4).take 4))) := by
    intro r1 h
    rw [adv_Close h]
    simp only [Reader.advance, Reader.avail, List.drop_drop, List.length_drop]
    congr 1
    apply drop_eq_of_min
    omega
  split
  · exact key _ (decodeFlowSample_adv (Adv.refl _))
  · split
    · exact key _ (decodeFlowSampleExpanded_adv (Adv.refl _))
    · exact key _ (Adv.refl _)

/-- C1: a sample whose type tag is neither 1 nor 3, with declared length `L` and
at least `L` bytes after its 8-byte header, is returned by `decodeSample`
without error, with that tag as `SampleType` and no `SampleData`, and the
stream is left exactly `8 + L` bytes further on; the loop of `decodeSamples`
therefore carries on with the following samples on the stream from which the
unknown sample has been removed. -/
theorem C1_unknown_sample_is_skipped (s : List UInt8) (h8 : 8 ≤ s.length)
    (h1 : beUint (s.take 4) ≠ 1) (h3 : beUint (s.take 4) ≠ 3)
    (hL : beUint ((s.drop 4).take 4) ≤ s.length - 8) :
    decodeSample (.base s) =
        ({ SampleType := beUint (s.take 4), SampleData := none }, none,
          .base (s.drop (8 + beUint ((s.drop 4).take 4))))
      ∧ ((s.drop (8 + beUint ((s.drop 4).take 4))).length + (8 + beUint ((s.drop 4).take 4))
          = s.length)
      ∧ ∀ (n : Nat) (result : List sample),
          decodeSamplesLoop (n + 1) (.base s) result =
            decodeSamplesLoop n (.base (s.drop (8 + beUint ((s.drop 4).take 4))))
              (result ++ [{ SampleType := beUint (s.take 4), SampleData := none }]) := by
  have hS : decodeSample (.base s) =
        ({ SampleType := beUint (s.take 4), SampleData := none }, none,
          .base (s.drop (8 + beUint ((s.drop 4).take 4)))) := by
    have hr := decodeSample_reader s h8
    unfold decodeSample at hr ⊢
    rw [readThen_base_ok _ _ _ (by omega)] at hr ⊢
    dsimp only at hr ⊢
    rw [readThen_base_ok _ _ _ (by simp; omega)] at hr ⊢
    simp only [sampleTypeFlowSample, sampleTypeFlowSampleExpanded, h1, h3, if_false] at hr ⊢
    rw [hr]
  refine ⟨hS, ?_, ?_⟩
  · simp only [List.length_drop]; omega
  · intro n result
    rw [decodeSamplesLoop, hS]


/-- C1 at a sample of type 2 with two data bytes followed by one more byte. -/
theorem C1_unknown_sample_is_skipped_witness :
    decodeSample (.base [0, 0, 0, 2, 0, 0, 0, 2, 9, 9, 7]) =
        ({ SampleType := 2, SampleData := none }, none, .base [7])
      ∧ ([7] : List UInt8).length + (8 + 2) = 11
      ∧ ∀ (n : Nat) (result : List sample),
          decodeSamplesLoop (n + 1) (.base [0, 0, 0, 2, 0, 0, 0, 2, 9, 9, 7]) result =
            decodeSamplesLoop n (.base [7]) (result ++ [{ SampleType := 2, SampleData := none }]) :=
  C1_unknown_sample_is_skipped [0, 0, 0, 2, 0, 0, 0, 2, 9, 9, 7]
    (by decide) (by decide) (by decide) (by decide)

/-- C2: once `decodeSample` has read the 8-byte header of a sample with declared
length `L`, it leaves the stream at offset `8 + L` (at the end of the stream
if that is nearer), whatever the tag and whatever the inner decoders do: it
consumes at most `8 + L` bytes, and exactly `8 + L` when the stream holds `L`
bytes after the header. -/
theorem C2_decodeSample_consumes_declared_length (s : List UInt8) (h8 : 8 ≤ s.length) :
    (decodeSample (.base s)).2.2 = .base (s.drop (8 + beUint ((s.drop 4).take 4)))
      ∧ s.length - (decodeSample (.base s)).2.2.data.length ≤ 8 + beUint ((s.drop 4).take 4)
      ∧ (beUint ((s.drop 4).take 4) ≤ s.length - 8 →
          s.length - (decodeSample (.base s)).2.2.data.length
            = 8 + beUint ((s.drop 4).take 4)) := by
  have h := decodeSample_reader s h8
  refine ⟨h, ?_, ?_⟩
  · rw [h]; simp only [Reader.data, List.length_drop]; omega
  · intro hL; rw [h]; simp only [Reader.data, List.length_drop]; omega

/-- C2 at a flow sample (tag 1) of declared length 4 whose inner decoding fails
after the sequence number. -/
theorem C2_decodeSample_consumes_declared_length_witness :
    (decodeSample (.base [0, 0, 0, 1, 0, 0, 0, 4, 1, 2, 3, 4, 7])).2.1
        = some (.failedToRead "SourceID" .EOF)
      ∧ (decodeSample (.base [0, 0, 0, 1, 0, 0, 0, 4, 1, 2, 3, 4, 7])).2.2 = .base [7]
      ∧ 13 - (decodeSample (.base [0, 0, 0, 1, 0, 0, 0, 4, 1, 2, 3, 4, 7])).2.2.data.length
          ≤ 8 + 4 :=
  ⟨by decide,
   (C2_decodeSample_consumes_declared_length [0, 0, 0, 1, 0, 0, 0, 4, 1, 2, 3, 4, 7]
      (by decide)).1,
   (C2_decodeSample_consumes_declared_length [0, 0, 0, 1, 0, 0, 0, 4, 1, 2, 3, 4, 7]
      (by decide)).2.1⟩


theorem readThen_ind {α : Type} (Q : α × Option Error × Reader → Prop) {r : Reader} {n : Nat}
    {name : String} {ret : α} {k : List UInt8 → Reader → α × Option Error × Reader}
    (herr : ∀ c r1, Q (ret, some (.failedToRead name c), r1))
    (hk : ∀ bs r1, Q (k bs r1)) : Q (readThen r n name ret k) := by
  unfold readThen
  rw [read_eq]
  by_cases h1 : n ≤ r.avail
  · rw [if_pos h1]; exact hk _ _
  · by_cases h2 : r.avail = 0
    · rw [if_neg h1, if_pos h2]; exact herr _ _
    · rw [if_neg h1, if_neg h2]; exact herr _ _

theorem DecodeOnePacket_version (rt : Runtime) (r : Reader) : VersionIs5 (DecodeOnePacket rt r) := by
  have hnone : ∀ (e : Option Error) (r1 : Reader), VersionIs5 (none, e, r1) := by
    intro e r1 p h; simp at h
  unfold DecodeOnePacket
  dsimp only
  apply readThen_ind VersionIs5 (fun _ _ => hnone _ _)
  intro bs r1
  split
  · exact hnone _ _
  rename_i hv
  apply readThen_ind VersionIs5 (fun _ _ => hnone _ _)
  intro bs2 r2
  have hfin : ∀ (a : IPAddr) (b c d : Nat) (l : List sample) (e : Option Error) (rr : Reader),
      VersionIs5 (some { Version := beUint bs, AgentAddress := a, SubAgentID := b, SequenceNumber := c, Uptime := d, Samples := l }, e, rr) := by
    intro a b c d l e rr p h
    simp at h
    subst h
    simpa using hv
  split
  · repeat (first | exact hfin _ _ _ _ _ _ _ | (apply readThen_ind VersionIs5 (fun _ _ => hnone _ _); intro _ _))
  · split
    · repeat (first | exact hfin _ _ _ _ _ _ _ | (apply readThen_ind VersionIs5 (fun _ _ => hnone _ _); intro _ _))
    · split
      · repeat (first | exact hfin _ _ _ _ _ _ _ | (apply readThen_ind VersionIs5 (fun _ _ => hnone _ _); intro _ _))
      · exact hnone _ _


theorem readThen_short {α : Type} {r : Reader} {n : Nat} (name : String) (ret : α)
    (k : List UInt8 → Reader → α × Option Error × Reader) (h : ¬ n ≤ r.avail) :
    ∃ c, readThen r n name ret k = (ret, some (.failedToRead name c), r.advance r.avail) := by
  unfold readThen
  rw [read_eq, if_neg h]
  by_cases h2 : r.avail = 0
  · rw [if_pos h2]; exact ⟨.EOF, by simp [h2]⟩
  · rw [if_neg h2]; exact ⟨.ErrUnexpectedEOF, rfl⟩

theorem DecodeOnePacket_tail_adv (rt : Runtime) (r : Reader) (h4 : 4 ≤ r.avail) :
    Adv (r.advance 4) (DecodeOnePacket rt r).2.2 := by
  have h0 : Adv (r.advance 4) (r.advance 4) := Adv.refl _
  unfold DecodeOnePacket
  rw [readThen_ok _ _ _ h4]
  dsimp only
  split
  · assumption
  · apply adv_readThen (by assumption); intro _ _ _
    dsimp only
    split
    · repeat (first | assumption | (exact decodeSamples_adv rt (by assumption)) | (apply adv_readThen (by assumption); intro _ _ _))
    · split
      · repeat (first | assumption | (exact decodeSamples_adv rt (by assumption)) | (apply adv_readThen (by assumption); intro _ _ _))
      · split
        · repeat (first | assumption | (exact decodeSamples_adv rt (by assumption)) | (apply adv_readThen (by assumption); intro _ _ _))
        · assumption

theorem DecodeOnePacket_progress (rt : Runtime) (r : Reader) (h : (DecodeOnePacket rt r).2.1 = none) :
    (DecodeOnePacket rt r).2.2.data.length < r.data.length := by
  by_cases h4 : 4 ≤ r.avail
  · obtain ⟨k, hk, e⟩ := DecodeOnePacket_tail_adv rt r h4
    have hle := r.avail_le_data
    rw [e, Reader.data_advance, Reader.data_advance]
    simp only [List.length_drop]
    omega
  · exfalso
    unfold DecodeOnePacket at h
    obtain ⟨c, hc⟩ := readThen_short "version" (none : Option v5Format) _ h4
    dsimp only at h
    rw [hc] at h
    simp at h

theorem DecodeOnePacket_returnsPacket (rt : Runtime) (r : Reader) : ReturnsPacket (DecodeOnePacket rt r) := by
  have herr : ∀ (x : Option v5Format) (e : Error) (r1 : Reader), ReturnsPacket (x, some e, r1) := by
    intro x e r1 h; simp at h
  have hfin : ∀ (p : v5Format) (e : Option Error) (r1 : Reader), ReturnsPacket (some p, e, r1) := by
    intro p e r1 _; exact ⟨p, rfl⟩
  unfold DecodeOnePacket
  dsimp only
  apply readThen_ind ReturnsPacket (fun _ _ => herr _ _ _)
  intro bs r1
  split
  · exact herr _ _ _
  apply readThen_ind ReturnsPacket (fun _ _ => herr _ _ _)
  intro bs2 r2
  split
  · repeat (first | exact hfin _ _ _ | (apply readThen_ind ReturnsPacket (fun _ _ => herr _ _ _); intro _ _))
  · split
    · repeat (first | exact hfin _ _ _ | (apply readThen_ind ReturnsPacket (fun _ _ => herr _ _ _); intro _ _))
    · split
      · repeat (first | exact hfin _ _ _ | (apply readThen_ind ReturnsPacket (fun _ _ => herr _ _ _); intro _ _))
      · exact herr _ _ _

theorem DecodeLoop_spec (rt : Runtime) (fuel : Nat) : ∀ (r : Reader) (acc : List (Option v5Format)),
    r.data.length < fuel →
    ∃ ps rf e, Reaches rt r ps rf ∧ (DecodeOnePacket rt rf).2.1 = some e ∧
      DecodeLoop rt fuel r acc =
        some ⟨if e.isEOF then none else some e, acc ++ ps, (DecodeOnePacket rt rf).2.2⟩ := by
  induction fuel with
  | zero => intro r acc h; omega
  | succ fuel ih =>
    intro r acc hlt
    cases hres : (DecodeOnePacket rt r).2.1 with
    | some e =>
      refine ⟨[], r, e, Reaches.done r, hres, ?_⟩
      simp only [DecodeLoop, hres, List.append_nil]
      split <;> rfl
    | none =>
      have hp := DecodeOnePacket_progress rt r hres
      obtain ⟨ps, rf, e, hreach, herr, heq⟩ :=
        ih (DecodeOnePacket rt r).2.2 (acc ++ [(DecodeOnePacket rt r).1]) (by omega)
      refine ⟨(DecodeOnePacket rt r).1 :: ps, rf, e, Reaches.step hres hreach, herr, ?_⟩
      simp only [DecodeLoop, hres, heq, List.append_assoc, List.singleton_append]

theorem Decode_spec (rt : Runtime) (r : Reader) :
    ∃ ps rf e, Reaches rt r ps rf ∧ (DecodeOnePacket rt rf).2.1 = some e ∧
      Decode rt r = some ⟨if e.isEOF then none else some e, ps, (DecodeOnePacket rt rf).2.2⟩ := by
  obtain ⟨ps, rf, e, h1, h2, h3⟩ := DecodeLoop_spec rt (r.data.length + 1) r [] (Nat.lt_succ_self _)
  exact ⟨ps, rf, e, h1, h2, by simpa [Decode] using h3⟩

theorem Reaches_version {rt : Runtime} {r rf : Reader} {ps : List (Option v5Format)} (h : Reaches rt r ps rf) :
    ∀ x ∈ ps, ∃ p, x = some p ∧ p.Version = 5 := by
  induction h with
  | done r => intro x hx; simp at hx
  | step hres _ ih =>
    intro x hx
    rcases List.mem_cons.mp hx with rfl | hx
    · obtain ⟨p, hp⟩ := DecodeOnePacket_returnsPacket rt _ hres
      exact ⟨p, hp, DecodeOnePacket_version rt _ p hp⟩
    · exact ih x hx


theorem DecodeOnePacket_bad_version (rt : Runtime) (s : List UInt8) (h4 : 4 ≤ s.length)
    (hv : beUint (s.take 4) ≠ 5) :
    DecodeOnePacket rt (.base s) =
      (none, some (.versionNotSupported (beUint (s.take 4))), .base (s.drop 4)) := by
  unfold DecodeOnePacket
  rw [readThen_base_ok _ _ _ h4]
  simp only [hv, ne_eq, not_false_eq_true, if_true]

/-- C3: when the first four bytes of the stream are a big-endian value `v`
other than 5, `DecodeOnePacket` returns no datagram and the error
"version v not supported, only version 5", and `Decode` returns that error
without a single call of the sink, whatever follows; every datagram that
`DecodeOnePacket` returns, and every packet `Decode` hands to the sink, has
`Version` 5. -/
theorem C3_version_gate (rt : Runtime) (s : List UInt8) (h4 : 4 ≤ s.length) (hv : beUint (s.take 4) ≠ 5) :
    DecodeOnePacket rt (.base s) =
        (none, some (.versionNotSupported (beUint (s.take 4))), .base (s.drop 4))
      ∧ (Error.versionNotSupported (beUint (s.take 4))).message =
          "version " ++ toString (beUint (s.take 4)) ++ " not supported, only version 5"
      ∧ Decode rt (.base s) =
          some ⟨some (.versionNotSupported (beUint (s.take 4))), [], .base (s.drop 4)⟩
      ∧ (∀ (r : Reader) (p : v5Format), (DecodeOnePacket rt r).1 = some p → p.Version = 5)
      ∧ (∀ (r : Reader) (res : DecodeResult), Decode rt r = some res →
          ∀ x ∈ res.delivered, ∃ p, x = some p ∧ p.Version = 5) := by
  have h := DecodeOnePacket_bad_version rt s h4 hv
  refine ⟨h, rfl, ?_, fun r p hp => DecodeOnePacket_version rt r p hp, ?_⟩
  · simp [Decode, DecodeLoop, h, Error.isEOF]
  · intro r res hres
    obtain ⟨ps, rf, e, hreach, _, heq⟩ := Decode_spec rt r
    rw [heq] at hres
    cases hres
    exact Reaches_version hreach

/-- C3 at a version-4 header followed by a complete version-5 datagram. -/
theorem C3_version_gate_witness :
    Decode (runtime64 65536) (.base [0, 0, 0, 4, 0, 0, 0, 5, 0, 0, 0, 0, 0, 0, 0, 1, 0, 0, 0, 2, 0, 0, 0, 3,
        0, 0, 0, 0]) =
      some ⟨some (.versionNotSupported 4), [],
        .base [0, 0, 0, 5, 0, 0, 0, 0, 0, 0, 0, 1, 0, 0, 0, 2, 0, 0, 0, 3, 0, 0, 0, 0]⟩
      ∧ (Error.versionNotSupported 4).message = "version 4 not supported, only version 5" :=
  ⟨(C3_version_gate (runtime64 65536) [0, 0, 0, 4, 0, 0, 0, 5, 0, 0, 0, 0, 0, 0, 0, 1, 0, 0, 0, 2, 0, 0, 0, 3,
      0, 0, 0, 0] (by decide) (by decide)).2.2.1, by decide⟩

theorem DecodeOnePacket_header (rt : Runtime) (s : List UInt8) (n : Nat) (h8 : 8 ≤ s.length) (hv : beUint (s.take 4) = 5)
    (ht : (beUint ((s.drop 4).take 4) = 0 ∧ n = 0) ∨ (beUint ((s.drop 4).take 4) = 1 ∧ n = 4)
      ∨ (beUint ((s.drop 4).take 4) = 2 ∧ n = 16)) (hlen : 20 + n ≤ s.length) :
    DecodeOnePacket rt (.base s) =
      (some { Version := 5, AgentAddress := { IP := (s.drop 8).take n, Zone := "" }, SubAgentID := beUint ((s.drop (8 + n)).take 4), SequenceNumber := beUint ((s.drop (12 + n)).take 4), Uptime := beUint ((s.drop (16 + n)).take 4), Samples := (decodeSamples rt (.base (s.drop (20 + n)))).1 },
        (decodeSamples rt (.base (s.drop (20 + n)))).2.1,
        (decodeSamples rt (.base (s.drop (20 + n)))).2.2) := by
  unfold DecodeOnePacket
  rw [readThen_base_ok _ _ _ (by omega)]
  simp only [hv, ne_eq, not_true_eq_false, if_false]
  rw [readThen_base_ok _ _ _ (by simp; omega)]
  rcases ht with ⟨ht, rfl⟩ | ⟨ht, rfl⟩ | ⟨ht, rfl⟩
  · simp only [ht, AddressTypeUnknown, AddressTypeIPV4, AddressTypeIPV6, if_true, List.length_replicate]
    rw [readThen_base_ok _ _ _ (by simp)]
    rw [readThen_base_ok _ _ _ (by simp; omega)]
    rw [readThen_base_ok _ _ _ (by simp; omega)]
    rw [readThen_base_ok _ _ _ (by simp; omega)]
    simp [List.drop_drop]
  · simp only [ht, AddressTypeUnknown, AddressTypeIPV4, AddressTypeIPV6, if_true, List.length_replicate]
    simp only [show ¬ ((1 : Nat) = 0) by decide, if_false]
    rw [readThen_base_ok _ _ _ (by simp; omega)]
    rw [readThen_base_ok _ _ _ (by simp; omega)]
    rw [readThen_base_ok _ _ _ (by simp; omega)]
    rw [readThen_base_ok _ _ _ (by simp; omega)]
    simp [List.drop_drop]
  · simp only [ht, AddressTypeUnknown, AddressTypeIPV4, AddressTypeIPV6, if_true, List.length_replicate]
    simp only [show ¬ ((2 : Nat) = 0) by decide, show ¬ ((2 : Nat) = 1) by decide, if_false]
    rw [readThen_base_ok _ _ _ (by simp; omega)]
    rw [readThen_base_ok _ _ _ (by simp; omega)]
    rw [readThen_base_ok _ _ _ (by simp; omega)]
    rw [readThen_base_ok _ _ _ (by simp; omega)]
    simp [List.drop_drop]


theorem readThen_fst_some {α : Type} {r : Reader} {n : Nat} {name : String}
    {k : List UInt8 → Reader → Option α × Option Error × Reader} {p : α}
    (h : (readThen r n name (none : Option α) k).1 = some p) :
    n ≤ r.avail ∧ (k (r.data.take n) (r.advance n)).1 = some p := by
  by_cases hn : n ≤ r.avail
  · rw [readThen_ok _ _ _ hn] at h; exact ⟨hn, h⟩
  · obtain ⟨c, hc⟩ := readThen_short name (none : Option α) k hn
    rw [hc] at h; simp at h

theorem DecodeOnePacket_header_only (rt : Runtime) (s : List UInt8) (h8 : 8 ≤ s.length) (hv : beUint (s.take 4) = 5)
    (p : v5Format) (hp : (DecodeOnePacket rt (.base s)).1 = some p) :
    ∃ n, ((beUint ((s.drop 4).take 4) = 0 ∧ n = 0) ∨ (beUint ((s.drop 4).take 4) = 1 ∧ n = 4)
      ∨ (beUint ((s.drop 4).take 4) = 2 ∧ n = 16)) ∧ 20 + n ≤ s.length := by
  unfold DecodeOnePacket at hp
  rw [readThen_base_ok _ _ _ (by omega)] at hp
  simp only [hv, ne_eq, not_true_eq_false, if_false] at hp
  rw [readThen_base_ok _ _ _ (by simp; omega)] at hp
  simp only [AddressTypeUnknown, AddressTypeIPV4, AddressTypeIPV6, List.length_replicate] at hp
  split at hp
  · rename_i ht
    refine ⟨0, Or.inl ⟨ht, rfl⟩, ?_⟩
    obtain ⟨h1, hp⟩ := readThen_fst_some hp
    obtain ⟨h2, hp⟩ := readThen_fst_some hp
    obtain ⟨h3, hp⟩ := readThen_fst_some hp
    obtain ⟨h4, hp⟩ := readThen_fst_some hp
    simp only [Reader.avail, Reader.advance, List.length_drop] at h1 h2 h3 h4
    omega
  · split at hp
    · rename_i ht
      refine ⟨4, Or.inr (Or.inl ⟨ht, rfl⟩), ?_⟩
      obtain ⟨h1, hp⟩ := readThen_fst_some hp
      obtain ⟨h2, hp⟩ := readThen_fst_some hp
      obtain ⟨h3, hp⟩ := readThen_fst_some hp
      obtain ⟨h4, hp⟩ := readThen_fst_some hp
      simp only [Reader.avail, Reader.advance, List.length_drop] at h1 h2 h3 h4
      omega
    · split at hp
      · rename_i ht
        refine ⟨16, Or.inr (Or.inr ⟨ht, rfl⟩), ?_⟩
        obtain ⟨h1, hp⟩ := readThen_fst_some hp
        obtain ⟨h2, hp⟩ := readThen_fst_some hp
        obtain ⟨h3, hp⟩ := readThen_fst_some hp
        obtain ⟨h4, hp⟩ := readThen_fst_some hp
        simp only [Reader.avail, Reader.advance, List.length_drop] at h1 h2 h3 h4
        omega
      · simp at hp

theorem DecodeOnePacket_bad_address (rt : Runtime) (s : List UInt8) (h8 : 8 ≤ s.length) (hv : beUint (s.take 4) = 5)
    (ht : 2 < beUint ((s.drop 4).take 4)) :
    DecodeOnePacket rt (.base s) =
      (none, some (.unknownAddressIPType (beUint ((s.drop 4).take 4))), .base (s.drop 8)) := by
  unfold DecodeOnePacket
  rw [readThen_base_ok _ _ _ (by omega)]
  simp only [hv, ne_eq, not_true_eq_false, if_false]
  rw [readThen_base_ok _ _ _ (by simp; omega)]
  have h0 : beUint ((s.drop 4).take 4) ≠ 0 := by omega
  have h1 : beUint ((s.drop 4).take 4) ≠ 1 := by omega
  have h2 : beUint ((s.drop 4).take 4) ≠ 2 := by omega
  simp [AddressTypeUnknown, AddressTypeIPV4, AddressTypeIPV6, h0, h1, h2, List.drop_drop]


/-- C4: on a version-5 stream whose address type (the u32 at offset 4) is 0, 1
or 2, `DecodeOnePacket` returns a datagram exactly when the stream holds the
`n` = 0, 4 or 16 address bytes and the three u32s after them; its agent
address is then the `n` bytes at offset 8 and `SubAgentID`, `SequenceNumber`
and `Uptime` are the big-endian u32s at offsets `8 + n`, `12 + n` and
`16 + n`. For any other address type `t` it returns no datagram and the error
"unknown address IP type t". -/
theorem C4_agent_address (rt : Runtime) (s : List UInt8) (h8 : 8 ≤ s.length) (hv : beUint (s.take 4) = 5) :
    (∀ n, ((beUint ((s.drop 4).take 4) = 0 ∧ n = 0) ∨ (beUint ((s.drop 4).take 4) = 1 ∧ n = 4)
          ∨ (beUint ((s.drop 4).take 4) = 2 ∧ n = 16)) → 20 + n ≤ s.length →
        DecodeOnePacket rt (.base s) =
          (some { Version := 5, AgentAddress := { IP := (s.drop 8).take n, Zone := "" }, SubAgentID := beUint ((s.drop (8 + n)).take 4), SequenceNumber := beUint ((s.drop (12 + n)).take 4), Uptime := beUint ((s.drop (16 + n)).take 4), Samples := (decodeSamples rt (.base (s.drop (20 + n)))).1 },
            (decodeSamples rt (.base (s.drop (20 + n)))).2.1,
            (decodeSamples rt (.base (s.drop (20 + n)))).2.2)
          ∧ ((s.drop 8).take n).length = n)
      ∧ (∀ p, (DecodeOnePacket rt (.base s)).1 = some p →
          ∃ n, ((beUint ((s.drop 4).take 4) = 0 ∧ n = 0)
            ∨ (beUint ((s.drop 4).take 4) = 1 ∧ n = 4)
            ∨ (beUint ((s.drop 4).take 4) = 2 ∧ n = 16)) ∧ 20 + n ≤ s.length)
      ∧ (2 < beUint ((s.drop 4).take 4) →
          DecodeOnePacket rt (.base s) =
            (none, some (.unknownAddressIPType (beUint ((s.drop 4).take 4))), .base (s.drop 8))
          ∧ (Error.unknownAddressIPType (beUint ((s.drop 4).take 4))).message =
              "unknown address IP type " ++ toString (beUint ((s.drop 4).take 4))) := by
  refine ⟨?_, DecodeOnePacket_header_only rt s h8 hv, fun ht => ⟨DecodeOnePacket_bad_address rt s h8 hv ht, rfl⟩⟩
  intro n ht hlen
  refine ⟨DecodeOnePacket_header rt s n h8 hv ht hlen, ?_⟩
  simp only [List.length_take, List.length_drop]
  omega

/-- C4 at a datagram with an IPv4 agent address and no samples. -/
theorem C4_agent_address_witness :
    DecodeOnePacket (runtime64 65536) (.base [0, 0, 0, 5, 0, 0, 0, 1, 10, 0, 0, 1, 0, 0, 0, 7, 0, 0, 0, 9,
        0, 0, 1, 0, 0, 0, 0, 0]) =
      (some { Version := 5, AgentAddress := { IP := [10, 0, 0, 1], Zone := "" }, SubAgentID := 7, SequenceNumber := 9, Uptime := 256, Samples := [] },
        none, .base []) :=
  ((C4_agent_address (runtime64 65536) [0, 0, 0, 5, 0, 0, 0, 1, 10, 0, 0, 1, 0, 0, 0, 7, 0, 0, 0, 9,
      0, 0, 1, 0, 0, 0, 0, 0] (by decide) (by decide)).1 4
    (Or.inr (Or.inl ⟨by decide, rfl⟩)) (by decide)).1


theorem Reaches_unique {rt : Runtime} {r rf rf1 : Reader} {ps ps1 : List (Option v5Format)}
    (h : Reaches rt r ps rf) (h1 : Reaches rt r ps1 rf1)
    (he : (DecodeOnePacket rt rf).2.1 ≠ none) (he1 : (DecodeOnePacket rt rf1).2.1 ≠ none) :
    ps1 = ps ∧ rf1 = rf := by
  induction h generalizing ps1 rf1 with
  | done r =>
    cases h1 with
    | done => exact ⟨rfl, rfl⟩
    | step hres _ => exact absurd hres he
  | step hres _ ih =>
    cases h1 with
    | done => exact absurd hres he1
    | step _ hreach1 =>
      obtain ⟨e1, e2⟩ := ih hreach1 he he1
      exact ⟨by rw [e1], e2⟩

theorem read_cause (r : Reader) (n : Nat) (name : String) :
    ((read r n name).1 = none ↔ n ≤ r.avail)
      ∧ ((read r n name).1 = some (.failedToRead name .EOF) ↔ (r.avail < n ∧ r.avail = 0))
      ∧ ((read r n name).1 = some (.failedToRead name .ErrUnexpectedEOF)
          ↔ (r.avail < n ∧ 0 < r.avail)) := by
  rw [read_eq]
  by_cases h1 : n ≤ r.avail
  · rw [if_pos h1]; simp; omega
  · rw [if_neg h1]
    by_cases h2 : r.avail = 0
    · rw [if_pos h2]; simp; omega
    · rw [if_neg h2]; simp; omega

/-- C7: the packets `Decode` hands to the sink are exactly the results of its
successive `DecodeOnePacket` calls that returned no error, in order and once
each, every one a datagram (not nil); the loop stops at the first call that
returns an error and the result of that call is not handed over. An empty
stream gives no sink call, and a stream holding exactly one valid datagram
gives exactly one. -/
theorem C7_sink_gets_the_successful_packets (rt : Runtime) (r : Reader) :
    (∃ res ps rf e, Decode rt r = some res ∧ Reaches rt r ps rf
        ∧ (DecodeOnePacket rt rf).2.1 = some e ∧ res.delivered = ps
        ∧ (∀ x ∈ ps, ∃ p, x = some p)
        ∧ (∀ ps1 rf1, Reaches rt r ps1 rf1 → (DecodeOnePacket rt rf1).2.1 ≠ none →
            ps1 = ps ∧ rf1 = rf))
      ∧ Decode rt (.base []) = some ⟨none, [], .base []⟩
      ∧ (∀ (s : List UInt8) (p : v5Format), DecodeOnePacket rt (.base s) = (some p, none, .base []) →
          Decode rt (.base s) = some ⟨none, [some p], .base []⟩) := by
  refine ⟨?_, rfl, ?_⟩
  · obtain ⟨ps, rf, e, hreach, herr, heq⟩ := Decode_spec rt r
    refine ⟨_, ps, rf, e, heq, hreach, herr, rfl, ?_, ?_⟩
    · intro x hx
      obtain ⟨p, hp, _⟩ := Reaches_version hreach x hx
      exact ⟨p, hp⟩
    · intro ps1 rf1 h1 he1
      exact Reaches_unique hreach h1 (by rw [herr]; simp) he1
  · intro s p hp
    have hs : 0 < s.length := by
      have := DecodeOnePacket_progress rt (.base s) (by rw [hp])
      rw [hp] at this
      simp only [Reader.data] at this
      omega
    obtain ⟨n, hn⟩ : ∃ n, s.length = n + 1 := ⟨s.length - 1, by omega⟩
    have h0 : DecodeOnePacket rt (.base []) = (none, some (.failedToRead "version" .EOF), .base []) :=
      rfl
    simp [Decode, Reader.data, hn, DecodeLoop, hp, h0, Error.isEOF]

/-- C7 at a stream holding one datagram with no samples. -/
theorem C7_sink_gets_the_successful_packets_witness :
    Decode (runtime64 65536) (.base [0, 0, 0, 5, 0, 0, 0, 0, 0, 0, 0, 7, 0, 0, 0, 9, 0, 0, 1, 0, 0, 0, 0, 0]) =
      some ⟨none, [some { Version := 5, AgentAddress := { IP := [], Zone := "" }, SubAgentID := 7, SequenceNumber := 9, Uptime := 256, Samples := [] }], .base []⟩ :=
  (C7_sink_gets_the_successful_packets (runtime64 65536) (.base [])).2.2
    [0, 0, 0, 5, 0, 0, 0, 0, 0, 0, 0, 7, 0, 0, 0, 9, 0, 0, 1, 0, 0, 0, 0, 0] _ (by decide)

/-- C5, the claim fails: a stream that ends right after the version field of a
datagram (on a field boundary inside the datagram) makes `DecodeOnePacket`
fail, and `Decode` returns nil. -/
theorem C5_counterexample :
    DecodeOnePacket (runtime64 65536) (.base [0, 0, 0, 5]) =
        (none, some (.failedToRead "address ip type" .EOF), .base [])
      ∧ Decode (runtime64 65536) (.base [0, 0, 0, 5]) = some ⟨none, [], .base []⟩ := by
  decide

/-- C5 as amended: `Decode` returns nil exactly when the `DecodeOnePacket` call
that ends its loop failed on a read that found no byte left (cause io.EOF),
and returns the error of that call otherwise. A read of `n` bytes fails with
cause io.EOF exactly when `n > 0` and no byte is available, and with cause
io.ErrUnexpectedEOF exactly when some but fewer than `n` bytes are. So
`Decode` returns nil when every datagram decoded and the stream ended exactly
before the version field of a next datagram, and an error when the stream
ends after one to three bytes of a version field. -/
theorem C5_Decode_nil_iff_cause_EOF (rt : Runtime) (s : List UInt8) :
    (∃ res ps rf e, Decode rt (.base s) = some res ∧ Reaches rt (.base s) ps rf
        ∧ (DecodeOnePacket rt rf).2.1 = some e
        ∧ (res.err = none ↔ ∃ name, e = .failedToRead name .EOF)
        ∧ (res.err ≠ none → res.err = some e)
        ∧ (rf.avail = 0 → res.err = none)
        ∧ (0 < rf.avail → rf.avail < 4 →
            res.err = some (.failedToRead "version" .ErrUnexpectedEOF)))
      ∧ (∀ (r : Reader) (n : Nat) (name : String),
          ((read r n name).1 = some (.failedToRead name .EOF) ↔ (r.avail < n ∧ r.avail = 0))
          ∧ ((read r n name).1 = some (.failedToRead name .ErrUnexpectedEOF)
              ↔ (r.avail < n ∧ 0 < r.avail))) := by
  refine ⟨?_, fun r n name => (read_cause r n name).2⟩
  obtain ⟨ps, rf, e, hreach, herr, heq⟩ := Decode_spec rt (.base s)
  have hver : ¬ 4 ≤ rf.avail → ∃ c, e = .failedToRead "version" c
      ∧ (c = .EOF ↔ rf.avail = 0) := by
    intro h4
    have hv := herr
    unfold DecodeOnePacket at hv
    dsimp only at hv
    unfold readThen at hv
    rw [read_eq, if_neg h4] at hv
    by_cases h0 : rf.avail = 0
    · rw [if_pos h0] at hv
      simp at hv
      exact ⟨.EOF, hv.symm, by simp [h0]⟩
    · rw [if_neg h0] at hv
      simp at hv
      exact ⟨.ErrUnexpectedEOF, hv.symm, by simp [h0]⟩
  refine ⟨_, ps, rf, e, heq, hreach, herr, ?_, ?_, ?_, ?_⟩
  · cases e with
    | failedToRead name c => cases c <;> simp [Error.isEOF]
    | versionNotSupported v => simp [Error.isEOF]
    | unknownAddressIPType t => simp [Error.isEOF]
    | unexpectedIPv6Version v => simp [Error.isEOF]
    | makesliceFailed cap => simp [Error.isEOF]
  · dsimp only
    split
    · intro h; exact absurd rfl h
    · intro _; rfl
  · intro h0
    obtain ⟨c, rfl, hc⟩ := hver (by omega)
    have : c = .EOF := hc.mpr h0
    subst this
    simp [Error.isEOF]
  · intro h0 h4
    obtain ⟨c, rfl, hc⟩ := hver (by omega)
    cases c with
    | EOF => have := hc.mp rfl; omega
    | ErrUnexpectedEOF => simp [Error.isEOF]

/-- C5 as amended, at a stream that ends after three bytes of a version
field. -/
theorem C5_Decode_nil_iff_cause_EOF_witness :
    ∃ res ps rf e, Decode (runtime64 65536) (.base [0, 0, 5]) = some res ∧ Reaches (runtime64 65536) (.base [0, 0, 5]) ps rf
        ∧ (DecodeOnePacket (runtime64 65536) rf).2.1 = some e
        ∧ (res.err = none ↔ ∃ name, e = .failedToRead name .EOF)
        ∧ (res.err ≠ none → res.err = some e)
        ∧ (rf.avail = 0 → res.err = none)
        ∧ (0 < rf.avail → rf.avail < 4 →
            res.err = some (.failedToRead "version" .ErrUnexpectedEOF)) :=
  (C5_Decode_nil_iff_cause_EOF (runtime64 65536) [0, 0, 5]).1


/-! ## Decoding a byte source that has been cut short -/

theorem Trunc.data_prefix : ∀ {rP r : Reader}, Trunc rP r → rP.data <+: r.data
  | .base _, .base _, h => h
  | .bounded pP _, .bounded p _, h => @Trunc.data_prefix pP p h.1
  | .base _, .bounded _ _, h => h.elim
  | .bounded _ _, .base _, h => h.elim

theorem Trunc.avail_le : ∀ {rP r : Reader}, Trunc rP r → rP.avail ≤ r.avail
  | .base _, .base _, h => List.IsPrefix.length_le h
  | .bounded pP bP, .bounded p b, h => by
    have ih := Trunc.avail_le h.1
    have hle := pP.avail_le_data
    simp only [Reader.avail]
    rcases h.2 with e | e
    · omega
    · have : pP.data.length = 0 := by rw [e]; rfl
      omega
  | .base _, .bounded _ _, h => h.elim
  | .bounded _ _, .base _, h => h.elim

theorem Trunc.avail_cases : ∀ {rP r : Reader}, Trunc rP r →
    rP.avail = r.avail ∨ rP.avail = rP.data.length
  | .base _, .base _, _ => Or.inr rfl
  | .bounded pP bP, .bounded p b, h => by
    have ih := Trunc.avail_cases h.1
    have hle := pP.avail_le_data
    have hle2 := Trunc.avail_le h.1
    simp only [Reader.avail, Reader.data]
    rcases h.2 with e | e
    · omega
    · have : pP.data.length = 0 := by rw [e]; rfl
      omega
  | .base _, .bounded _ _, h => h.elim
  | .bounded _ _, .base _, h => h.elim

theorem Trunc.advance : ∀ {rP r : Reader} (k : Nat), Trunc rP r →
    Trunc (rP.advance k) (r.advance k)
  | .base dP, .base d, k, h => by
    obtain ⟨t, rfl⟩ := h
    simp only [Reader.advance, Trunc]
    rcases Nat.le_total k dP.length with hk | hk
    · rw [List.drop_append_of_le_length hk]; exact List.prefix_append _ _
    · rw [List.drop_of_length_le hk]; exact List.nil_prefix
  | .bounded pP bP, .bounded p b, k, h => by
    simp only [Reader.advance, Trunc]
    refine ⟨Trunc.advance k h.1, ?_⟩
    rcases h.2 with e | e
    · exact Or.inl (by rw [e])
    · exact Or.inr (by rw [Reader.data_advance, e]; simp)
  | .base _, .bounded _ _, _, h => h.elim
  | .bounded _ _, .base _, _, h => h.elim

theorem Trunc.advance_exhausted : ∀ {rP r : Reader} (a b : Nat), Trunc rP r →
    (rP.advance a).data = [] → Trunc (rP.advance a) (r.advance b)
  | .base dP, .base d, a, b, _, he => by
    simp only [Reader.advance, Reader.data] at he
    simp only [Reader.advance, Trunc, he]
    exact List.nil_prefix
  | .bounded pP bP, .bounded p b, a, c, h, he => by
    simp only [Reader.advance, Reader.data] at he
    simp only [Reader.advance, Trunc]
    exact ⟨Trunc.advance_exhausted a c h.1 he, Or.inr he⟩
  | .base _, .bounded _ _, _, _, h, _ => h.elim
  | .bounded _ _, .base _, _, _, h, _ => h.elim

theorem Trunc.Close : ∀ {rP r : Reader}, Trunc rP r → Trunc rP.Close r.Close
  | .base _, .base _, h => h
  | .bounded pP bP, .bounded p b, h => by
    simp only [Reader.Close, Reader.Read_eq]
    have hle := pP.avail_le_data
    have hle2 := Trunc.avail_le h.1
    rcases h.2 with e | e
    · subst e
      rcases Trunc.avail_cases h.1 with c | c
      · rw [c]; exact Trunc.advance _ h.1
      · by_cases hb : bP ≤ pP.avail
        · have e1 : min bP pP.avail = bP := by omega
          have e2 : min bP p.avail = bP := by omega
          rw [e1, e2]; exact Trunc.advance _ h.1
        · have e1 : min bP pP.avail = pP.avail := by omega
          rw [e1]
          apply Trunc.advance_exhausted _ _ h.1
          rw [Reader.data_advance, c]
          exact List.drop_length _
    · apply Trunc.advance_exhausted _ _ h.1
      rw [Reader.data_advance, e]; simp
  | .base _, .bounded _ _, h => h.elim
  | .bounded _ _, .base _, h => h.elim

theorem Trunc.MinReader {rP r : Reader} (L : Nat) (h : Trunc rP r) :
    Trunc (MinReader rP L) (MinReader r L) := by
  unfold Sflow.MinReader
  exact ⟨h, Or.inl rfl⟩

theorem Sim.final {α : Type} {rP r : Reader} (v : α) (e : Option Error) (h : Trunc rP r) :
    Sim (v, e, rP) (v, e, r) := by
  intro he
  exact Or.inr ⟨rfl, he, h⟩

theorem sim_readThen {α : Type} {rP r : Reader} {n : Nat} {name : String} {ret : α}
    {k : List UInt8 → Reader → α × Option Error × Reader}
    (ht : Trunc rP r) (hk : ∀ bs rP1 r1, Trunc rP1 r1 → Sim (k bs rP1) (k bs r1)) :
    Sim (readThen rP n name ret k) (readThen r n name ret k) := by
  intro he
  by_cases hn : n ≤ r.avail
  · by_cases hnP : n ≤ rP.avail
    · rw [readThen_ok _ _ _ hn] at he ⊢
      rw [readThen_ok _ _ _ hnP]
      have hd : rP.data.take n = r.data.take n := by
        obtain ⟨t, ht2⟩ := ht.data_prefix
        have hle := rP.avail_le_data
        rw [← ht2, List.take_append_of_le_length (by omega)]
      rw [hd]
      exact hk _ _ _ (ht.advance n) he
    · obtain ⟨c, hc⟩ := readThen_short name ret k hnP
      rw [hc]
      exact Or.inl ⟨name, c, rfl⟩
  · obtain ⟨c, hc⟩ := readThen_short name ret k hn
    rw [hc] at he
    simp at he


theorem Sim.ite {α : Type} {c : Prop} [Decidable c] {a1 b1 a2 b2 : α × Option Error × Reader}
    (h1 : c → Sim a1 a2) (h2 : ¬ c → Sim b1 b2) :
    Sim (if c then a1 else b1) (if c then a2 else b2) := by
  by_cases hc : c
  · rw [if_pos hc, if_pos hc]; exact h1 hc
  · rw [if_neg hc, if_neg hc]; exact h2 hc

theorem Sim.inner {α β : Type} {x y : β × Option Error × Reader} (h : Sim x y) (vP v : α)
    (hv : x.1 = y.1 → vP = v) : Sim (vP, x.2.1, x.2.2) (v, y.2.1, y.2.2) := by
  intro he
  rcases h he with h1 | ⟨h1, h2, h3⟩
  · exact Or.inl h1
  · exact Or.inr ⟨hv h1, h2, h3⟩

theorem Sim.innerClose {α β : Type} {x y : β × Option Error × Reader} (h : Sim x y) (vP v : α)
    (hv : x.1 = y.1 → vP = v) : Sim (vP, x.2.1, x.2.2.Close) (v, y.2.1, y.2.2.Close) := by
  intro he
  rcases h he with h1 | ⟨h1, h2, h3⟩
  · exact Or.inl h1
  · exact Or.inr ⟨hv h1, h2, h3.Close⟩

theorem Sim.error {α : Type} (x : α × Option Error × Reader) (v : α) (e : Error) (r : Reader) :
    Sim x (v, some e, r) := by
  intro he; simp at he

theorem decodeUDPHeader_sim {rP r : Reader} (ht : Trunc rP r) :
    Sim (decodeUDPHeader rP) (decodeUDPHeader r) := by
  unfold decodeUDPHeader
  dsimp only
  repeat (first | (exact Sim.final _ _ (by assumption)) | (apply sim_readThen (by assumption); intro _ _ _ _))

theorem decodeTCPHeader_sim {rP r : Reader} (ht : Trunc rP r) :
    Sim (decodeTCPHeader rP) (decodeTCPHeader r) := by
  unfold decodeTCPHeader
  dsimp only
  repeat (first | (exact Sim.final _ _ (by assumption)) | (apply sim_readThen (by assumption); intro _ _ _ _))

theorem decodeIPv4Header_sim {rP r : Reader} (ht : Trunc rP r) :
    Sim (decodeIPv4Header rP) (decodeIPv4Header r) := by
  unfold decodeIPv4Header
  dsimp only
  repeat (first | (apply sim_readThen (by assumption); intro _ _ _ _))
  apply Sim.ite
  · intro _
    apply Sim.inner (decodeTCPHeader_sim (by assumption))
    intro e; rw [e]
  · intro _
    apply Sim.ite
    · intro _
      apply Sim.inner (decodeUDPHeader_sim (by assumption))
      intro e; rw [e]
    · intro _
      exact Sim.final _ _ (by assumption)

theorem decodeIPv6Header_sim {rP r : Reader} (ht : Trunc rP r) :
    Sim (decodeIPv6Header rP) (decodeIPv6Header r) := by
  unfold decodeIPv6Header
  dsimp only
  apply sim_readThen ht; intro _ _ _ _
  apply Sim.ite
  · intro _; exact Sim.error _ _ _ _
  · intro _
    repeat (first | (apply sim_readThen (by assumption); intro _ _ _ _))
    apply Sim.ite
    · intro _
      apply Sim.inner (decodeTCPHeader_sim (by assumption))
      intro e; rw [e]
    · intro _
      apply Sim.ite
      · intro _
        apply Sim.inner (decodeUDPHeader_sim (by assumption))
        intro e; rw [e]
      · intro _
        exact Sim.final _ _ (by assumption)

theorem decodeEthHeader_sim {rP r : Reader} (ht : Trunc rP r) :
    Sim (decodeEthHeader rP) (decodeEthHeader r) := by
  unfold decodeEthHeader
  dsimp only
  repeat (first | (apply sim_readThen (by assumption); intro _ _ _ _))
  apply Sim.ite
  · intro _
    repeat (first | (apply sim_readThen (by assumption); intro _ _ _ _))
    apply Sim.ite
    · intro _
      apply Sim.inner (decodeIPv4Header_sim (by assumption))
      intro e; rw [e]
    · intro _
      apply Sim.ite
      · intro _
        apply Sim.inner (decodeIPv6Header_sim (by assumption))
        intro e; rw [e]
      · intro _
        exact Sim.final _ _ (by assumption)
  · intro _
    apply Sim.ite
    · intro _
      apply Sim.inner (decodeIPv4Header_sim (by assumption))
      intro e; rw [e]
    · intro _
      apply Sim.ite
      · intro _
        apply Sim.inner (decodeIPv6Header_sim (by assumption))
        intro e; rw [e]
      · intro _
        exact Sim.final _ _ (by assumption)

theorem decodeRawPacketHeaderFlowData_sim (s : Nat) {rP r : Reader} (ht : Trunc rP r) :
    Sim (decodeRawPacketHeaderFlowData rP s) (decodeRawPacketHeaderFlowData r s) := by
  unfold decodeRawPacketHeaderFlowData
  dsimp only
  repeat (first | (apply sim_readThen (by assumption); intro _ _ _ _))
  apply Sim.ite
  · intro _
    apply Sim.innerClose (decodeEthHeader_sim (Trunc.MinReader _ (by assumption)))
    intro e; rw [e]
  · intro _
    exact Sim.final _ _ (Trunc.Close (Trunc.MinReader _ (by assumption)))


theorem Sim.step {α β : Type} {x y : α × Option Error × Reader} (h : Sim x y) (acc : β)
    (cl : Reader → Reader) (hcl : ∀ a b, Trunc a b → Trunc (cl a) (cl b))
    (F : α → Reader → β × Option Error × Reader)
    (hF : ∀ v a b, Trunc a b → Sim (F v a) (F v b)) :
    Sim (match x.2.1 with
          | some err => (acc, some err, cl x.2.2)
          | none => F x.1 (cl x.2.2))
        (match y.2.1 with
          | some err => (acc, some err, cl y.2.2)
          | none => F y.1 (cl y.2.2)) := by
  obtain ⟨xv, xe, xr⟩ := x
  obtain ⟨yv, ye, yr⟩ := y
  intro he
  cases ye with
  | some e => simp at he
  | none =>
    rcases h rfl with ⟨name, c, h1⟩ | ⟨h1, h2, h3⟩
    · simp only at h1
      subst h1
      exact Or.inl ⟨name, c, rfl⟩
    · simp only at h1 h2 h3
      subst h1 h2
      exact hF _ _ _ (hcl _ _ h3) he

theorem decodeFlowRecordsLoop_sim (s n : Nat) : ∀ {rP r : Reader} (recs : List flowRecord),
    Trunc rP r → Sim (decodeFlowRecordsLoop s n rP recs) (decodeFlowRecordsLoop s n r recs) := by
  induction n with
  | zero => intro rP r recs ht; exact Sim.final _ _ ht
  | succ n ih =>
    intro rP r recs ht
    unfold decodeFlowRecordsLoop
    dsimp only
    apply sim_readThen ht; intro bs rP1 r1 ht1
    apply sim_readThen ht1; intro bs2 rP2 r2 ht2
    apply Sim.ite
    · intro _
      exact Sim.step (decodeRawPacketHeaderFlowData_sim s (Trunc.MinReader _ ht2)) recs
        Reader.Close (fun _ _ h => h.Close)
        (fun v a => decodeFlowRecordsLoop s n a
          (recs ++ [{ FlowFormat := beUint bs, FlowData := some v }]))
        (fun v a b h => ih _ h)
    · intro _
      exact ih _ (Trunc.Close (Trunc.MinReader _ ht2))

theorem decodeFlowRecords_sim (s : Nat) {rP r : Reader} (ht : Trunc rP r) :
    Sim (decodeFlowRecords rP s) (decodeFlowRecords r s) := by
  unfold decodeFlowRecords
  apply sim_readThen ht; intro _ _ _ h
  exact decodeFlowRecordsLoop_sim s _ _ h

theorem decodeFlowSample_sim {rP r : Reader} (ht : Trunc rP r) :
    Sim (decodeFlowSample rP) (decodeFlowSample r) := by
  unfold decodeFlowSample
  dsimp only
  repeat (first | (apply sim_readThen (by assumption); intro _ _ _ _))
  apply Sim.inner (decodeFlowRecords_sim _ (by assumption))
  intro e; rw [e]

theorem decodeFlowSampleExpanded_sim {rP r : Reader} (ht : Trunc rP r) :
    Sim (decodeFlowSampleExpanded rP) (decodeFlowSampleExpanded r) := by
  unfold decodeFlowSampleExpanded
  dsimp only
  repeat (first | (apply sim_readThen (by assumption); intro _ _ _ _))
  apply Sim.inner (decodeFlowRecords_sim _ (by assumption))
  intro e; rw [e]

theorem decodeSample_sim {rP r : Reader} (ht : Trunc rP r) :
    Sim (decodeSample rP) (decodeSample r) := by
  unfold decodeSample
  dsimp only
  repeat (first | (apply sim_readThen (by assumption); intro _ _ _ _))
  apply Sim.ite
  · intro _
    apply Sim.innerClose (decodeFlowSample_sim (Trunc.MinReader _ (by assumption)))
    intro e; rw [e]
  · intro _
    apply Sim.ite
    · intro _
      apply Sim.innerClose (decodeFlowSampleExpanded_sim (Trunc.MinReader _ (by assumption)))
      intro e; rw [e]
    · intro _
      exact Sim.final _ _ (Trunc.Close (Trunc.MinReader _ (by assumption)))

theorem decodeSamplesLoop_sim (n : Nat) : ∀ {rP r : Reader} (result : List sample),
    Trunc rP r → Sim (decodeSamplesLoop n rP result) (decodeSamplesLoop n r result) := by
  induction n with
  | zero => intro rP r result ht; exact Sim.final _ _ ht
  | succ n ih =>
    intro rP r result ht
    unfold decodeSamplesLoop
    dsimp only
    exact Sim.step (decodeSample_sim ht) result id (fun _ _ h => h)
      (fun v a => decodeSamplesLoop n a (result ++ [v])) (fun v a b h => ih _ h)

theorem decodeSamples_sim (rt : Runtime) {rP r : Reader} (ht : Trunc rP r) :
    Sim (decodeSamples rt rP) (decodeSamples rt r) := by
  unfold decodeSamples
  apply sim_readThen ht; intro _ _ _ h
  dsimp only
  apply Sim.ite
  · intro _; exact Sim.error _ _ _ _
  · intro _; exact decodeSamplesLoop_sim _ _ h

theorem DecodeOnePacket_sim (rt : Runtime) {rP r : Reader} (ht : Trunc rP r) :
    Sim (DecodeOnePacket rt rP) (DecodeOnePacket rt r) := by
  unfold DecodeOnePacket
  dsimp only
  apply sim_readThen ht; intro _ _ _ _
  apply Sim.ite
  · intro _; exact Sim.error _ _ _ _
  · intro _
    apply sim_readThen (by assumption); intro _ _ _ _
    apply Sim.ite
    · intro _
      repeat (first | (apply sim_readThen (by assumption); intro _ _ _ _))
      apply Sim.inner (decodeSamples_sim rt (by assumption))
      intro e; rw [e]
    · intro _
      apply Sim.ite
      · intro _
        repeat (first | (apply sim_readThen (by assumption); intro _ _ _ _))
        apply Sim.inner (decodeSamples_sim rt (by assumption))
        intro e; rw [e]
      · intro _
        apply Sim.ite
        · intro _
          repeat (first | (apply sim_readThen (by assumption); intro _ _ _ _))
          apply Sim.inner (decodeSamples_sim rt (by assumption))
          intro e; rw [e]
        · intro _; exact Sim.error _ _ _ _

/-- C6, the claim fails: a complete datagram whose one sample has the unknown
type 2 and declared length 4 decodes without error, and so does the same byte
string with its last 4 bytes removed (`Close` discards what is there). -/
theorem C6_counterexample :
    DecodeOnePacket (runtime64 65536) (.base [0, 0, 0, 5, 0, 0, 0, 0, 0, 0, 0, 7, 0, 0, 0, 9, 0, 0, 1, 0,
        0, 0, 0, 1, 0, 0, 0, 2, 0, 0, 0, 4, 1, 2, 3, 4]) =
      (some { Version := 5, AgentAddress := { IP := [], Zone := "" }, SubAgentID := 7, SequenceNumber := 9, Uptime := 256, Samples := [{ SampleType := 2, SampleData := none }] },
        none, .base [])
    ∧ DecodeOnePacket (runtime64 65536) (.base [0, 0, 0, 5, 0, 0, 0, 0, 0, 0, 0, 7, 0, 0, 0, 9, 0, 0, 1, 0,
        0, 0, 0, 1, 0, 0, 0, 2, 0, 0, 0, 4]) =
      (some { Version := 5, AgentAddress := { IP := [], Zone := "" }, SubAgentID := 7, SequenceNumber := 9, Uptime := 256, Samples := [{ SampleType := 2, SampleData := none }] },
        none, .base []) := by
  decide



/-- C8: once `decodeFlowSample` has read its seven u32s (28 bytes), the source
index is the low 24 bits of the source-id word, the interface indices are the
low 30 bits of the input and output words, and `SampleDirection` is "egress"
if the source index equals the output index, otherwise "ingress" if it equals
the input index, otherwise empty. Once `decodeFlowSampleExpanded` has read
its ten u32s (40 bytes), the same holds with the three indices read as words
of their own. -/
theorem C8_sample_direction (r : Reader) :
    (28 ≤ r.avail →
        (decodeFlowSample r).1.SourceIDIndex = beUint ((r.data.drop 4).take 4) &&& 0x00ffffff
        ∧ (decodeFlowSample r).1.InputIfIndex = beUint ((r.data.drop 20).take 4) &&& 0x3FFFFFFF
        ∧ (decodeFlowSample r).1.OutputIfIndex = beUint ((r.data.drop 24).take 4) &&& 0x3FFFFFFF
        ∧ (decodeFlowSample r).1.SampleDirection =
            if (decodeFlowSample r).1.SourceIDIndex = (decodeFlowSample r).1.OutputIfIndex
            then "egress"
            else if (decodeFlowSample r).1.SourceIDIndex = (decodeFlowSample r).1.InputIfIndex
            then "ingress"
            else "")
      ∧ (40 ≤ r.avail →
        (decodeFlowSampleExpanded r).1.SourceIDIndex = beUint ((r.data.drop 8).take 4)
        ∧ (decodeFlowSampleExpanded r).1.InputIfIndex = beUint ((r.data.drop 28).take 4)
        ∧ (decodeFlowSampleExpanded r).1.OutputIfIndex = beUint ((r.data.drop 36).take 4)
        ∧ (decodeFlowSampleExpanded r).1.SampleDirection =
            if (decodeFlowSampleExpanded r).1.SourceIDIndex
                = (decodeFlowSampleExpanded r).1.OutputIfIndex
            then "egress"
            else if (decodeFlowSampleExpanded r).1.SourceIDIndex
                = (decodeFlowSampleExpanded r).1.InputIfIndex
            then "ingress"
            else "") := by
  constructor
  · intro h
    unfold decodeFlowSample
    rw [readThen_ok _ _ _ (by omega)]
    rw [readThen_ok _ _ _ (by simp only [Reader.avail_advance, Reader.advance_advance]; omega)]
    rw [readThen_ok _ _ _ (by simp only [Reader.avail_advance, Reader.advance_advance]; omega)]
    rw [readThen_ok _ _ _ (by simp only [Reader.avail_advance, Reader.advance_advance]; omega)]
    rw [readThen_ok _ _ _ (by simp only [Reader.avail_advance, Reader.advance_advance]; omega)]
    rw [readThen_ok _ _ _ (by simp only [Reader.avail_advance, Reader.advance_advance]; omega)]
    rw [readThen_ok _ _ _ (by simp only [Reader.avail_advance, Reader.advance_advance]; omega)]
    simp only [Reader.advance_advance, Reader.data_advance, sampleDirection]
    split
    · rename_i h1
      simp [h1]
    · split
      · rename_i h1 h2
        simp [h1, h2]
      · rename_i h1 h2
        simp [h1, h2]
  · intro h
    unfold decodeFlowSampleExpanded
    rw [readThen_ok _ _ _ (by omega)]
    rw [readThen_ok _ _ _ (by simp only [Reader.avail_advance, Reader.advance_advance]; omega)]
    rw [readThen_ok _ _ _ (by simp only [Reader.avail_advance, Reader.advance_advance]; omega)]
    rw [readThen_ok _ _ _ (by simp only [Reader.avail_advance, Reader.advance_advance]; omega)]
    rw [readThen_ok _ _ _ (by simp only [Reader.avail_advance, Reader.advance_advance]; omega)]
    rw [readThen_ok _ _ _ (by simp only [Reader.avail_advance, Reader.advance_advance]; omega)]
    rw [readThen_ok _ _ _ (by simp only [Reader.avail_advance, Reader.advance_advance]; omega)]
    rw [readThen_ok _ _ _ (by simp only [Reader.avail_advance, Reader.advance_advance]; omega)]
    rw [readThen_ok _ _ _ (by simp only [Reader.avail_advance, Reader.advance_advance]; omega)]
    rw [readThen_ok _ _ _ (by simp only [Reader.avail_advance, Reader.advance_advance]; omega)]
    simp only [Reader.advance_advance, Reader.data_advance, sampleDirection]
    split
    · rename_i h1
      simp [h1]
    · split
      · rename_i h1 h2
        simp [h1, h2]
      · rename_i h1 h2
        simp [h1, h2]

/-- C8 at a flow sample whose source index 3 equals both interface indices. -/
theorem C8_sample_direction_witness :
    (decodeFlowSample (.base [0, 0, 0, 1, 0, 0, 0, 3, 0, 0, 4, 0, 0, 0, 0, 9, 0, 0, 0, 0,
        0, 0, 0, 3, 0, 0, 0, 3, 0, 0, 0, 0])).1.SampleDirection = "egress" :=
  ((C8_sample_direction (.base [0, 0, 0, 1, 0, 0, 0, 3, 0, 0, 4, 0, 0, 0, 0, 9, 0, 0, 0, 0,
      0, 0, 0, 3, 0, 0, 0, 3, 0, 0, 0, 0])).1 (by decide)).2.2.2


/-- C9, the code at a failing input: a raw packet header with frame length 1500
inside a flow sample with sampling rate 4194304 gets `Bytes` 1996488704, which
is the product 6291456000 reduced modulo 2^32. -/
theorem C9_bytes_wraps_at_32_bits :
    (decodeRawPacketHeaderFlowData
        (.base [0, 0, 0, 2, 0, 0, 5, 220, 0, 0, 0, 0, 0, 0, 0, 0]) 4194304).1.FrameLength = 1500
      ∧ (decodeRawPacketHeaderFlowData
        (.base [0, 0, 0, 2, 0, 0, 5, 220, 0, 0, 0, 0, 0, 0, 0, 0]) 4194304).1.Bytes
          = 1996488704
      ∧ 1500 * 4194304 = 6291456000
      ∧ (decodeRawPacketHeaderFlowData
        (.base [0, 0, 0, 2, 0, 0, 5, 220, 0, 0, 0, 0, 0, 0, 0, 0]) 4194304).1.Bytes
          ≠ 1500 * 4194304 := by
  decide

theorem decodeRawPacketHeaderFlowData_Bytes (r : Reader) (s : Nat) (h : 8 ≤ r.avail) :
    (decodeRawPacketHeaderFlowData r s).1.Bytes
      = (beUint ((r.data.drop 4).take 4) * s) % 2 ^ 32 := by
  have hfin : ∀ (x y : rawPacketHeaderFlowData × Option Error × Reader) (c : Prop) [Decidable c]
      (v : Nat), x.1.Bytes = v → y.1.Bytes = v → (if c then x else y).1.Bytes = v := by
    intro x y c _ v hx hy; split <;> assumption
  unfold decodeRawPacketHeaderFlowData
  rw [readThen_ok _ _ _ (by omega)]
  rw [readThen_ok _ _ _ (by simp only [Reader.avail_advance]; omega)]
  simp only [Reader.data_advance]
  apply readThen_ind (fun (res : rawPacketHeaderFlowData × Option Error × Reader) => res.1.Bytes = (beUint ((r.data.drop 4).take 4) * s) % 2 ^ 32)
  · intro _ _; rfl
  intro _ _
  apply readThen_ind (fun (res : rawPacketHeaderFlowData × Option Error × Reader) => res.1.Bytes = (beUint ((r.data.drop 4).take 4) * s) % 2 ^ 32)
  · intro _ _; rfl
  intro _ _
  exact hfin _ _ _ _ rfl rfl


/-- C10: on a frame of at least 14 bytes whose u16 at offset 12 is not 0x8100,
`decodeEthHeader` sets `DestinationMAC` to bytes 0-5, `SourceMAC` to bytes
6-11 and `EtherTypeCode` to that u16, and decodes the IP header (IPv4 for
0x0800, IPv6 for 0x86DD, none otherwise) from offset 14. On a frame of at
least 18 bytes whose u16 at offset 12 is 0x8100 it skips the two bytes at
offset 14, sets `EtherTypeCode` to the u16 at offset 16 and decodes the IP
header from offset 18. -/
theorem C10_decodeEthHeader (r : Reader) :
    (14 ≤ r.avail → beUint ((r.data.drop 12).take 2) ≠ 0x8100 →
      decodeEthHeader r =
        if beUint ((r.data.drop 12).take 2) = 0x0800 then
          ({ DestinationMAC := r.data.take 6, SourceMAC := (r.data.drop 6).take 6, EtherTypeCode := beUint ((r.data.drop 12).take 2), EtherType := "IPv4", IPHeader := some (.v4 (decodeIPv4Header (r.advance 14)).1) },
            (decodeIPv4Header (r.advance 14)).2.1, (decodeIPv4Header (r.advance 14)).2.2)
        else if beUint ((r.data.drop 12).take 2) = 0x86DD then
          ({ DestinationMAC := r.data.take 6, SourceMAC := (r.data.drop 6).take 6, EtherTypeCode := beUint ((r.data.drop 12).take 2), EtherType := "IPv6", IPHeader := some (.v6 (decodeIPv6Header (r.advance 14)).1) },
            (decodeIPv6Header (r.advance 14)).2.1, (decodeIPv6Header (r.advance 14)).2.2)
        else
          ({ DestinationMAC := r.data.take 6, SourceMAC := (r.data.drop 6).take 6, EtherTypeCode := beUint ((r.data.drop 12).take 2), EtherType := "", IPHeader := none },
            none, r.advance 14))
    ∧ (18 ≤ r.avail → beUint ((r.data.drop 12).take 2) = 0x8100 →
      decodeEthHeader r =
        if beUint ((r.data.drop 16).take 2) = 0x0800 then
          ({ DestinationMAC := r.data.take 6, SourceMAC := (r.data.drop 6).take 6, EtherTypeCode := beUint ((r.data.drop 16).take 2), EtherType := "IPv4", IPHeader := some (.v4 (decodeIPv4Header (r.advance 18)).1) },
            (decodeIPv4Header (r.advance 18)).2.1, (decodeIPv4Header (r.advance 18)).2.2)
        else if beUint ((r.data.drop 16).take 2) = 0x86DD then
          ({ DestinationMAC := r.data.take 6, SourceMAC := (r.data.drop 6).take 6, EtherTypeCode := beUint ((r.data.drop 16).take 2), EtherType := "IPv6", IPHeader := some (.v6 (decodeIPv6Header (r.advance 18)).1) },
            (decodeIPv6Header (r.advance 18)).2.1, (decodeIPv6Header (r.advance 18)).2.2)
        else
          ({ DestinationMAC := r.data.take 6, SourceMAC := (r.data.drop 6).take 6, EtherTypeCode := beUint ((r.data.drop 16).take 2), EtherType := "", IPHeader := none },
            none, r.advance 18)) := by
  constructor
  · intro h hne
    unfold decodeEthHeader
    rw [readThen_ok _ _ _ (by omega)]
    rw [readThen_ok _ _ _ (by simp only [Reader.avail_advance, Reader.advance_advance]; omega)]
    rw [readThen_ok _ _ _ (by simp only [Reader.avail_advance, Reader.advance_advance]; omega)]
    simp only [Reader.advance_advance, Reader.data_advance, List.drop_drop, hne, if_false,
      eTypeMap]
    split
    · simp
    · split
      · simp
      · simp
  · intro h he
    unfold decodeEthHeader
    rw [readThen_ok _ _ _ (by omega)]
    rw [readThen_ok _ _ _ (by simp only [Reader.avail_advance, Reader.advance_advance]; omega)]
    rw [readThen_ok _ _ _ (by simp only [Reader.avail_advance, Reader.advance_advance]; omega)]
    simp only [Reader.advance_advance, Reader.data_advance, List.drop_drop, he, if_true]
    rw [readThen_ok _ _ _ (by simp only [Reader.avail_advance, Reader.advance_advance]; omega)]
    rw [readThen_ok _ _ _ (by simp only [Reader.avail_advance, Reader.advance_advance]; omega)]
    simp only [Reader.advance_advance, Reader.data_advance, List.drop_drop, eTypeMap]
    split
    · simp
    · split
      · simp
      · simp

/-- C10 at an 802.1Q-tagged frame with ether type 0x0800 that ends after the
ether type: the IPv4 decoder is started at offset 18 and finds no byte. -/
theorem C10_decodeEthHeader_witness :
    decodeEthHeader (.base [1, 2, 3, 4, 5, 6, 7, 8, 9, 10, 11, 12, 0x81, 0x00, 0, 5, 0x08, 0x00]) =
      ({ DestinationMAC := [1, 2, 3, 4, 5, 6], SourceMAC := [7, 8, 9, 10, 11, 12], EtherTypeCode := 0x0800, EtherType := "IPv4", IPHeader := some (.v4 {}) },
        some (.failedToRead "Version" .EOF), .base []) :=
  (C10_decodeEthHeader
    (.base [1, 2, 3, 4, 5, 6, 7, 8, 9, 10, 11, 12, 0x81, 0x00, 0, 5, 0x08, 0x00])).2
    (by decide) (by decide)


/-! ## Bit fields -/

theorem beUint_append_singleton (bs : List UInt8) (b : UInt8) :
    beUint (bs ++ [b]) = beUint bs * 256 + b.toNat := by
  simp [beUint, List.foldl_append]

theorem beUint_lt (bs : List UInt8) : beUint bs < 256 ^ bs.length := by
  induction bs using List.reverseRecOn with
  | nil => simp [beUint]
  | append_singleton bs b ih =>
    rw [beUint_append_singleton, List.length_append, List.length_singleton, Nat.pow_succ]
    have hb : b.toNat < 256 := b.toNat_lt
    omega

theorem beUint_take_lt (l : List UInt8) (n : Nat) : beUint (l.take n) < 256 ^ n := by
  have h := beUint_lt (l.take n)
  have hle : (l.take n).length ≤ n := by simp [List.length_take]
  exact Nat.lt_of_lt_of_le h (Nat.pow_le_pow_right (by decide) hle)

theorem and_shifted_mask (x a b : Nat) :
    (x &&& ((2 ^ b - 1) <<< a)) >>> a = (x >>> a) % 2 ^ b := by
  apply Nat.eq_of_testBit_eq
  intro j
  simp only [Nat.testBit_shiftRight, Nat.testBit_and, Nat.testBit_shiftLeft,
    Nat.testBit_mod_two_pow, Nat.testBit_two_pow_sub_one]
  have h1 : a + j ≥ a := by omega
  have h2 : a + j - a = j := by omega
  simp only [h1, h2, decide_True, Bool.true_and]
  exact Bool.and_comm _ _

theorem and_low_mask (x b : Nat) : x &&& (2 ^ b - 1) = x % 2 ^ b :=
  Nat.and_pow_two_sub_one_eq_mod x b

theorem and_high_nibble (b : Nat) (hb : b < 256) : b &&& 0xF0 = 16 * (b >>> 4) := by
  interval_cases b <;> rfl


theorem ite3_prop {α : Type} (P : α → Prop) (c d : Prop) [Decidable c] [Decidable d]
    (x y z : α) (hx : P x) (hy : P y) (hz : P z) :
    P (if c then x else if d then y else z) := by
  split
  · exact hx
  · split
    · exact hy
    · exact hz

theorem decodeIPv4Header_first_byte (r : Reader) (h : 1 ≤ r.avail) :
    (decodeIPv4Header r).1.Version = beUint (r.data.take 1) &&& 0xF0
      ∧ (decodeIPv4Header r).1.InternetHeaderLength = beUint (r.data.take 1) &&& 0x0F := by
  unfold decodeIPv4Header
  rw [readThen_ok _ _ _ h]
  repeat (first | (apply readThen_ind (fun (res : ipV4Header × Option Error × Reader) => res.1.Version = beUint (r.data.take 1) &&& 0xF0 ∧ res.1.InternetHeaderLength = beUint (r.data.take 1) &&& 0x0F) (fun _ _ => ⟨rfl, rfl⟩); intro _ _))
  exact ite3_prop (fun (res : ipV4Header × Option Error × Reader) => res.1.Version = beUint (r.data.take 1) &&& 0xF0 ∧ res.1.InternetHeaderLength = beUint (r.data.take 1) &&& 0x0F) _ _ _ _ _ ⟨rfl, rfl⟩ ⟨rfl, rfl⟩ ⟨rfl, rfl⟩

/-- C11, the code at a failing input: for an IPv4 header that starts with the
byte 0x45, `decodeIPv4Header` reports `InternetHeaderLength` 5, as claimed,
but `Version` 0x40 = 64, not the upper nibble 4: the byte is masked with 0xF0
and not shifted. For every first byte `b`, `Version` is `b & 0xF0`, which is
16 times the upper nibble. -/
theorem C11_version_is_masked_not_shifted :
    (decodeIPv4Header (.base [0x45, 0, 0, 40, 0, 1, 0, 0, 64, 0, 0, 0, 10, 0, 0, 1,
        10, 0, 0, 2])).1.Version = 64
      ∧ (decodeIPv4Header (.base [0x45, 0, 0, 40, 0, 1, 0, 0, 64, 0, 0, 0, 10, 0, 0, 1,
        10, 0, 0, 2])).1.InternetHeaderLength = 5
      ∧ (0x45 : Nat) >>> 4 = 4
      ∧ ∀ r : Reader, 1 ≤ r.avail →
          (decodeIPv4Header r).1.Version = 16 * (beUint (r.data.take 1) >>> 4)
          ∧ (decodeIPv4Header r).1.InternetHeaderLength = beUint (r.data.take 1) &&& 0x0F := by
  refine ⟨by decide, by decide, by decide, ?_⟩
  intro r h
  obtain ⟨h1, h2⟩ := decodeIPv4Header_first_byte r h
  refine ⟨?_, h2⟩
  rw [h1]
  exact and_high_nibble _ (by simpa using beUint_take_lt r.data 1)


theorem decodeIPv4Header_bit_fields (r : Reader) (h : 8 ≤ r.avail) :
    (decodeIPv4Header r).1.DSCP = beUint ((r.data.drop 1).take 1) >>> 2
      ∧ (decodeIPv4Header r).1.ECN = beUint ((r.data.drop 1).take 1) &&& 0x03
      ∧ (decodeIPv4Header r).1.Flags = (beUint ((r.data.drop 6).take 2) >>> 13) % 2 ^ 8
      ∧ (decodeIPv4Header r).1.FragmentOffset = beUint ((r.data.drop 6).take 2) &&& 0x1FFF := by
  unfold decodeIPv4Header
  rw [readThen_ok _ _ _ (by omega)]
  rw [readThen_ok _ _ _ (by simp only [Reader.avail_advance, Reader.advance_advance]; omega)]
  rw [readThen_ok _ _ _ (by simp only [Reader.avail_advance, Reader.advance_advance]; omega)]
  rw [readThen_ok _ _ _ (by simp only [Reader.avail_advance, Reader.advance_advance]; omega)]
  rw [readThen_ok _ _ _ (by simp only [Reader.avail_advance, Reader.advance_advance]; omega)]
  simp only [Reader.advance_advance, Reader.data_advance]
  repeat (first | (apply readThen_ind (fun (res : ipV4Header × Option Error × Reader) => res.1.DSCP = beUint ((r.data.drop 1).take 1) >>> 2 ∧ res.1.ECN = beUint ((r.data.drop 1).take 1) &&& 0x03 ∧ res.1.Flags = (beUint ((r.data.drop 6).take 2) >>> 13) % 2 ^ 8 ∧ res.1.FragmentOffset = beUint ((r.data.drop 6).take 2) &&& 0x1FFF) (fun _ _ => ⟨rfl, rfl, rfl, rfl⟩); intro _ _))
  exact ite3_prop (fun (res : ipV4Header × Option Error × Reader) => res.1.DSCP = beUint ((r.data.drop 1).take 1) >>> 2 ∧ res.1.ECN = beUint ((r.data.drop 1).take 1) &&& 0x03 ∧ res.1.Flags = (beUint ((r.data.drop 6).take 2) >>> 13) % 2 ^ 8 ∧ res.1.FragmentOffset = beUint ((r.data.drop 6).take 2) &&& 0x1FFF) _ _ _ _ _ ⟨rfl, rfl, rfl, rfl⟩ ⟨rfl, rfl, rfl, rfl⟩ ⟨rfl, rfl, rfl, rfl⟩

/-- C12: for an IPv4 header of which the first 8 bytes are there, with second
byte `t` and big-endian u16 `w` at offset 6, `decodeIPv4Header` reports
`DSCP = t >> 2`, `ECN = t & 3`, `Flags = w >> 13` (nothing is lost in the
conversion to 8 bits) and `FragmentOffset = w & 0x1FFF`, so that
`DSCP * 4 + ECN = t` and `Flags * 8192 + FragmentOffset = w` with `DSCP < 64`,
`ECN < 4`, `Flags < 8` and `FragmentOffset < 8192`. -/
theorem C12_ipv4_bit_fields (r : Reader) (h : 8 ≤ r.avail) :
    (decodeIPv4Header r).1.DSCP = beUint ((r.data.drop 1).take 1) >>> 2
      ∧ (decodeIPv4Header r).1.ECN = beUint ((r.data.drop 1).take 1) &&& 0x03
      ∧ (decodeIPv4Header r).1.Flags = beUint ((r.data.drop 6).take 2) >>> 13
      ∧ (decodeIPv4Header r).1.FragmentOffset = beUint ((r.data.drop 6).take 2) &&& 0x1FFF
      ∧ (decodeIPv4Header r).1.DSCP * 4 + (decodeIPv4Header r).1.ECN
          = beUint ((r.data.drop 1).take 1)
      ∧ (decodeIPv4Header r).1.Flags * 8192 + (decodeIPv4Header r).1.FragmentOffset
          = beUint ((r.data.drop 6).take 2)
      ∧ (decodeIPv4Header r).1.DSCP < 64 ∧ (decodeIPv4Header r).1.ECN < 4
      ∧ (decodeIPv4Header r).1.Flags < 8 ∧ (decodeIPv4Header r).1.FragmentOffset < 8192 := by
  obtain ⟨h1, h2, h3, h4⟩ := decodeIPv4Header_bit_fields r h
  have ht : beUint ((r.data.drop 1).take 1) < 256 := by
    simpa using beUint_take_lt (r.data.drop 1) 1
  have hw : beUint ((r.data.drop 6).take 2) < 65536 := by
    simpa using beUint_take_lt (r.data.drop 6) 2
  have e1 : beUint ((r.data.drop 1).take 1) >>> 2 = beUint ((r.data.drop 1).take 1) / 4 :=
    Nat.shiftRight_eq_div_pow _ 2
  have e2 : beUint ((r.data.drop 1).take 1) &&& 0x03 = beUint ((r.data.drop 1).take 1) % 4 :=
    and_low_mask _ 2
  have e3 : beUint ((r.data.drop 6).take 2) >>> 13 = beUint ((r.data.drop 6).take 2) / 8192 :=
    Nat.shiftRight_eq_div_pow _ 13
  have e4 : beUint ((r.data.drop 6).take 2) &&& 0x1FFF
      = beUint ((r.data.drop 6).take 2) % 8192 := and_low_mask _ 13
  have e5 : (beUint ((r.data.drop 6).take 2) >>> 13) % 2 ^ 8
      = beUint ((r.data.drop 6).take 2) >>> 13 := by
    rw [e3]; omega
  rw [e5] at h3
  rw [h1, h2, h3, h4]
  refine ⟨rfl, rfl, rfl, rfl, ?_, ?_, ?_, ?_, ?_, ?_⟩ <;> rw [e1, e2, e3, e4] at * <;> omega

/-- C12 at the header bytes `45 BA 00 28 00 01 5A 2B`: DSCP 46, ECN 2, flags
0b010 and fragment offset 0x1A2B. -/
theorem C12_ipv4_bit_fields_witness :
    (decodeIPv4Header (.base [0x45, 0xBA, 0, 40, 0, 1, 0x5A, 0x2B])).1.DSCP = 46
      ∧ (decodeIPv4Header (.base [0x45, 0xBA, 0, 40, 0, 1, 0x5A, 0x2B])).1.ECN = 2
      ∧ (decodeIPv4Header (.base [0x45, 0xBA, 0, 40, 0, 1, 0x5A, 0x2B])).1.Flags = 2
      ∧ (decodeIPv4Header (.base [0x45, 0xBA, 0, 40, 0, 1, 0x5A, 0x2B])).1.FragmentOffset
          = 0x1A2B :=
  ⟨(C12_ipv4_bit_fields (.base [0x45, 0xBA, 0, 40, 0, 1, 0x5A, 0x2B]) (by decide)).1,
   (C12_ipv4_bit_fields (.base [0x45, 0xBA, 0, 40, 0, 1, 0x5A, 0x2B]) (by decide)).2.1,
   (C12_ipv4_bit_fields (.base [0x45, 0xBA, 0, 40, 0, 1, 0x5A, 0x2B]) (by decide)).2.2.1,
   (C12_ipv4_bit_fields (.base [0x45, 0xBA, 0, 40, 0, 1, 0x5A, 0x2B]) (by decide)).2.2.2.1⟩


theorem decodeUDPHeader_readErrorOnly (r : Reader) : ReadErrorOnly (decodeUDPHeader r) := by
  unfold decodeUDPHeader
  dsimp only
  repeat (first | (apply readThen_ind ReadErrorOnly (fun _ _ => Or.inr ⟨_, _, rfl⟩); intro _ _))
  exact Or.inl rfl

theorem decodeTCPHeader_readErrorOnly (r : Reader) : ReadErrorOnly (decodeTCPHeader r) := by
  unfold decodeTCPHeader
  dsimp only
  repeat (first | (apply readThen_ind ReadErrorOnly (fun _ _ => Or.inr ⟨_, _, rfl⟩); intro _ _))
  exact Or.inl rfl

theorem decodeIPv6Header_fields (r : Reader) (h : 4 ≤ r.avail)
    (h6 : beUint (r.data.take 4) >>> 28 = 6) :
    ((decodeIPv6Header r).1.DSCP = ((beUint (r.data.take 4) &&& 0xFC00000) >>> 22) % 2 ^ 8
      ∧ (decodeIPv6Header r).1.ECN = ((beUint (r.data.take 4) &&& 0x300000) >>> 20) % 2 ^ 8)
      ∧ ReadErrorOnly (decodeIPv6Header r) := by
  unfold decodeIPv6Header
  rw [readThen_ok _ _ _ h]
  simp only [h6, ne_eq, not_true_eq_false, if_false]
  repeat (first | (apply readThen_ind (fun (res : ipV6Header × Option Error × Reader) => (res.1.DSCP = ((beUint (r.data.take 4) &&& 0xFC00000) >>> 22) % 2 ^ 8 ∧ res.1.ECN = ((beUint (r.data.take 4) &&& 0x300000) >>> 20) % 2 ^ 8) ∧ ReadErrorOnly res) (fun _ _ => ⟨⟨rfl, rfl⟩, Or.inr ⟨_, _, rfl⟩⟩); intro _ _))
  exact ite3_prop (fun (res : ipV6Header × Option Error × Reader) => (res.1.DSCP = ((beUint (r.data.take 4) &&& 0xFC00000) >>> 22) % 2 ^ 8 ∧ res.1.ECN = ((beUint (r.data.take 4) &&& 0x300000) >>> 20) % 2 ^ 8) ∧ ReadErrorOnly res) _ _ _ _ _ ⟨⟨rfl, rfl⟩, decodeTCPHeader_readErrorOnly _⟩ ⟨⟨rfl, rfl⟩, decodeUDPHeader_readErrorOnly _⟩ ⟨⟨rfl, rfl⟩, Or.inl rfl⟩

/-- C13: for an IPv6 header whose first big-endian u32 is `x`, `decodeIPv6Header`
returns the error "unexpected IPv6 header version 0x..." exactly when the top
4 bits of `x` are not 6, and has then read nothing but the four bytes;
otherwise `DSCP` is bits 27..22 of `x` and `ECN` is bits 21..20, so both
depend on `x >> 20` only and not on the flow label. -/
theorem C13_ipv6_first_word (r : Reader) (h : 4 ≤ r.avail) :
    (beUint (r.data.take 4) >>> 28 ≠ 6 →
        decodeIPv6Header r =
          ({}, some (.unexpectedIPv6Version (beUint (r.data.take 4) >>> 28)), r.advance 4)
        ∧ (Error.unexpectedIPv6Version (beUint (r.data.take 4) >>> 28)).message
            = "unexpected IPv6 header version 0x" ++ hexString (beUint (r.data.take 4) >>> 28))
      ∧ (beUint (r.data.take 4) >>> 28 = 6 →
        (decodeIPv6Header r).1.DSCP = (beUint (r.data.take 4) >>> 22) % 64
        ∧ (decodeIPv6Header r).1.ECN = (beUint (r.data.take 4) >>> 20) % 4
        ∧ (decodeIPv6Header r).1.DSCP = ((beUint (r.data.take 4) >>> 20) / 4) % 64
        ∧ ∀ v, (decodeIPv6Header r).2.1 ≠ some (.unexpectedIPv6Version v)) := by
  constructor
  · intro hne
    refine ⟨?_, rfl⟩
    unfold decodeIPv6Header
    rw [readThen_ok _ _ _ h]
    simp only [hne, ne_eq, not_false_eq_true, if_true]
  · intro h6
    obtain ⟨⟨h1, h2⟩, h3⟩ := decodeIPv6Header_fields r h h6
    have e1 : (beUint (r.data.take 4) &&& 0xFC00000) >>> 22
        = (beUint (r.data.take 4) >>> 22) % 2 ^ 6 := and_shifted_mask _ 22 6
    have e2 : (beUint (r.data.take 4) &&& 0x300000) >>> 20
        = (beUint (r.data.take 4) >>> 20) % 2 ^ 2 := and_shifted_mask _ 20 2
    rw [e1] at h1
    rw [e2] at h2
    have d1 : (beUint (r.data.take 4) >>> 22) % 2 ^ 6 % 2 ^ 8
        = (beUint (r.data.take 4) >>> 22) % 64 := by omega
    have d2 : (beUint (r.data.take 4) >>> 20) % 2 ^ 2 % 2 ^ 8
        = (beUint (r.data.take 4) >>> 20) % 4 := by omega
    rw [d1] at h1
    rw [d2] at h2
    refine ⟨h1, h2, ?_, ?_⟩
    · rw [h1, Nat.shiftRight_eq_div_pow, Nat.shiftRight_eq_div_pow, Nat.div_div_eq_div_mul]
    · intro v hv
      rcases h3 with h3 | ⟨name, c, h3⟩
      · rw [h3] at hv; simp at hv
      · rw [h3] at hv; simp at hv

/-- C13 at a header whose first word is 0x6BA12345 (version 6, DSCP 46, ECN 2). -/
theorem C13_ipv6_first_word_witness :
    (decodeIPv6Header (.base [0x6B, 0xA1, 0x23, 0x45])).1.DSCP = 46
      ∧ (decodeIPv6Header (.base [0x6B, 0xA1, 0x23, 0x45])).1.ECN = 2 :=
  ⟨((C13_ipv6_first_word (.base [0x6B, 0xA1, 0x23, 0x45]) (by decide)).2 (by decide)).1,
   ((C13_ipv6_first_word (.base [0x6B, 0xA1, 0x23, 0x45]) (by decide)).2 (by decide)).2.1⟩


/-- C14: on a TCP header of which the 20 bytes are there, with big-endian u16
`w` at offset 12, `decodeTCPHeader` returns without error, having consumed
exactly 20 bytes, the header with the ports, sequence and ack numbers, window,
checksum and urgent pointer read at offsets 0, 2, 4, 8, 14, 16 and 18,
`TCPHeaderLength = 4 * (w >> 12)` (a multiple of 4 that is at most 60, so the
conversion to 8 bits loses nothing) and `Flags = w & 0x1FF`; the header length
depends on `w / 4096` only and the flags on `w % 512` only, so the three
reserved bits enter neither. -/
theorem C14_tcp_header (r : Reader) (h : 20 ≤ r.avail) :
    decodeTCPHeader r =
        ({ SourcePort := beUint (r.data.take 2), DestinationPort := beUint ((r.data.drop 2).take 2), Sequence := beUint ((r.data.drop 4).take 4), AckNumber := beUint ((r.data.drop 8).take 4), TCPHeaderLength := 4 * (beUint ((r.data.drop 12).take 2) >>> 12), Flags := beUint ((r.data.drop 12).take 2) &&& 0x1FF, TCPWindowSize := beUint ((r.data.drop 14).take 2), Checksum := beUint ((r.data.drop 16).take 2), TCPUrgentPointer := beUint ((r.data.drop 18).take 2) },
          none, r.advance 20)
      ∧ 4 * (beUint ((r.data.drop 12).take 2) >>> 12) ≤ 60
      ∧ 4 * (beUint ((r.data.drop 12).take 2) >>> 12)
          = 4 * (beUint ((r.data.drop 12).take 2) / 4096)
      ∧ beUint ((r.data.drop 12).take 2) &&& 0x1FF = beUint ((r.data.drop 12).take 2) % 512 := by
  have hw : beUint ((r.data.drop 12).take 2) < 65536 := by
    simpa using beUint_take_lt (r.data.drop 12) 2
  have e1 : beUint ((r.data.drop 12).take 2) >>> 12 = beUint ((r.data.drop 12).take 2) / 4096 :=
    Nat.shiftRight_eq_div_pow _ 12
  have e2 : beUint ((r.data.drop 12).take 2) &&& 0x1FF = beUint ((r.data.drop 12).take 2) % 512 :=
    and_low_mask _ 9
  refine ⟨?_, by rw [e1]; omega, by rw [e1], e2⟩
  have e3 : (beUint ((r.data.drop 12).take 2) >>> 12) * 4 % 2 ^ 8
      = 4 * (beUint ((r.data.drop 12).take 2) >>> 12) := by
    rw [e1]; omega
  unfold decodeTCPHeader
  rw [readThen_ok _ _ _ (by omega)]
  rw [readThen_ok _ _ _ (by simp only [Reader.avail_advance, Reader.advance_advance]; omega)]
  rw [readThen_ok _ _ _ (by simp only [Reader.avail_advance, Reader.advance_advance]; omega)]
  rw [readThen_ok _ _ _ (by simp only [Reader.avail_advance, Reader.advance_advance]; omega)]
  rw [readThen_ok _ _ _ (by simp only [Reader.avail_advance, Reader.advance_advance]; omega)]
  rw [readThen_ok _ _ _ (by simp only [Reader.avail_advance, Reader.advance_advance]; omega)]
  rw [readThen_ok _ _ _ (by simp only [Reader.avail_advance, Reader.advance_advance]; omega)]
  rw [readThen_ok _ _ _ (by simp only [Reader.avail_advance, Reader.advance_advance]; omega)]
  simp only [Reader.advance_advance, Reader.data_advance, e3]

/-- C14 at a header whose u16 at offset 12 is 0x5E12: length 20, flags 0x012,
the reserved bits set. -/
theorem C14_tcp_header_witness :
    decodeTCPHeader (.base [0, 80, 1, 187, 0, 0, 0, 1, 0, 0, 0, 2, 0x5E, 0x12, 1, 0, 0, 9,
        0, 7]) =
      ({ SourcePort := 80, DestinationPort := 443, Sequence := 1, AckNumber := 2, TCPHeaderLength := 20, Flags := 0x012, TCPWindowSize := 256, Checksum := 9, TCPUrgentPointer := 7 },
        none, .base []) :=
  (C14_tcp_header (.base [0, 80, 1, 187, 0, 0, 0, 1, 0, 0, 0, 2, 0x5E, 0x12, 1, 0, 0, 9,
      0, 7]) (by decide)).1


theorem sampleDirection_fields (t : sampleDataFlowSampleExpanded) :
    (sampleDirection t).SequenceNumber = t.SequenceNumber
      ∧ (sampleDirection t).SourceIDType = t.SourceIDType
      ∧ (sampleDirection t).SourceIDIndex = t.SourceIDIndex
      ∧ (sampleDirection t).SamplingRate = t.SamplingRate
      ∧ (sampleDirection t).SamplePool = t.SamplePool
      ∧ (sampleDirection t).Drops = t.Drops
      ∧ (sampleDirection t).InputIfFormat = t.InputIfFormat
      ∧ (sampleDirection t).InputIfIndex = t.InputIfIndex
      ∧ (sampleDirection t).OutputIfFormat = t.OutputIfFormat
      ∧ (sampleDirection t).OutputIfIndex = t.OutputIfIndex
      ∧ (sampleDirection t).FlowRecords = t.FlowRecords := by
  unfold sampleDirection
  split
  · simp
  · split <;> simp

theorem decodeFlowSample_words (r : Reader) (h : 28 ≤ r.avail) :
    (decodeFlowSample r).1.SourceIDType = beUint ((r.data.drop 4).take 4) >>> 24
      ∧ (decodeFlowSample r).1.SourceIDIndex = beUint ((r.data.drop 4).take 4) &&& 0x00ffffff
      ∧ (decodeFlowSample r).1.InputIfFormat = beUint ((r.data.drop 20).take 4) >>> 30
      ∧ (decodeFlowSample r).1.InputIfIndex = beUint ((r.data.drop 20).take 4) &&& 0x3FFFFFFF
      ∧ (decodeFlowSample r).1.OutputIfFormat = beUint ((r.data.drop 24).take 4) >>> 30
      ∧ (decodeFlowSample r).1.OutputIfIndex
          = beUint ((r.data.drop 24).take 4) &&& 0x3FFFFFFF := by
  unfold decodeFlowSample
  rw [readThen_ok _ _ _ (by omega)]
  rw [readThen_ok _ _ _ (by simp only [Reader.avail_advance, Reader.advance_advance]; omega)]
  rw [readThen_ok _ _ _ (by simp only [Reader.avail_advance, Reader.advance_advance]; omega)]
  rw [readThen_ok _ _ _ (by simp only [Reader.avail_advance, Reader.advance_advance]; omega)]
  rw [readThen_ok _ _ _ (by simp only [Reader.avail_advance, Reader.advance_advance]; omega)]
  rw [readThen_ok _ _ _ (by simp only [Reader.avail_advance, Reader.advance_advance]; omega)]
  rw [readThen_ok _ _ _ (by simp only [Reader.avail_advance, Reader.advance_advance]; omega)]
  simp only [Reader.advance_advance, Reader.data_advance, sampleDirection_fields]
  exact ⟨trivial, trivial, trivial, trivial, trivial, trivial⟩

/-- C15: once `decodeFlowSample` has read its seven u32s, with source-id word
`s`, input word `i` and output word `o`, it reports `SourceIDType = s >> 24`
(at most 255), `SourceIDIndex = s & 0x00FFFFFF`, `InputIfFormat = i >> 30`,
`InputIfIndex = i & 0x3FFFFFFF`, `OutputIfFormat = o >> 30` and
`OutputIfIndex = o & 0x3FFFFFFF`, and the words are recovered from the parts:
`SourceIDType * 2^24 + SourceIDIndex = s`, `InputIfFormat * 2^30 +
InputIfIndex = i`, `OutputIfFormat * 2^30 + OutputIfIndex = o`. -/
theorem C15_flow_sample_split (r : Reader) (h : 28 ≤ r.avail) :
    (decodeFlowSample r).1.SourceIDType = beUint ((r.data.drop 4).take 4) >>> 24
      ∧ (decodeFlowSample r).1.SourceIDType ≤ 255
      ∧ (decodeFlowSample r).1.SourceIDIndex = beUint ((r.data.drop 4).take 4) &&& 0x00ffffff
      ∧ (decodeFlowSample r).1.InputIfFormat = beUint ((r.data.drop 20).take 4) >>> 30
      ∧ (decodeFlowSample r).1.InputIfIndex = beUint ((r.data.drop 20).take 4) &&& 0x3FFFFFFF
      ∧ (decodeFlowSample r).1.OutputIfFormat = beUint ((r.data.drop 24).take 4) >>> 30
      ∧ (decodeFlowSample r).1.OutputIfIndex = beUint ((r.data.drop 24).take 4) &&& 0x3FFFFFFF
      ∧ (decodeFlowSample r).1.SourceIDType * 2 ^ 24 + (decodeFlowSample r).1.SourceIDIndex
          = beUint ((r.data.drop 4).take 4)
      ∧ (decodeFlowSample r).1.InputIfFormat * 2 ^ 30 + (decodeFlowSample r).1.InputIfIndex
          = beUint ((r.data.drop 20).take 4)
      ∧ (decodeFlowSample r).1.OutputIfFormat * 2 ^ 30 + (decodeFlowSample r).1.OutputIfIndex
          = beUint ((r.data.drop 24).take 4) := by
  obtain ⟨h1, h2, h3, h4, h5, h6⟩ := decodeFlowSample_words r h
  have hs : beUint ((r.data.drop 4).take 4) < 4294967296 := by
    simpa using beUint_take_lt (r.data.drop 4) 4
  have a1 : beUint ((r.data.drop 4).take 4) >>> 24 = beUint ((r.data.drop 4).take 4) / 2 ^ 24 :=
    Nat.shiftRight_eq_div_pow _ 24
  have a2 : beUint ((r.data.drop 4).take 4) &&& 0x00ffffff
      = beUint ((r.data.drop 4).take 4) % 2 ^ 24 := and_low_mask _ 24
  have b1 : beUint ((r.data.drop 20).take 4) >>> 30
      = beUint ((r.data.drop 20).take 4) / 2 ^ 30 := Nat.shiftRight_eq_div_pow _ 30
  have b2 : beUint ((r.data.drop 20).take 4) &&& 0x3FFFFFFF
      = beUint ((r.data.drop 20).take 4) % 2 ^ 30 := and_low_mask _ 30
  have c1 : beUint ((r.data.drop 24).take 4) >>> 30
      = beUint ((r.data.drop 24).take 4) / 2 ^ 30 := Nat.shiftRight_eq_div_pow _ 30
  have c2 : beUint ((r.data.drop 24).take 4) &&& 0x3FFFFFFF
      = beUint ((r.data.drop 24).take 4) % 2 ^ 30 := and_low_mask _ 30
  rw [h1, h2, h3, h4, h5, h6]
  refine ⟨rfl, ?_, rfl, rfl, rfl, rfl, rfl, ?_, ?_, ?_⟩
  · rw [a1]; omega
  · rw [a1, a2]; omega
  · rw [b1, b2]; omega
  · rw [c1, c2]; omega

/-- C15 at a flow sample with source-id word 0x02000003, input word 0x40000005
and output word 0x00000007. -/
theorem C15_flow_sample_split_witness :
    (decodeFlowSample (.base [0, 0, 0, 1, 2, 0, 0, 3, 0, 0, 4, 0, 0, 0, 0, 9, 0, 0, 0, 0,
        0x40, 0, 0, 5, 0, 0, 0, 7, 0, 0, 0, 0])).1.SourceIDType = 2
      ∧ (decodeFlowSample (.base [0, 0, 0, 1, 2, 0, 0, 3, 0, 0, 4, 0, 0, 0, 0, 9, 0, 0, 0, 0,
        0x40, 0, 0, 5, 0, 0, 0, 7, 0, 0, 0, 0])).1.InputIfFormat = 1 :=
  ⟨(C15_flow_sample_split (.base [0, 0, 0, 1, 2, 0, 0, 3, 0, 0, 4, 0, 0, 0, 0, 9, 0, 0, 0, 0,
      0x40, 0, 0, 5, 0, 0, 0, 7, 0, 0, 0, 0]) (by decide)).1,
   (C15_flow_sample_split (.base [0, 0, 0, 1, 2, 0, 0, 3, 0, 0, 4, 0, 0, 0, 0, 9, 0, 0, 0, 0,
      0x40, 0, 0, 5, 0, 0, 0, 7, 0, 0, 0, 0]) (by decide)).2.2.2.1⟩


theorem Reader.Close_MinReader (r : Reader) (L : Nat) :
    (MinReader r L).Close = r.advance (min L r.avail) := by
  have h := Reader.Close_advance r L 0 (Nat.zero_le _)
  rwa [Reader.advance_zero] at h

/-- C17: for a header-protocol value other than 1, a declared header length `H`
and a reader that holds at least `H` bytes after the four u32s,
`decodeRawPacketHeaderFlowData` returns without error the record whose
`HeaderProtocol`, `FrameLength`, `StrippedOctets` and `HeaderLength` are the
four big-endian u32s in wire order, with no `Header`, and has consumed
exactly `16 + H` bytes. -/
theorem C17_unknown_header_protocol (r : Reader) (samplingRate : Nat) (h16 : 16 ≤ r.avail)
    (hp : beUint (r.data.take 4) ≠ 1)
    (hH : beUint ((r.data.drop 12).take 4) ≤ r.avail - 16) :
    decodeRawPacketHeaderFlowData r samplingRate =
      ({ HeaderProtocol := beUint (r.data.take 4), FrameLength := beUint ((r.data.drop 4).take 4), Bytes := (beUint ((r.data.drop 4).take 4) * samplingRate) % 2 ^ 32, StrippedOctets := beUint ((r.data.drop 8).take 4), HeaderLength := beUint ((r.data.drop 12).take 4), Header := none },
        none, r.advance (16 + beUint ((r.data.drop 12).take 4))) := by
  unfold decodeRawPacketHeaderFlowData
  rw [readThen_ok _ _ _ (by omega)]
  rw [readThen_ok _ _ _ (by simp only [Reader.avail_advance, Reader.advance_advance]; omega)]
  rw [readThen_ok _ _ _ (by simp only [Reader.avail_advance, Reader.advance_advance]; omega)]
  rw [readThen_ok _ _ _ (by simp only [Reader.avail_advance, Reader.advance_advance]; omega)]
  simp only [Reader.advance_advance, Reader.data_advance, headerProtocolTypeEthernetISO88023,
    hp, if_false, Reader.Close_MinReader, Reader.avail_advance]
  have e : min (beUint ((r.data.drop 12).take 4)) (r.avail - 16)
      = beUint ((r.data.drop 12).take 4) := by omega
  simp only [List.drop_drop, e]

/-- C17 at a record with header protocol 2 and header length 3, followed by one
more byte. -/
theorem C17_unknown_header_protocol_witness :
    decodeRawPacketHeaderFlowData
        (.base [0, 0, 0, 2, 0, 0, 5, 220, 0, 0, 0, 4, 0, 0, 0, 3, 1, 2, 3, 9]) 10 =
      ({ HeaderProtocol := 2, FrameLength := 1500, Bytes := 15000, StrippedOctets := 4, HeaderLength := 3, Header := none },
        none, .base [9]) :=
  C17_unknown_header_protocol
    (.base [0, 0, 0, 2, 0, 0, 5, 220, 0, 0, 0, 4, 0, 0, 0, 3, 1, 2, 3, 9]) 10
    (by decide) (by decide) (by decide)

theorem decodeUDPHeader_ok (r : Reader) (h : 8 ≤ r.avail) :
    decodeUDPHeader r =
      ({ SourcePort := beUint (r.data.take 2), DestinationPort := beUint ((r.data.drop 2).take 2), UDPLength := beUint ((r.data.drop 4).take 2), Checksum := beUint ((r.data.drop 6).take 2) },
        none, r.advance 8) := by
  unfold decodeUDPHeader
  rw [readThen_ok _ _ _ (by omega)]
  rw [readThen_ok _ _ _ (by simp only [Reader.avail_advance, Reader.advance_advance]; omega)]
  rw [readThen_ok _ _ _ (by simp only [Reader.avail_advance, Reader.advance_advance]; omega)]
  rw [readThen_ok _ _ _ (by simp only [Reader.avail_advance, Reader.advance_advance]; omega)]
  simp only [Reader.advance_advance, Reader.data_advance]

/-- C18: on an IPv4 header of which the 20 bytes are there, `decodeIPv4Header`
reads exactly those 20 bytes whatever the header-length nibble is, and then
looks at the protocol byte at offset 9: for 6 it decodes a TCP header at
offset 20, for 17 a UDP header at offset 20, and for any other value it
returns the header with no `ProtocolHeader`, no error and the reader 20 bytes
further on. A UDP header is four big-endian u16s, 8 bytes. -/
theorem C18_ipv4_dispatch (r : Reader) (h : 20 ≤ r.avail) :
    (decodeIPv4Header r =
      if beUint ((r.data.drop 9).take 1) = 6 then
        ({ Version := beUint (r.data.take 1) &&& 0xF0, InternetHeaderLength := beUint (r.data.take 1) &&& 0x0F, DSCP := beUint ((r.data.drop 1).take 1) >>> 2, ECN := beUint ((r.data.drop 1).take 1) &&& 0x03, TotalLength := beUint ((r.data.drop 2).take 2), Identification := beUint ((r.data.drop 4).take 2), Flags := (beUint ((r.data.drop 6).take 2) >>> 13) % 2 ^ 8, FragmentOffset := beUint ((r.data.drop 6).take 2) &&& 0x1FFF, TTL := beUint ((r.data.drop 8).take 1), Protocol := beUint ((r.data.drop 9).take 1), HeaderChecksum := beUint ((r.data.drop 10).take 2), SourceIP := (r.data.drop 12).take 4, DestIP := (r.data.drop 16).take 4, ProtocolHeader := some (.tcp (decodeTCPHeader (r.advance 20)).1) },
          (decodeTCPHeader (r.advance 20)).2.1, (decodeTCPHeader (r.advance 20)).2.2)
      else if beUint ((r.data.drop 9).take 1) = 17 then
        ({ Version := beUint (r.data.take 1) &&& 0xF0, InternetHeaderLength := beUint (r.data.take 1) &&& 0x0F, DSCP := beUint ((r.data.drop 1).take 1) >>> 2, ECN := beUint ((r.data.drop 1).take 1) &&& 0x03, TotalLength := beUint ((r.data.drop 2).take 2), Identification := beUint ((r.data.drop 4).take 2), Flags := (beUint ((r.data.drop 6).take 2) >>> 13) % 2 ^ 8, FragmentOffset := beUint ((r.data.drop 6).take 2) &&& 0x1FFF, TTL := beUint ((r.data.drop 8).take 1), Protocol := beUint ((r.data.drop 9).take 1), HeaderChecksum := beUint ((r.data.drop 10).take 2), SourceIP := (r.data.drop 12).take 4, DestIP := (r.data.drop 16).take 4, ProtocolHeader := some (.udp (decodeUDPHeader (r.advance 20)).1) },
          (decodeUDPHeader (r.advance 20)).2.1, (decodeUDPHeader (r.advance 20)).2.2)
      else
        ({ Version := beUint (r.data.take 1) &&& 0xF0, InternetHeaderLength := beUint (r.data.take 1) &&& 0x0F, DSCP := beUint ((r.data.drop 1).take 1) >>> 2, ECN := beUint ((r.data.drop 1).take 1) &&& 0x03, TotalLength := beUint ((r.data.drop 2).take 2), Identification := beUint ((r.data.drop 4).take 2), Flags := (beUint ((r.data.drop 6).take 2) >>> 13) % 2 ^ 8, FragmentOffset := beUint ((r.data.drop 6).take 2) &&& 0x1FFF, TTL := beUint ((r.data.drop 8).take 1), Protocol := beUint ((r.data.drop 9).take 1), HeaderChecksum := beUint ((r.data.drop 10).take 2), SourceIP := (r.data.drop 12).take 4, DestIP := (r.data.drop 16).take 4, ProtocolHeader := none },
          none, r.advance 20))
    ∧ (28 ≤ r.avail →
        decodeUDPHeader (r.advance 20) =
          ({ SourcePort := beUint ((r.data.drop 20).take 2), DestinationPort := beUint ((r.data.drop 22).take 2), UDPLength := beUint ((r.data.drop 24).take 2), Checksum := beUint ((r.data.drop 26).take 2) },
            none, r.advance 28)) := by
  constructor
  · unfold decodeIPv4Header
    rw [readThen_ok _ _ _ (by omega)]
    rw [readThen_ok _ _ _ (by simp only [Reader.avail_advance, Reader.advance_advance]; omega)]
    rw [readThen_ok _ _ _ (by simp only [Reader.avail_advance, Reader.advance_advance]; omega)]
    rw [readThen_ok _ _ _ (by simp only [Reader.avail_advance, Reader.advance_advance]; omega)]
    rw [readThen_ok _ _ _ (by simp only [Reader.avail_advance, Reader.advance_advance]; omega)]
    rw [readThen_ok _ _ _ (by simp only [Reader.avail_advance, Reader.advance_advance]; omega)]
    rw [readThen_ok _ _ _ (by simp only [Reader.avail_advance, Reader.advance_advance]; omega)]
    rw [readThen_ok _ _ _ (by simp only [Reader.avail_advance, Reader.advance_advance]; omega)]
    rw [readThen_ok _ _ _ (by simp only [Reader.avail_advance, Reader.advance_advance]; omega)]
    rw [readThen_ok _ _ _ (by simp only [Reader.avail_advance, Reader.advance_advance]; omega)]
    simp only [Reader.advance_advance, Reader.data_advance, ipProtocolTCP, ipProtocolUDP]
  · intro h28
    rw [decodeUDPHeader_ok _ (by rw [Reader.avail_advance]; omega)]
    simp only [Reader.advance_advance, Reader.data_advance, List.drop_drop]

/-- C18 at a header with IHL 6 and protocol 1 followed by four more bytes, which
are left unread. -/
theorem C18_ipv4_dispatch_witness :
    (decodeIPv4Header (.base [0x46, 0, 0, 40, 0, 1, 0, 0, 64, 1, 0, 0, 10, 0, 0, 1,
        10, 0, 0, 2, 1, 2, 3, 4])).2
      = (none, .base [1, 2, 3, 4]) := by
  rw [(C18_ipv4_dispatch (.base [0x46, 0, 0, 40, 0, 1, 0, 0, 64, 1, 0, 0, 10, 0, 0, 1,
      10, 0, 0, 2, 1, 2, 3, 4]) (by decide)).1]
  decide


theorem readThen_eq_of_short {α : Type} {r : Reader} {n : Nat} (name : String) (ret : α)
    (k : List UInt8 → Reader → α × Option Error × Reader) (h : ¬ n ≤ r.avail) :
    readThen r n name ret k =
      (ret, some (.failedToRead name (if r.avail = 0 then .EOF else .ErrUnexpectedEOF)),
        r.advance r.avail) := by
  unfold readThen
  rw [read_eq, if_neg h]
  by_cases h0 : r.avail = 0
  · simp [h0]
  · simp [h0]

theorem decodeFlowRecordsLoop_unknown (s n : Nat) (r : Reader) (recs : List flowRecord)
    (h8 : 8 ≤ r.avail) (ht : beUint (r.data.take 4) ≠ 1) :
    decodeFlowRecordsLoop s (n + 1) r recs =
      decodeFlowRecordsLoop s n
        (r.advance (8 + min (beUint ((r.data.drop 4).take 4)) (r.avail - 8)))
        (recs ++ [{ FlowFormat := beUint (r.data.take 4), FlowData := none }]) := by
  rw [decodeFlowRecordsLoop]
  rw [readThen_ok _ _ _ (by omega)]
  rw [readThen_ok _ _ _ (by simp only [Reader.avail_advance, Reader.advance_advance]; omega)]
  simp only [flowFormatTypeRawPacketHeader, ht, if_false, Reader.Close_MinReader,
    Reader.advance_advance, Reader.data_advance, Reader.avail_advance]

theorem decodeFlowRecordsLoop_raw (s n : Nat) (r : Reader) (recs : List flowRecord)
    (h8 : 8 ≤ r.avail) (ht : beUint (r.data.take 4) = 1) :
    decodeFlowRecordsLoop s (n + 1) r recs =
      match (decodeRawPacketHeaderFlowData
          (MinReader (r.advance 8) (beUint ((r.data.drop 4).take 4))) s).2.1 with
      | some err =>
        (recs, some err, r.advance (8 + min (beUint ((r.data.drop 4).take 4)) (r.avail - 8)))
      | none =>
        decodeFlowRecordsLoop s n
          (r.advance (8 + min (beUint ((r.data.drop 4).take 4)) (r.avail - 8)))
          (recs ++ [{ FlowFormat := 1, FlowData := some (decodeRawPacketHeaderFlowData (MinReader (r.advance 8) (beUint ((r.data.drop 4).take 4))) s).1 }]) := by
  have hc : (decodeRawPacketHeaderFlowData
      (MinReader (r.advance 8) (beUint ((r.data.drop 4).take 4))) s).2.2.Close
      = r.advance (8 + min (beUint ((r.data.drop 4).take 4)) (r.avail - 8)) := by
    rw [adv_Close (decodeRawPacketHeaderFlowData_adv s (Adv.refl _))]
    simp only [Reader.advance_advance, Reader.avail_advance]
  rw [decodeFlowRecordsLoop]
  rw [readThen_ok _ _ _ (by omega)]
  rw [readThen_ok _ _ _ (by simp only [Reader.avail_advance, Reader.advance_advance]; omega)]
  simp only [flowFormatTypeRawPacketHeader, ht, if_true, Reader.advance_advance,
    Reader.data_advance, Nat.reduceAdd]
  rw [hc]

theorem decodeFlowRecordsLoop_shape (s n : Nat) : ∀ (r : Reader) (recs : List flowRecord),
    ∃ (new : List flowRecord) (k : Nat),
      (decodeFlowRecordsLoop s n r recs).1 = recs ++ new
      ∧ (decodeFlowRecordsLoop s n r recs).2.2 = r.advance k
      ∧ k ≤ r.avail ∧ 8 * new.length ≤ k
      ∧ ((decodeFlowRecordsLoop s n r recs).2.1 = none → new.length = n)
      ∧ ((decodeFlowRecordsLoop s n r recs).2.1 ≠ none → new.length < n) := by
  induction n with
  | zero =>
    intro r recs
    exact ⟨[], 0, by simp [decodeFlowRecordsLoop], by simp [decodeFlowRecordsLoop],
      Nat.zero_le _, by simp, by simp, by simp [decodeFlowRecordsLoop]⟩
  | succ n ih =>
    intro r recs
    by_cases h4 : 4 ≤ r.avail
    · by_cases h8 : 8 ≤ r.avail
      · have step : ∀ (rec : flowRecord),
            ∃ (new : List flowRecord) (k : Nat),
              (decodeFlowRecordsLoop s n (r.advance (8 + min (beUint ((r.data.drop 4).take 4)) (r.avail - 8))) (recs ++ [rec])).1 = recs ++ new
              ∧ (decodeFlowRecordsLoop s n (r.advance (8 + min (beUint ((r.data.drop 4).take 4)) (r.avail - 8))) (recs ++ [rec])).2.2 = r.advance k
              ∧ k ≤ r.avail ∧ 8 * new.length ≤ k
              ∧ ((decodeFlowRecordsLoop s n (r.advance (8 + min (beUint ((r.data.drop 4).take 4)) (r.avail - 8))) (recs ++ [rec])).2.1 = none → new.length = n + 1)
              ∧ ((decodeFlowRecordsLoop s n (r.advance (8 + min (beUint ((r.data.drop 4).take 4)) (r.avail - 8))) (recs ++ [rec])).2.1 ≠ none → new.length < n + 1) := by
          intro rec
          obtain ⟨new, k, e1, e2, e3, e4, e5, e6⟩ :=
            ih (r.advance (8 + min (beUint ((r.data.drop 4).take 4)) (r.avail - 8)))
              (recs ++ [rec])
          rw [Reader.avail_advance] at e3
          refine ⟨rec :: new, 8 + min (beUint ((r.data.drop 4).take 4)) (r.avail - 8) + k,
            by rw [e1]; simp, by rw [e2, Reader.advance_advance], by omega, ?_, ?_, ?_⟩
          · simp only [List.length_cons]; omega
          · intro h; simp only [List.length_cons]; have := e5 h; omega
          · intro h; simp only [List.length_cons]; have := e6 h; omega
        by_cases ht : beUint (r.data.take 4) = 1
        · rw [decodeFlowRecordsLoop_raw s n r recs h8 ht]
          cases hres : (decodeRawPacketHeaderFlowData
              (MinReader (r.advance 8) (beUint ((r.data.drop 4).take 4))) s).2.1 with
          | some err =>
            exact ⟨[], 8 + min (beUint ((r.data.drop 4).take 4)) (r.avail - 8), by simp, rfl,
              by omega, by simp, by simp, by simp⟩
          | none => exact step _
        · rw [decodeFlowRecordsLoop_unknown s n r recs h8 ht]
          exact step _
      · rw [decodeFlowRecordsLoop, readThen_ok _ _ _ h4]
        rw [readThen_eq_of_short _ _ _
          (show ¬ 4 ≤ (r.advance 4).avail by rw [Reader.avail_advance]; omega)]
        refine ⟨[], r.avail, by simp, ?_, Nat.le_refl _, by simp, by simp, by simp⟩
        simp only [Reader.advance_advance, Reader.avail_advance]
        congr 1; omega
    · rw [decodeFlowRecordsLoop, readThen_eq_of_short _ _ _ h4]
      exact ⟨[], r.avail, by simp, rfl, Nat.le_refl _, by simp, by simp, by simp⟩

/-- C16: `decodeFlowRecords` reads the record count `n` and runs its loop `n`
times. When it returns without error it returns exactly `n` records; when it
returns an error it returns fewer, the records completed before the error.
Each turn of the loop appends one record carrying the tag read at the
reader's position: for a tag other than 1 the record has no `FlowData`, no
error arises from it, and the loop goes on `8 + L` bytes after the start of
the record (`L` its declared length; at the end of the data if fewer than `L`
bytes are left, and then a following record cannot be read); for tag 1 the
record carries the decoded raw packet header, and an error of that decoder is
returned with the records as they were. -/
theorem C16_flow_records (s : Nat) (r : Reader) :
    (4 ≤ r.avail →
        decodeFlowRecords r s
          = decodeFlowRecordsLoop s (beUint (r.data.take 4)) (r.advance 4) [])
      ∧ ((decodeFlowRecords r s).2.1 = none →
          4 ≤ r.avail ∧ (decodeFlowRecords r s).1.length = beUint (r.data.take 4))
      ∧ (∀ (n : Nat) (recs : List flowRecord), ∃ new,
          (decodeFlowRecordsLoop s n r recs).1 = recs ++ new
          ∧ ((decodeFlowRecordsLoop s n r recs).2.1 = none → new.length = n)
          ∧ ((decodeFlowRecordsLoop s n r recs).2.1 ≠ none → new.length < n))
      ∧ (∀ (n : Nat) (recs : List flowRecord), 8 ≤ r.avail → beUint (r.data.take 4) ≠ 1 →
          decodeFlowRecordsLoop s (n + 1) r recs =
            decodeFlowRecordsLoop s n
              (r.advance (8 + min (beUint ((r.data.drop 4).take 4)) (r.avail - 8)))
              (recs ++ [{ FlowFormat := beUint (r.data.take 4), FlowData := none }])
          ∧ (beUint ((r.data.drop 4).take 4) ≤ r.avail - 8 →
              r.advance (8 + min (beUint ((r.data.drop 4).take 4)) (r.avail - 8))
                = r.advance (8 + beUint ((r.data.drop 4).take 4)))
          ∧ (0 < n → (decodeFlowRecordsLoop s (n + 1) r recs).2.1 = none →
              beUint ((r.data.drop 4).take 4) ≤ r.avail - 8))
      ∧ (∀ (n : Nat) (recs : List flowRecord), 8 ≤ r.avail → beUint (r.data.take 4) = 1 →
          decodeFlowRecordsLoop s (n + 1) r recs =
            match (decodeRawPacketHeaderFlowData
                (MinReader (r.advance 8) (beUint ((r.data.drop 4).take 4))) s).2.1 with
            | some err =>
              (recs, some err,
                r.advance (8 + min (beUint ((r.data.drop 4).take 4)) (r.avail - 8)))
            | none =>
              decodeFlowRecordsLoop s n
                (r.advance (8 + min (beUint ((r.data.drop 4).take 4)) (r.avail - 8)))
                (recs ++ [{ FlowFormat := 1, FlowData := some (decodeRawPacketHeaderFlowData (MinReader (r.advance 8) (beUint ((r.data.drop 4).take 4))) s).1 }])) := by
  have hcount : 4 ≤ r.avail → decodeFlowRecords r s
      = decodeFlowRecordsLoop s (beUint (r.data.take 4)) (r.advance 4) [] := by
    intro h4
    unfold decodeFlowRecords
    rw [readThen_ok _ _ _ h4]
  refine ⟨hcount, ?_, ?_, ?_, ?_⟩
  · intro hok
    by_cases h4 : 4 ≤ r.avail
    · refine ⟨h4, ?_⟩
      rw [hcount h4] at hok ⊢
      obtain ⟨new, k, e1, _, _, _, e5, _⟩ :=
        decodeFlowRecordsLoop_shape s (beUint (r.data.take 4)) (r.advance 4) []
      rw [e1, List.nil_append]
      exact e5 hok
    · unfold decodeFlowRecords at hok
      rw [readThen_eq_of_short _ _ _ h4] at hok
      simp at hok
  · intro n recs
    obtain ⟨new, k, e1, _, _, _, e5, e6⟩ := decodeFlowRecordsLoop_shape s n r recs
    exact ⟨new, e1, e5, e6⟩
  · intro n recs h8 ht
    have hstep := decodeFlowRecordsLoop_unknown s n r recs h8 ht
    refine ⟨hstep, ?_, ?_⟩
    · intro hL
      rw [Nat.min_eq_left hL]
    · intro hn hok
      rw [hstep] at hok
      obtain ⟨new, k, _, _, e3, e4, e5, _⟩ := decodeFlowRecordsLoop_shape s n
        (r.advance (8 + min (beUint ((r.data.drop 4).take 4)) (r.avail - 8)))
        (recs ++ [{ FlowFormat := beUint (r.data.take 4), FlowData := none }])
      have hlen := e5 hok
      rw [Reader.avail_advance] at e3
      omega
  · intro n recs h8 ht
    exact decodeFlowRecordsLoop_raw s n r recs h8 ht

/-- C16 at two records of unknown formats 2 and 3 with declared lengths 2 and
0. -/
theorem C16_flow_records_witness :
    decodeFlowRecords (.base [0, 0, 0, 2, 0, 0, 0, 2, 0, 0, 0, 2, 9, 9, 0, 0, 0, 3,
        0, 0, 0, 0]) 1 =
      ([{ FlowFormat := 2, FlowData := none }, { FlowFormat := 3, FlowData := none }],
        none, .base [])
    ∧ (decodeFlowRecords (.base [0, 0, 0, 2, 0, 0, 0, 2, 0, 0, 0, 2, 9, 9, 0, 0, 0, 3,
        0, 0, 0, 0]) 1).1.length = 2 :=
  ⟨by decide,
   ((C16_flow_records 1 (.base [0, 0, 0, 2, 0, 0, 0, 2, 0, 0, 0, 2, 9, 9, 0, 0, 0, 3,
      0, 0, 0, 0])).2.1 (by decide)).2⟩


theorem beUint_putUint32 (v : Nat) (h : v < 2 ^ 32) : beUint (putUint32 v) = v := by
  have e : ∀ n : Nat, (UInt8.ofNat n).toNat = n % 256 := fun n => rfl
  simp only [beUint, putUint32, List.foldl_cons, List.foldl_nil, e]
  omega

theorem putUint32_length (v : Nat) : (putUint32 v).length = 4 := rfl

theorem readThen_base_append {α : Type} (a t : List UInt8) (n : Nat) (name : String) (ret : α)
    (k : List UInt8 → Reader → α × Option Error × Reader) (h : a.length = n) :
    readThen (.base (a ++ t)) n name ret k = k a (.base t) := by
  rw [readThen_base_ok _ _ _ (by simp; omega)]
  rw [List.take_left' h, List.drop_left' h]

theorem decodeFlowSample_append (a1 a2 a3 a4 a5 a6 a7 rest : List UInt8)
    (h1 : a1.length = 4) (h2 : a2.length = 4) (h3 : a3.length = 4) (h4 : a4.length = 4)
    (h5 : a5.length = 4) (h6 : a6.length = 4) (h7 : a7.length = 4) :
    decodeFlowSample (.base (a1 ++ (a2 ++ (a3 ++ (a4 ++ (a5 ++ (a6 ++ (a7 ++ rest)))))))) =
      ({ sampleDirection { SequenceNumber := beUint a1, SourceIDType := beUint a2 >>> 24, SourceIDIndex := beUint a2 &&& 0x00ffffff, SamplingRate := beUint a3, SamplePool := beUint a4, Drops := beUint a5, InputIfFormat := beUint a6 >>> 30, InputIfIndex := beUint a6 &&& 0x3FFFFFFF, OutputIfFormat := beUint a7 >>> 30, OutputIfIndex := beUint a7 &&& 0x3FFFFFFF } with FlowRecords := (decodeFlowRecords (.base rest) (beUint a3)).1 },
        (decodeFlowRecords (.base rest) (beUint a3)).2.1,
        (decodeFlowRecords (.base rest) (beUint a3)).2.2) := by
  unfold decodeFlowSample
  rw [readThen_base_append _ _ _ _ _ _ h1, readThen_base_append _ _ _ _ _ _ h2,
    readThen_base_append _ _ _ _ _ _ h3, readThen_base_append _ _ _ _ _ _ h4,
    readThen_base_append _ _ _ _ _ _ h5, readThen_base_append _ _ _ _ _ _ h6,
    readThen_base_append _ _ _ _ _ _ h7]
  simp only [sampleDirection_fields]

theorem decodeFlowSampleExpanded_append (a1 a2 a3 a4 a5 a6 a7 a8 a9 a10 rest : List UInt8)
    (h1 : a1.length = 4) (h2 : a2.length = 4) (h3 : a3.length = 4) (h4 : a4.length = 4)
    (h5 : a5.length = 4) (h6 : a6.length = 4) (h7 : a7.length = 4) (h8 : a8.length = 4)
    (h9 : a9.length = 4) (h10 : a10.length = 4) :
    decodeFlowSampleExpanded (.base (a1 ++ (a2 ++ (a3 ++ (a4 ++ (a5 ++ (a6 ++ (a7 ++ (a8
        ++ (a9 ++ (a10 ++ rest))))))))))) =
      ({ sampleDirection { SequenceNumber := beUint a1, SourceIDType := beUint a2, SourceIDIndex := beUint a3, SamplingRate := beUint a4, SamplePool := beUint a5, Drops := beUint a6, InputIfFormat := beUint a7, InputIfIndex := beUint a8, OutputIfFormat := beUint a9, OutputIfIndex := beUint a10 } with FlowRecords := (decodeFlowRecords (.base rest) (beUint a4)).1 },
        (decodeFlowRecords (.base rest) (beUint a4)).2.1,
        (decodeFlowRecords (.base rest) (beUint a4)).2.2) := by
  unfold decodeFlowSampleExpanded
  rw [readThen_base_append _ _ _ _ _ _ h1, readThen_base_append _ _ _ _ _ _ h2,
    readThen_base_append _ _ _ _ _ _ h3, readThen_base_append _ _ _ _ _ _ h4,
    readThen_base_append _ _ _ _ _ _ h5, readThen_base_append _ _ _ _ _ _ h6,
    readThen_base_append _ _ _ _ _ _ h7, readThen_base_append _ _ _ _ _ _ h8,
    readThen_base_append _ _ _ _ _ _ h9, readThen_base_append _ _ _ _ _ _ h10]
  simp only [sampleDirection_fields]

theorem split_28 (d : List UInt8) :
    d = d.take 4 ++ ((d.drop 4).take 4 ++ ((d.drop 8).take 4 ++ ((d.drop 12).take 4
      ++ ((d.drop 16).take 4 ++ ((d.drop 20).take 4 ++ ((d.drop 24).take 4
      ++ d.drop 28)))))) := by
  have e : ∀ (n : Nat), d.drop n = (d.drop n).take 4 ++ d.drop (n + 4) := by
    intro n
    rw [← List.drop_drop]
    exact (List.take_append_drop 4 (d.drop n)).symm
  have e4 : d.drop 4 = (d.drop 4).take 4 ++ d.drop 8 := e 4
  have e8 : d.drop 8 = (d.drop 8).take 4 ++ d.drop 12 := e 8
  have e12 : d.drop 12 = (d.drop 12).take 4 ++ d.drop 16 := e 12
  have e16 : d.drop 16 = (d.drop 16).take 4 ++ d.drop 20 := e 16
  have e20 : d.drop 20 = (d.drop 20).take 4 ++ d.drop 24 := e 20
  have e24 : d.drop 24 = (d.drop 24).take 4 ++ d.drop 28 := e 24
  rw [← e24, ← e20, ← e16, ← e12, ← e8, ← e4]
  exact (List.take_append_drop 4 d).symm

/-- C19: for a non-expanded flow-sample byte string `d` of at least 28 bytes,
`decodeFlowSampleExpanded` on the expanded form of `d` returns what
`decodeFlowSample` returns on `d`: the same record (all fields, the sample
direction and the flow records), the same error or none, and the same
remaining stream. -/
theorem C19_expanded_agrees (d : List UInt8) (h : 28 ≤ d.length) :
    decodeFlowSampleExpanded (.base (expandFlowSample d)) = decodeFlowSample (.base d) := by
  have len : ∀ n, n + 4 ≤ d.length → ((d.drop n).take 4).length = 4 := by
    intro n hn
    simp only [List.length_take, List.length_drop]
    omega
  have l0 : (d.take 4).length = 4 := by
    simp only [List.length_take]; omega
  have hL := decodeFlowSample_append (d.take 4) ((d.drop 4).take 4) ((d.drop 8).take 4)
    ((d.drop 12).take 4) ((d.drop 16).take 4) ((d.drop 20).take 4) ((d.drop 24).take 4)
    (d.drop 28) l0 (len 4 (by omega)) (len 8 (by omega)) (len 12 (by omega))
    (len 16 (by omega)) (len 20 (by omega)) (len 24 (by omega))
  rw [← split_28 d] at hL
  have hs : beUint ((d.drop 4).take 4) < 2 ^ 32 := by
    simpa using beUint_take_lt (d.drop 4) 4
  have hi : beUint ((d.drop 20).take 4) < 2 ^ 32 := by
    simpa using beUint_take_lt (d.drop 20) 4
  have ho : beUint ((d.drop 24).take 4) < 2 ^ 32 := by
    simpa using beUint_take_lt (d.drop 24) 4
  have b1 : beUint (putUint32 (beUint ((d.drop 4).take 4) >>> 24))
      = beUint ((d.drop 4).take 4) >>> 24 := by
    apply beUint_putUint32
    rw [Nat.shiftRight_eq_div_pow]
    exact Nat.lt_of_le_of_lt (Nat.div_le_self _ _) hs
  have b2 : beUint (putUint32 (beUint ((d.drop 4).take 4) &&& 0x00ffffff))
      = beUint ((d.drop 4).take 4) &&& 0x00ffffff := by
    apply beUint_putUint32
    exact Nat.lt_of_le_of_lt Nat.and_le_left hs
  have b3 : beUint (putUint32 (beUint ((d.drop 20).take 4) >>> 30))
      = beUint ((d.drop 20).take 4) >>> 30 := by
    apply beUint_putUint32
    rw [Nat.shiftRight_eq_div_pow]
    exact Nat.lt_of_le_of_lt (Nat.div_le_self _ _) hi
  have b4 : beUint (putUint32 (beUint ((d.drop 20).take 4) &&& 0x3FFFFFFF))
      = beUint ((d.drop 20).take 4) &&& 0x3FFFFFFF := by
    apply beUint_putUint32
    exact Nat.lt_of_le_of_lt Nat.and_le_left hi
  have b5 : beUint (putUint32 (beUint ((d.drop 24).take 4) >>> 30))
      = beUint ((d.drop 24).take 4) >>> 30 := by
    apply beUint_putUint32
    rw [Nat.shiftRight_eq_div_pow]
    exact Nat.lt_of_le_of_lt (Nat.div_le_self _ _) ho
  have b6 : beUint (putUint32 (beUint ((d.drop 24).take 4) &&& 0x3FFFFFFF))
      = beUint ((d.drop 24).take 4) &&& 0x3FFFFFFF := by
    apply beUint_putUint32
    exact Nat.lt_of_le_of_lt Nat.and_le_left ho
  rw [hL]
  unfold expandFlowSample
  dsimp only
  rw [decodeFlowSampleExpanded_append _ _ _ _ _ _ _ _ _ _ _ l0 (putUint32_length _)
    (putUint32_length _) (len 8 (by omega)) (len 12 (by omega)) (len 16 (by omega))
    (putUint32_length _) (putUint32_length _) (putUint32_length _) (putUint32_length _)]
  rw [b1, b2, b3, b4, b5, b6]

/-- C19 at a flow sample with source-id word 0x02000003, input word 0x40000005,
output word 0x00000003 and no flow records. -/
theorem C19_expanded_agrees_witness :
    decodeFlowSampleExpanded (.base [0, 0, 0, 1, 0, 0, 0, 2, 0, 0, 0, 3, 0, 0, 4, 0,
        0, 0, 0, 9, 0, 0, 0, 0, 0, 0, 0, 1, 0, 0, 0, 5, 0, 0, 0, 0, 0, 0, 0, 3,
        0, 0, 0, 0]) =
      decodeFlowSample (.base [0, 0, 0, 1, 2, 0, 0, 3, 0, 0, 4, 0, 0, 0, 0, 9, 0, 0, 0, 0,
        0x40, 0, 0, 5, 0, 0, 0, 3, 0, 0, 0, 0]) :=
  C19_expanded_agrees [0, 0, 0, 1, 2, 0, 0, 3, 0, 0, 4, 0, 0, 0, 0, 9, 0, 0, 0, 0,
    0x40, 0, 0, 5, 0, 0, 0, 3, 0, 0, 0, 0] (by decide)


theorem ConsumedAtLeast.mono {α : Type} {m m1 : Nat} {r0 : Reader}
    {res : α × Option Error × Reader} (h : ConsumedAtLeast m r0 res) (hm : m1 ≤ m) :
    ConsumedAtLeast m1 r0 res := by
  intro he
  obtain ⟨k, h1, h2, h3⟩ := h he
  exact ⟨k, by omega, h2, h3⟩

theorem ConsumedAtLeast.of_error {α : Type} (m : Nat) (r0 : Reader) (v : α) (e : Error)
    (r1 : Reader) : ConsumedAtLeast m r0 (v, some e, r1) := by
  intro he; simp at he

theorem ConsumedAtLeast.of_adv {α : Type} {m : Nat} {r0 r1 : Reader} (hm : m ≤ r0.avail)
    (v : α) (e : Option Error) (h : Adv (r0.advance m) r1) :
    ConsumedAtLeast m r0 (v, e, r1) := by
  intro _
  obtain ⟨k, hk, rfl⟩ := h
  rw [Reader.avail_advance] at hk
  exact ⟨m + k, by omega, by omega, Reader.advance_advance r0 m k⟩

theorem consumed_readThen {α : Type} {m M n : Nat} {r0 : Reader} {name : String} {ret : α}
    {k : List UInt8 → Reader → α × Option Error × Reader} (hm : m ≤ r0.avail)
    (hk : ∀ bs, m + n ≤ r0.avail → ConsumedAtLeast M r0 (k bs (r0.advance (m + n)))) :
    ConsumedAtLeast M r0 (readThen (r0.advance m) n name ret k) := by
  by_cases hn : n ≤ (r0.advance m).avail
  · rw [readThen_ok _ _ _ hn, Reader.advance_advance]
    rw [Reader.avail_advance] at hn
    exact hk _ (by omega)
  · rw [readThen_eq_of_short _ _ _ hn]
    exact ConsumedAtLeast.of_error _ _ _ _ _

theorem decodeSamples_consumed (rt : Runtime) {m : Nat} {r0 : Reader} (hm : m ≤ r0.avail) :
    ConsumedAtLeast (m + 4) r0 (decodeSamples rt (r0.advance m)) := by
  unfold decodeSamples
  apply consumed_readThen hm
  intro bs h
  dsimp only
  split
  · exact ConsumedAtLeast.of_error _ _ _ _ _
  · exact ConsumedAtLeast.of_adv h _ _ (decodeSamplesLoop_adv _ _ (Adv.refl _))

theorem DecodeOnePacket_consumed (rt : Runtime) (r : Reader) : ConsumedAtLeast 24 r (DecodeOnePacket rt r) := by
  have h0 : (0 : Nat) ≤ r.avail := Nat.zero_le _
  have hr : DecodeOnePacket rt r = DecodeOnePacket rt (r.advance 0) := by rw [Reader.advance_zero]
  rw [hr]
  unfold DecodeOnePacket
  dsimp only
  apply consumed_readThen h0; intro _ h4
  split
  · exact ConsumedAtLeast.of_error _ _ _ _ _
  apply consumed_readThen h4; intro _ h8
  split
  · apply consumed_readThen h8; intro _ h9
    apply consumed_readThen h9; intro _ h10
    apply consumed_readThen h10; intro _ h11
    apply consumed_readThen h11; intro _ h12
    exact (@decodeSamples_consumed rt _ r h12).mono (by simp)
  · split
    · apply consumed_readThen h8; intro _ h9
      apply consumed_readThen h9; intro _ h10
      apply consumed_readThen h10; intro _ h11
      apply consumed_readThen h11; intro _ h12
      exact (@decodeSamples_consumed rt _ r h12).mono (by simp)
    · split
      · apply consumed_readThen h8; intro _ h9
        apply consumed_readThen h9; intro _ h10
        apply consumed_readThen h10; intro _ h11
        apply consumed_readThen h11; intro _ h12
        exact (@decodeSamples_consumed rt _ r h12).mono (by simp)
      · exact ConsumedAtLeast.of_error _ _ _ _ _


theorem decodeSample_reader_of_header (r : Reader) (h8 : 8 ≤ r.avail) :
    (decodeSample r).2.2
      = r.advance (8 + min (beUint ((r.data.drop 4).take 4)) (r.avail - 8)) := by
  have key : ∀ r1, Adv (MinReader (r.advance 8) (beUint ((r.data.drop 4).take 4))) r1 →
      r1.Close = r.advance (8 + min (beUint ((r.data.drop 4).take 4)) (r.avail - 8)) := by
    intro r1 h
    rw [adv_Close h]
    simp only [Reader.advance_advance, Reader.avail_advance]
  unfold decodeSample
  rw [readThen_ok _ _ _ (by omega)]
  rw [readThen_ok _ _ _ (by simp only [Reader.avail_advance]; omega)]
  simp only [Reader.advance_advance, Reader.data_advance, Nat.reduceAdd]
  split
  · exact key _ (decodeFlowSample_adv (Adv.refl _))
  · split
    · exact key _ (decodeFlowSampleExpanded_adv (Adv.refl _))
    · exact key _ (Adv.refl _)

theorem decodeSample_short (r : Reader) (h8 : ¬ 8 ≤ r.avail) :
    (decodeSample r).2.1 ≠ none ∧ (decodeSample r).2.2 = r.advance r.avail := by
  unfold decodeSample
  by_cases h4 : 4 ≤ r.avail
  · rw [readThen_ok _ _ _ h4]
    rw [readThen_eq_of_short _ _ _
      (show ¬ 4 ≤ (r.advance 4).avail by rw [Reader.avail_advance]; omega)]
    refine ⟨by simp, ?_⟩
    simp only [Reader.advance_advance, Reader.avail_advance]
    congr 1; omega
  · rw [readThen_eq_of_short _ _ _ h4]
    exact ⟨by simp, rfl⟩

theorem decodeSample_consumed (r : Reader) : ConsumedAtLeast 8 r (decodeSample r) := by
  intro hok
  by_cases h8 : 8 ≤ r.avail
  · exact ⟨_, Nat.le_add_right 8 _, by omega, decodeSample_reader_of_header r h8⟩
  · exact absurd hok (decodeSample_short r h8).1

theorem decodeSamplesLoop_shape (n : Nat) : ∀ (r : Reader) (result : List sample),
    ∃ (new : List sample) (k : Nat),
      (decodeSamplesLoop n r result).1 = result ++ new
      ∧ (decodeSamplesLoop n r result).2.2 = r.advance k
      ∧ k ≤ r.avail ∧ 8 * new.length ≤ k
      ∧ ((decodeSamplesLoop n r result).2.1 = none → new.length = n)
      ∧ ((decodeSamplesLoop n r result).2.1 ≠ none → new.length < n) := by
  induction n with
  | zero =>
    intro r result
    exact ⟨[], 0, by simp [decodeSamplesLoop], by simp [decodeSamplesLoop],
      Nat.zero_le _, by simp, by simp, by simp [decodeSamplesLoop]⟩
  | succ n ih =>
    intro r result
    rw [decodeSamplesLoop]
    cases hres : (decodeSample r).2.1 with
    | some err =>
      dsimp only
      obtain ⟨k, hk, e⟩ := @decodeSample_adv r r (Adv.refl r)
      exact ⟨[], k, by simp, e, hk, by simp, by simp, by simp⟩
    | none =>
      dsimp only
      obtain ⟨k0, h8, hk0, e0⟩ := decodeSample_consumed r hres
      obtain ⟨new, k, e1, e2, e3, e4, e5, e6⟩ :=
        ih (decodeSample r).2.2 (result ++ [(decodeSample r).1])
      rw [e0, Reader.avail_advance] at e3
      refine ⟨(decodeSample r).1 :: new, k0 + k, by rw [e1]; simp,
        by rw [e2, e0, Reader.advance_advance], by omega, ?_, ?_, ?_⟩
      · simp only [List.length_cons]; omega
      · intro h; simp only [List.length_cons]; have := e5 h; omega
      · intro h; simp only [List.length_cons]; have := e6 h; omega

theorem Reaches_count {rt : Runtime} {r rf : Reader} {ps : List (Option v5Format)} (h : Reaches rt r ps rf) :
    ps.length * 24 + rf.data.length ≤ r.data.length := by
  induction h with
  | done r => simp
  | @step r0 rf0 ps0 hres _ ih =>
    obtain ⟨k, h24, hk, e⟩ := DecodeOnePacket_consumed rt r0 hres
    have hle := r0.avail_le_data
    rw [e, Reader.data_advance, List.length_drop] at ih
    simp only [List.length_cons]
    omega


/-- The loop of `Decode` ends on every reader and every runtime: with nil, with
an error, or with the runtime stopping the program in `make`. A
`DecodeOnePacket` call that returns no error has consumed at least 24 bytes, so
the sink is called at most (stream length) / 24 times; a `decodeSample` call
that returns no error has consumed at least 8 bytes. Both loops, once they
run, for any number of turns `n` append at most one entry per 8 bytes they
consume, never consume more than the reader holds, and end with an error when
the reader holds fewer than `8 * n` bytes. -/
theorem Decode_consumes (rt : Runtime) (r : Reader) :
    (∃ res, Decode rt r = some res ∧ res.delivered.length * 24 ≤ r.data.length)
      ∧ ((DecodeOnePacket rt r).2.1 = none →
          ∃ k, 24 ≤ k ∧ k ≤ r.avail ∧ (DecodeOnePacket rt r).2.2 = r.advance k)
      ∧ ((decodeSample r).2.1 = none →
          ∃ k, 8 ≤ k ∧ k ≤ r.avail ∧ (decodeSample r).2.2 = r.advance k)
      ∧ (∀ (n : Nat) (result : List sample), ∃ (new : List sample) (k : Nat),
          (decodeSamplesLoop n r result).1 = result ++ new
          ∧ (decodeSamplesLoop n r result).2.2 = r.advance k
          ∧ k ≤ r.avail ∧ 8 * new.length ≤ k ∧ new.length ≤ n
          ∧ (r.avail < 8 * n → (decodeSamplesLoop n r result).2.1 ≠ none))
      ∧ (∀ (s n : Nat) (recs : List flowRecord), ∃ (new : List flowRecord) (k : Nat),
          (decodeFlowRecordsLoop s n r recs).1 = recs ++ new
          ∧ (decodeFlowRecordsLoop s n r recs).2.2 = r.advance k
          ∧ k ≤ r.avail ∧ 8 * new.length ≤ k ∧ new.length ≤ n
          ∧ (r.avail < 8 * n → (decodeFlowRecordsLoop s n r recs).2.1 ≠ none)) := by
  refine ⟨?_, DecodeOnePacket_consumed rt r, decodeSample_consumed r, ?_, ?_⟩
  · obtain ⟨ps, rf, e, hreach, _, heq⟩ := Decode_spec rt r
    refine ⟨_, heq, ?_⟩
    have := Reaches_count hreach
    dsimp only
    omega
  · intro n result
    obtain ⟨new, k, e1, e2, e3, e4, e5, e6⟩ := decodeSamplesLoop_shape n r result
    refine ⟨new, k, e1, e2, e3, e4, ?_, ?_⟩
    · by_cases h : (decodeSamplesLoop n r result).2.1 = none
      · exact Nat.le_of_eq (e5 h)
      · exact Nat.le_of_lt (e6 h)
    · intro hlt hok
      have := e5 hok
      omega
  · intro s n recs
    obtain ⟨new, k, e1, e2, e3, e4, e5, e6⟩ := decodeFlowRecordsLoop_shape s n r recs
    refine ⟨new, k, e1, e2, e3, e4, ?_, ?_⟩
    · by_cases h : (decodeFlowRecordsLoop s n r recs).2.1 = none
      · exact Nat.le_of_eq (e5 h)
      · exact Nat.le_of_lt (e6 h)
    · intro hlt hok
      have := e5 hok
      omega

/-- With 64 bits, `int(v)` is `v` for every `uint32` value. -/
theorem intOfUint32_64 (v : Nat) (h : v < 2 ^ 32) : intOfUint32 64 v = (v : Int) := by
  unfold intOfUint32
  have h1 : v % 2 ^ 64 = v := Nat.mod_eq_of_lt (by omega)
  rw [h1, if_pos (by omega)]

/-- When `make` cannot reserve the declared number of samples, `decodeSamples`
has read the count and nothing else when the program is stopped. -/
theorem decodeSamples_stop (rt : Runtime) (s : List UInt8) (h4 : 4 ≤ s.length)
    (hf : makeSamplesFails rt (beUint (s.take 4))) :
    decodeSamples rt (.base s) =
      ([], some (.makesliceFailed (beUint (s.take 4))), .base (s.drop 4)) := by
  unfold decodeSamples
  rw [readThen_base_ok _ _ _ h4]
  dsimp only
  rw [if_pos hf]

/-- Where the runtime can reserve 2^32 - 1 samples, a declared count of
2^32 - 1 with no sample behind it ends the loop at its first read. -/
theorem decodeSamples_huge_count (cap : Nat) (h : 4294967295 ≤ cap) :
    decodeSamples (runtime64 cap) (.base [255, 255, 255, 255]) =
      ([], some (.failedToRead "sampleType" .EOF), .base []) := by
  unfold decodeSamples
  rw [readThen_base_ok _ _ _ (by decide)]
  have hb : beUint (List.take 4 [255, 255, 255, 255]) = 4294967295 := by decide
  dsimp only
  rw [hb]
  have hi : intOfUint32 (runtime64 cap).intBits 4294967295 = (4294967295 : Nat) :=
    intOfUint32_64 _ (by decide)
  rw [if_neg, hi]
  · rfl
  · unfold makeSamplesFails
    rw [hi]
    simp [runtime64]
    omega

/-- With a 32-bit `int`, a capacity of 2^31 or more is negative as an `int`. -/
theorem makeSamplesFails_32 (cap v : Nat) (h : 2 ^ 31 ≤ v) (hlt : v < 2 ^ 32) :
    makeSamplesFails (runtime32 cap) v := by
  right
  unfold intOfUint32 runtime32
  dsimp only
  have h1 : v % 2 ^ 32 = v := Nat.mod_eq_of_lt hlt
  rw [h1, if_neg (by omega)]
  omega

/-- C20: the claim fails at a datagram that declares 2^32 - 1 samples and holds
none. `decodeSamples` reserves room for the declared number of samples with
`make([]sample, 0, numOfSamples)` before it reads the first one, so on a 64-bit
runtime that can reserve at most 2^30 samples the program is stopped inside
`make`: `DecodeOnePacket` and `Decode` do not return, the loop never runs and no
read error is produced. This holds for every runtime and every count the
runtime cannot reserve, in particular for the count 2^32 - 1 wherever fewer
than 2^32 - 1 samples can be reserved, and for every count of 2^31 or more
where `int` has 32 bits. Where the memory can be reserved the loop ends with
the error of its first read, as the claim says. The loop of
`decodeFlowRecords`, which reserves nothing, ends with a read error on the
same count. The rest of the claim holds: the loop of `Decode` ends on every
stream with at most (stream length) / 24 sink calls (lemma
`Decode_consumes`). -/
theorem C20_make_reserves_declared_count :
    DecodeOnePacket (runtime64 1073741824) (.base [0, 0, 0, 5, 0, 0, 0, 0, 0, 0, 0, 7,
        0, 0, 0, 9, 0, 0, 1, 0, 255, 255, 255, 255]) =
      (some { Version := 5, AgentAddress := { IP := [], Zone := "" }, SubAgentID := 7, SequenceNumber := 9, Uptime := 256, Samples := [] },
        some (.makesliceFailed 4294967295), .base [])
    ∧ Decode (runtime64 1073741824) (.base [0, 0, 0, 5, 0, 0, 0, 0, 0, 0, 0, 7,
        0, 0, 0, 9, 0, 0, 1, 0, 255, 255, 255, 255]) =
      some ⟨some (.makesliceFailed 4294967295), [], .base []⟩
    ∧ (∀ (rt : Runtime) (s : List UInt8), 4 ≤ s.length →
        makeSamplesFails rt (beUint (s.take 4)) →
        decodeSamples rt (.base s) =
          ([], some (.makesliceFailed (beUint (s.take 4))), .base (s.drop 4)))
    ∧ (∀ (rt : Runtime), rt.maxSampleCap < 4294967295 → makeSamplesFails rt 4294967295)
    ∧ (∀ (cap v : Nat), 2 ^ 31 ≤ v → v < 2 ^ 32 → makeSamplesFails (runtime32 cap) v)
    ∧ (∀ (cap : Nat), 4294967295 ≤ cap →
        decodeSamples (runtime64 cap) (.base [255, 255, 255, 255]) =
          ([], some (.failedToRead "sampleType" .EOF), .base []))
    ∧ decodeFlowRecords (.base [255, 255, 255, 255]) 1 =
        ([], some (.failedToRead "FlowFormat" .EOF), .base [])
    ∧ (∀ (rt : Runtime) (r : Reader),
        ∃ res, Decode rt r = some res ∧ res.delivered.length * 24 ≤ r.data.length) :=
  ⟨by decide, by decide, decodeSamples_stop, fun _ h => Or.inl h, makeSamplesFails_32,
    decodeSamples_huge_count, by decide, fun rt r => (Decode_consumes rt r).1⟩

/-! ## Where a cut makes the decoder fail -/

theorem trunc_refl : ∀ (r : Reader), Trunc r r
  | .base _ => List.prefix_refl _
  | .bounded p _ => ⟨trunc_refl p, Or.inl rfl⟩

theorem truncBy_refl (r : Reader) : TruncBy 0 r r := ⟨trunc_refl r, rfl⟩

theorem truncBy_advance {c : Nat} {rP r : Reader} (k : Nat) (h : TruncBy c rP r) :
    TruncBy c (rP.advance k) (r.advance k) := by
  refine ⟨Trunc.advance k h.1, ?_⟩
  have := h.2
  simp only [Reader.data_advance, List.length_drop]
  omega

theorem truncBy_MinReader {c : Nat} {rP r : Reader} (L : Nat) (h : TruncBy c rP r) :
    TruncBy c (MinReader rP L) (MinReader r L) :=
  ⟨Trunc.MinReader L h.1, h.2⟩

theorem truncBy_Close : ∀ {c : Nat} {rP r : Reader}, TruncBy c rP r → TruncBy c rP.Close r.Close
  | _, .base _, .base _, h => h
  | c, .bounded pP bP, .bounded p b, h => by
    refine ⟨Trunc.Close h.1, ?_⟩
    have hlen : pP.data.length = p.data.length - c := h.2
    have ht : Trunc pP p := h.1.1
    have hle := pP.avail_le_data
    have hle1 := p.avail_le_data
    have hle2 := Trunc.avail_le ht
    have hc := Trunc.avail_cases ht
    simp only [Reader.Close, Reader.Read_eq, Reader.data_advance, List.length_drop]
    rcases h.1.2 with e | e
    · subst e
      omega
    · have : pP.data.length = 0 := by rw [e]; rfl
      omega
  | _, .base _, .bounded _ _, h => h.1.elim
  | _, .bounded _ _, .base _, h => h.1.elim

theorem cut_final {α : Type} {c : Nat} {rP r a b : Reader} (v : α) (h : TruncBy c a b) :
    Cut c 0 rP r (v, none, a) (v, none, b) := by
  intro _
  exact ⟨Nat.zero_le _, fun _ => ⟨rfl, rfl, h⟩, fun h0 => absurd h0 (Nat.not_lt_zero _)⟩

theorem cut_error {α : Type} (c need : Nat) (rP r : Reader) (x : α × Option Error × Reader)
    (v : α) (e : Error) (r1 : Reader) : Cut c need rP r x (v, some e, r1) := by
  intro he; simp at he

theorem cut_readThen {α : Type} {c n w : Nat} {rP r : Reader} {name : String} {ret : α}
    {k : List UInt8 → Reader → α × Option Error × Reader}
    (ht : TruncBy c rP r)
    (hk : ∀ rP1, TruncBy c rP1 (r.advance n) →
      Cut c w rP1 (r.advance n) (k (r.data.take n) rP1) (k (r.data.take n) (r.advance n))) :
    Cut c (n + w) rP r (readThen rP n name ret k) (readThen r n name ret k) := by
  intro he
  by_cases hn : n ≤ r.avail
  · rw [readThen_ok _ _ _ hn] at he ⊢
    by_cases hP : n ≤ rP.data.length
    · have hnP : n ≤ rP.avail := by
        rcases Trunc.avail_cases ht.1 with e | e <;> omega
      rw [readThen_ok _ _ _ hnP]
      have hd : rP.data.take n = r.data.take n := by
        obtain ⟨t, ht2⟩ := Trunc.data_prefix ht.1
        rw [← ht2, List.take_append_of_le_length hP]
      rw [hd]
      obtain ⟨h1, h2, h3⟩ := hk _ (truncBy_advance n ht) he
      rw [Reader.avail_advance] at h1
      simp only [Reader.data_advance, List.length_drop] at h2 h3
      exact ⟨by omega, fun h => h2 (by omega), fun h => h3 (by omega)⟩
    · have hnP : ¬ n ≤ rP.avail := by
        have := rP.avail_le_data
        omega
      obtain ⟨h1, _, _⟩ := hk _ (truncBy_advance n ht) he
      rw [Reader.avail_advance] at h1
      refine ⟨by omega, fun h => absurd h (by omega), fun _ => ?_⟩
      obtain ⟨cause, hc⟩ := readThen_short name ret k hnP
      rw [hc]
      exact ⟨name, cause, rfl⟩
  · obtain ⟨cause, hc⟩ := readThen_short name ret k hn
    rw [hc] at he
    simp at he

theorem cut_ite {α : Type} {c w1 w2 : Nat} {rP r : Reader} {p : Prop} [Decidable p]
    {a1 b1 a2 b2 : α × Option Error × Reader}
    (h1 : p → Cut c w1 rP r a1 a2) (h2 : ¬ p → Cut c w2 rP r b1 b2) :
    Cut c (if p then w1 else w2) rP r (if p then a1 else b1) (if p then a2 else b2) := by
  by_cases hp : p
  · rw [if_pos hp, if_pos hp, if_pos hp]; exact h1 hp
  · rw [if_neg hp, if_neg hp, if_neg hp]; exact h2 hp

theorem cut_inner {α β : Type} {c w : Nat} {rP r : Reader} {x y : β × Option Error × Reader}
    (h : Cut c w rP r x y) (vP v : α) (hv : x.1 = y.1 → vP = v) :
    Cut c w rP r (vP, x.2.1, x.2.2) (v, y.2.1, y.2.2) := by
  intro he
  obtain ⟨h1, h2, h3⟩ := h he
  exact ⟨h1, fun hw => ⟨hv (h2 hw).1, (h2 hw).2⟩, h3⟩

theorem cut_innerClose {α β : Type} {c w L : Nat} {rP r : Reader}
    {x y : β × Option Error × Reader}
    (h : Cut c w (MinReader rP L) (MinReader r L) x y) (vP v : α) (hv : x.1 = y.1 → vP = v) :
    Cut c w rP r (vP, x.2.1, x.2.2.Close) (v, y.2.1, y.2.2.Close) := by
  intro he
  obtain ⟨h1, h2, h3⟩ := h he
  have e1 : (MinReader r L).avail = min L r.avail := rfl
  have e2 : (MinReader rP L).data = rP.data := rfl
  rw [e1] at h1
  rw [e2] at h2 h3
  exact ⟨by omega, fun hw => ⟨hv (h2 hw).1, (h2 hw).2.1, truncBy_Close (h2 hw).2.2⟩, h3⟩

theorem cut_congr {α : Type} {c w w1 : Nat} {rP r : Reader} {x y : α × Option Error × Reader}
    (h : Cut c w rP r x y) (e : y.2.1 = none → w = w1) : Cut c w1 rP r x y := by
  intro he
  rw [← e he]
  exact h he


theorem decodeUDPHeader_cut {c : Nat} {rP r : Reader} (ht : TruncBy c rP r) :
    Cut c 8 rP r (decodeUDPHeader rP) (decodeUDPHeader r) := by
  show Cut c (2 + (2 + (2 + (2 + 0)))) rP r _ _
  unfold decodeUDPHeader
  dsimp only
  repeat (first | (exact cut_final _ (by assumption)) | (apply cut_readThen (by assumption); intro _ _))

theorem decodeTCPHeader_cut {c : Nat} {rP r : Reader} (ht : TruncBy c rP r) :
    Cut c 20 rP r (decodeTCPHeader rP) (decodeTCPHeader r) := by
  show Cut c (2 + (2 + (4 + (4 + (2 + (2 + (2 + (2 + 0)))))))) rP r _ _
  unfold decodeTCPHeader
  dsimp only
  repeat (first | (exact cut_final _ (by assumption)) | (apply cut_readThen (by assumption); intro _ _))

theorem decodeIPv4Header_cut {c : Nat} {rP r : Reader} (ht : TruncBy c rP r) :
    Cut c (needIPv4 r.data) rP r (decodeIPv4Header rP) (decodeIPv4Header r) := by
  have e : ∀ w, 20 + w = 1 + (1 + (2 + (2 + (2 + (1 + (1 + (2 + (4 + (4 + w))))))))) := by
    intro w; omega
  unfold needIPv4
  rw [e]
  unfold decodeIPv4Header
  dsimp only
  repeat (first | (apply cut_readThen (by assumption); intro _ _))
  simp only [Reader.advance_advance, Reader.data_advance, Nat.reduceAdd] at *
  apply cut_ite
  · intro _
    apply cut_inner (decodeTCPHeader_cut (by assumption))
    intro e; rw [e]
  · intro _
    apply cut_ite
    · intro _
      apply cut_inner (decodeUDPHeader_cut (by assumption))
      intro e; rw [e]
    · intro _
      exact cut_final _ (by assumption)


theorem cut_iteError {α : Type} {c w : Nat} {rP r r1 : Reader} {p : Prop} [Decidable p]
    {a1 b1 b2 : α × Option Error × Reader} {v : α} {e : Error}
    (h2 : ¬ p → Cut c w rP r b1 b2) :
    Cut c w rP r (if p then a1 else b1) (if p then (v, some e, r1) else b2) := by
  by_cases hp : p
  · rw [if_pos hp, if_pos hp]; exact cut_error _ _ _ _ _ _ _ _
  · rw [if_neg hp, if_neg hp]; exact h2 hp

theorem decodeIPv6Header_cut {c : Nat} {rP r : Reader} (ht : TruncBy c rP r) :
    Cut c (needIPv6 r.data) rP r (decodeIPv6Header rP) (decodeIPv6Header r) := by
  have e : ∀ w, 40 + w = 4 + (2 + (1 + (1 + (16 + (16 + w))))) := by
    intro w; omega
  unfold needIPv6
  rw [e]
  unfold decodeIPv6Header
  dsimp only
  apply cut_readThen ht; intro _ _
  apply cut_iteError
  intro _
  repeat (first | (apply cut_readThen (by assumption); intro _ _))
  simp only [Reader.advance_advance, Reader.data_advance, Nat.reduceAdd] at *
  apply cut_ite
  · intro _
    apply cut_inner (decodeTCPHeader_cut (by assumption))
    intro e; rw [e]
  · intro _
    apply cut_ite
    · intro _
      apply cut_inner (decodeUDPHeader_cut (by assumption))
      intro e; rw [e]
    · intro _
      exact cut_final _ (by assumption)

theorem decodeEthHeader_cut {c : Nat} {rP r : Reader} (ht : TruncBy c rP r) :
    Cut c (needEth r.data) rP r (decodeEthHeader rP) (decodeEthHeader r) := by
  have e : ∀ (p : Prop) [Decidable p] (a b : Nat),
      14 + (if p then 4 + a else b) = 6 + (6 + (2 + (if p then 2 + (2 + a) else b))) := by
    intro p _ a b; split <;> omega
  unfold needEth
  rw [e]
  unfold decodeEthHeader
  dsimp only
  repeat (first | (apply cut_readThen (by assumption); intro _ _))
  simp only [Reader.advance_advance, Reader.data_advance, Nat.reduceAdd] at *
  apply cut_ite
  · intro _
    repeat (first | (apply cut_readThen (by assumption); intro _ _))
    simp only [Reader.advance_advance, Reader.data_advance, Nat.reduceAdd] at *
    unfold needIP
    apply cut_ite
    · intro _
      have h := @decodeIPv4Header_cut c _ _ (by assumption)
      rw [Reader.data_advance] at h
      apply cut_inner h
      intro e; rw [e]
    · intro _
      apply cut_ite
      · intro _
        have h := @decodeIPv6Header_cut c _ _ (by assumption)
        rw [Reader.data_advance] at h
        apply cut_inner h
        intro e; rw [e]
      · intro _
        exact cut_final _ (by assumption)
  · intro _
    unfold needIP
    apply cut_ite
    · intro _
      have h := @decodeIPv4Header_cut c _ _ (by assumption)
      rw [Reader.data_advance] at h
      apply cut_inner h
      intro e; rw [e]
    · intro _
      apply cut_ite
      · intro _
        have h := @decodeIPv6Header_cut c _ _ (by assumption)
        rw [Reader.data_advance] at h
        apply cut_inner h
        intro e; rw [e]
      · intro _
        exact cut_final _ (by assumption)

theorem decodeRawPacketHeaderFlowData_cut (s : Nat) {c : Nat} {rP r : Reader}
    (ht : TruncBy c rP r) :
    Cut c (needRawPacketHeader r.data) rP r
      (decodeRawPacketHeaderFlowData rP s) (decodeRawPacketHeaderFlowData r s) := by
  have e : ∀ w, 16 + w = 4 + (4 + (4 + (4 + w))) := by
    intro w; omega
  unfold needRawPacketHeader
  rw [e]
  unfold decodeRawPacketHeaderFlowData
  dsimp only
  apply cut_readThen ht; intro rP1 h1
  apply cut_readThen h1; intro rP2 h2
  apply cut_readThen h2; intro rP3 h3
  apply cut_readThen h3; intro rP4 h4
  simp only [Reader.advance_advance, Reader.data_advance, Nat.reduceAdd] at *
  apply cut_ite
  · intro _
    refine cut_innerClose
      (cut_congr (decodeEthHeader_cut (truncBy_MinReader _ h4)) (fun _ => ?_)) _ _ ?_
    · show needEth (r.advance 16).data = _
      rw [Reader.data_advance]
    · intro e; rw [e]
  · intro _
    exact cut_final _ (truncBy_Close (truncBy_MinReader _ h4))


theorem cut_step {α β : Type} {c w1 w2 k : Nat} {rP r rQ q : Reader}
    {x y : α × Option Error × Reader}
    (h : Cut c w1 rQ q x y) (hlen : rQ.data.length = rP.data.length) (hrP : TruncBy c rP r)
    (acc : β) (cl : Reader → Reader) (hcl : ∀ a b, TruncBy c a b → TruncBy c (cl a) (cl b))
    (F : α → Reader → β × Option Error × Reader)
    (hy : y.2.1 = none → cl y.2.2 = r.advance k ∧ w1 ≤ k ∧ k ≤ r.avail)
    (hF : ∀ v a, TruncBy c a (r.advance k) →
      Cut c w2 a (r.advance k) (F v a) (F v (r.advance k))) :
    Cut c (if w2 = 0 then w1 else k + w2) rP r
      (match x.2.1 with
        | some err => (acc, some err, cl x.2.2)
        | none => F x.1 (cl x.2.2))
      (match y.2.1 with
        | some err => (acc, some err, cl y.2.2)
        | none => F y.1 (cl y.2.2)) := by
  obtain ⟨xv, xe, xr⟩ := x
  obtain ⟨yv, ye, yr⟩ := y
  intro he
  cases ye with
  | some e => simp at he
  | none =>
    obtain ⟨_, hs, hf⟩ := h rfl
    obtain ⟨hpos, hwk, hk⟩ := hy rfl
    simp only at hs hf hpos he ⊢
    rw [hpos] at he ⊢
    have hlenP := hrP.2
    have hadv : (rP.advance k).data.length = rP.data.length - k := by
      simp only [Reader.data_advance, List.length_drop]
    obtain ⟨ha1, _, _⟩ := hF yv _ (truncBy_advance k hrP) he
    rw [Reader.avail_advance] at ha1
    refine ⟨by split <;> omega, ?_, ?_⟩
    · intro hneed
      have hw1 : w1 ≤ rQ.data.length := by
        rw [hlen]; split at hneed <;> omega
      obtain ⟨e1, e2, e3⟩ := hs hw1
      subst e1 e2
      have ht := hcl _ _ e3
      rw [hpos] at ht
      obtain ⟨_, hs2, _⟩ := hF xv _ ht he
      have hal := ht.2
      simp only [Reader.data_advance, List.length_drop] at hal
      exact hs2 (by split at hneed <;> omega)
    · intro hneed
      by_cases hw1 : w1 ≤ rQ.data.length
      · obtain ⟨e1, e2, e3⟩ := hs hw1
        subst e1 e2
        have ht := hcl _ _ e3
        rw [hpos] at ht
        obtain ⟨_, _, hf2⟩ := hF xv _ ht he
        have hal := ht.2
        simp only [Reader.data_advance, List.length_drop] at hal
        exact hf2 (by rw [hlen] at hw1; split at hneed <;> omega)
      · obtain ⟨name, cause, e⟩ := hf (by omega)
        subst e
        exact ⟨name, cause, rfl⟩


theorem step_ok {α β : Type} (y : α × Option Error × Reader) (acc : β) (cl : Reader → Reader)
    (F : α → Reader → β × Option Error × Reader)
    (he : (match y.2.1 with
        | some err => (acc, some err, cl y.2.2)
        | none => F y.1 (cl y.2.2)).2.1 = none) :
    y.2.1 = none ∧ (F y.1 (cl y.2.2)).2.1 = none := by
  obtain ⟨yv, ye, yr⟩ := y
  cases ye with
  | some e => simp at he
  | none => exact ⟨rfl, he⟩

theorem needRegion_of_close (N : Nat → List UInt8 → Nat) (hN : ∀ d, N 0 d = 0)
    (n L w1 : Nat) (r : Reader)
    (h8 : n ≠ 0 → 0 < (r.advance (min L r.avail)).avail) :
    (if N n (r.advance (min L r.avail)).data = 0 then w1
      else min L r.avail + N n (r.advance (min L r.avail)).data)
      = needRegion w1 L (N n (r.data.drop L)) := by
  unfold needRegion
  by_cases hn : n = 0
  · subst hn; simp [hN]
  · have h := h8 hn
    rw [Reader.avail_advance] at h
    have e : min L r.avail = L := by omega
    rw [e, Reader.data_advance]

theorem decodeFlowRecordsLoop_cut (s n : Nat) {c : Nat} :
    ∀ {rP r : Reader} (recs : List flowRecord), TruncBy c rP r →
      Cut c (needFlowRecordsLoop n r.data) rP r
        (decodeFlowRecordsLoop s n rP recs) (decodeFlowRecordsLoop s n r recs) := by
  induction n with
  | zero => intro rP r recs ht; exact cut_final _ ht
  | succ n ih =>
    intro rP r recs ht
    rw [needFlowRecordsLoop]
    unfold decodeFlowRecordsLoop
    dsimp only
    apply cut_readThen ht; intro rP1 h1
    apply cut_readThen h1; intro rP2 h2
    simp only [Reader.advance_advance, Reader.data_advance, Nat.reduceAdd] at *
    have hshape : ∀ (k : Nat) (recs1 : List flowRecord),
        (decodeFlowRecordsLoop s n ((r.advance 8).advance k) recs1).2.1 = none →
        n ≠ 0 → 0 < ((r.advance 8).advance k).avail := by
      intro k recs1 hok hn
      obtain ⟨new, k1, _, _, e3, e4, e5, _⟩ := decodeFlowRecordsLoop_shape s n _ recs1
      have := e5 hok
      omega
    have hdata : ∀ L, (r.advance 8).data.drop L = r.data.drop (8 + L) := by
      intro L; rw [Reader.data_advance, List.drop_drop, Nat.add_comm]
    by_cases hfmt : beUint (List.take 4 r.data) = flowFormatTypeRawPacketHeader
    · rw [if_pos hfmt, if_pos hfmt, if_pos hfmt]
      have hin := cut_congr
        (decodeRawPacketHeaderFlowData_cut s
          (truncBy_MinReader (beUint (List.take 4 (List.drop 4 r.data))) h2))
        (fun _ => show needRawPacketHeader (r.advance 8).data
          = needRawPacketHeader (List.drop 8 r.data) by rw [Reader.data_advance])
      have hst := cut_step hin
        (show (MinReader rP2 (beUint (List.take 4 (List.drop 4 r.data)))).data.length
          = rP2.data.length from rfl) h2 recs Reader.Close (fun _ _ h => truncBy_Close h)
        (fun v a => decodeFlowRecordsLoop s n a
          (recs ++ [{ FlowFormat := beUint (List.take 4 r.data), FlowData := some v }]))
        (fun hok => ⟨adv_Close (decodeRawPacketHeaderFlowData_adv s (Adv.refl _)),
          (hin hok).1, Nat.min_le_right _ _⟩)
        (fun v a h => ih _ h)
      refine cut_congr hst (fun hok => ?_)
      obtain ⟨_, hloop⟩ := step_ok
        (decodeRawPacketHeaderFlowData
          (MinReader (r.advance 8) (beUint (List.take 4 (List.drop 4 r.data)))) s)
        recs Reader.Close
        (fun v a => decodeFlowRecordsLoop s n a
          (recs ++ [({ FlowFormat := beUint (List.take 4 r.data), FlowData := some v } : flowRecord)]))
        hok
      rw [adv_Close (decodeRawPacketHeaderFlowData_adv s (Adv.refl _))] at hloop
      rw [needRegion_of_close needFlowRecordsLoop (fun _ => rfl) n _ _ (r.advance 8)
        (hshape _ _ hloop), hdata]
    · rw [if_neg hfmt, if_neg hfmt, if_neg hfmt]
      have hin : Cut c 0 rP2 (r.advance 8)
          ((), none, MinReader rP2 (beUint (List.take 4 (List.drop 4 r.data))))
          ((), none, MinReader (r.advance 8) (beUint (List.take 4 (List.drop 4 r.data)))) :=
        cut_final () (truncBy_MinReader _ h2)
      have hst := cut_step hin rfl h2 recs Reader.Close (fun _ _ h => truncBy_Close h)
        (fun _ a => decodeFlowRecordsLoop s n a
          (recs ++ [{ FlowFormat := beUint (List.take 4 r.data) }]))
        (fun _ => ⟨Reader.Close_MinReader _ _, Nat.zero_le _, Nat.min_le_right _ _⟩)
        (fun v a h => ih _ h)
      refine cut_congr hst (fun hok => ?_)
      have hloop : (decodeFlowRecordsLoop s n
          ((r.advance 8).advance (min (beUint (List.take 4 (List.drop 4 r.data))) (r.advance 8).avail))
          (recs ++ [{ FlowFormat := beUint (List.take 4 r.data) }])).2.1 = none := by
        rw [← Reader.Close_MinReader]; exact hok
      rw [needRegion_of_close needFlowRecordsLoop (fun _ => rfl) n _ _ (r.advance 8)
        (hshape _ _ hloop), hdata]


theorem decodeFlowRecords_cut (s : Nat) {c : Nat} {rP r : Reader} (ht : TruncBy c rP r) :
    Cut c (needFlowRecords r.data) rP r (decodeFlowRecords rP s) (decodeFlowRecords r s) := by
  unfold needFlowRecords decodeFlowRecords
  apply cut_readThen ht; intro rP1 h1
  have h := decodeFlowRecordsLoop_cut s (beUint (List.take 4 r.data)) [] h1
  rw [Reader.data_advance] at h
  exact h

theorem decodeFlowSample_cut {c : Nat} {rP r : Reader} (ht : TruncBy c rP r) :
    Cut c (needFlowSample r.data) rP r (decodeFlowSample rP) (decodeFlowSample r) := by
  have e : ∀ w, 28 + w = 4 + (4 + (4 + (4 + (4 + (4 + (4 + w)))))) := by
    intro w; omega
  unfold needFlowSample
  rw [e]
  unfold decodeFlowSample
  dsimp only
  repeat (first | (apply cut_readThen (by assumption); intro _ _))
  simp only [Reader.advance_advance, Reader.data_advance, Nat.reduceAdd] at *
  refine cut_inner (cut_congr (decodeFlowRecords_cut _ (by assumption)) (fun _ => ?_)) _ _ ?_
  · rw [Reader.data_advance]
  · intro e; rw [e]

theorem decodeFlowSampleExpanded_cut {c : Nat} {rP r : Reader} (ht : TruncBy c rP r) :
    Cut c (needFlowSampleExpanded r.data) rP r
      (decodeFlowSampleExpanded rP) (decodeFlowSampleExpanded r) := by
  have e : ∀ w, 40 + w = 4 + (4 + (4 + (4 + (4 + (4 + (4 + (4 + (4 + (4 + w))))))))) := by
    intro w; omega
  unfold needFlowSampleExpanded
  rw [e]
  unfold decodeFlowSampleExpanded
  dsimp only
  repeat (first | (apply cut_readThen (by assumption); intro _ _))
  simp only [Reader.advance_advance, Reader.data_advance, Nat.reduceAdd] at *
  refine cut_inner (cut_congr (decodeFlowRecords_cut _ (by assumption)) (fun _ => ?_)) _ _ ?_
  · rw [Reader.data_advance]
  · intro e; rw [e]

theorem decodeSample_cut {c : Nat} {rP r : Reader} (ht : TruncBy c rP r) :
    Cut c (needSample r.data) rP r (decodeSample rP) (decodeSample r) := by
  have e : ∀ w, 8 + w = 4 + (4 + w) := by
    intro w; omega
  unfold needSample
  rw [e]
  unfold decodeSample
  dsimp only
  apply cut_readThen ht; intro rP1 h1
  apply cut_readThen h1; intro rP2 h2
  simp only [Reader.advance_advance, Reader.data_advance, Nat.reduceAdd] at *
  apply cut_ite
  · intro _
    refine cut_innerClose
      (cut_congr (decodeFlowSample_cut (truncBy_MinReader _ h2)) (fun _ => ?_)) _ _ ?_
    · show needFlowSample (r.advance 8).data = _
      rw [Reader.data_advance]
    · intro e; rw [e]
  · intro _
    apply cut_ite
    · intro _
      refine cut_innerClose
        (cut_congr (decodeFlowSampleExpanded_cut (truncBy_MinReader _ h2)) (fun _ => ?_)) _ _ ?_
      · show needFlowSampleExpanded (r.advance 8).data = _
        rw [Reader.data_advance]
      · intro e; rw [e]
    · intro _
      exact cut_final _ (truncBy_Close (truncBy_MinReader _ h2))

/-- The fields that `decodeSample` reads lie within the bytes it consumes. -/
theorem decodeSample_need_le (r : Reader) (h : (decodeSample r).2.1 = none) :
    8 ≤ r.avail
      ∧ needSample r.data ≤ 8 + min (beUint ((r.data.drop 4).take 4)) (r.avail - 8) := by
  have h8 : 8 ≤ r.avail := by
    by_contra h8
    exact (decodeSample_short r h8).1 h
  refine ⟨h8, ?_⟩
  unfold decodeSample at h
  rw [readThen_ok _ _ _ (by omega)] at h
  rw [readThen_ok _ _ _ (by simp only [Reader.avail_advance]; omega)] at h
  simp only [Reader.advance_advance, Reader.data_advance, Nat.reduceAdd] at h
  have hav : ∀ L, (MinReader (r.advance 8) L).avail = min L (r.avail - 8) := by
    intro L
    show min L (r.advance 8).avail = _
    rw [Reader.avail_advance]
  have hd : ∀ L, (MinReader (r.advance 8) L).data = r.data.drop 8 := by
    intro L; exact Reader.data_advance _ _
  unfold needSample
  split at h
  · rename_i ht
    rw [if_pos ht]
    have := (decodeFlowSample_cut (truncBy_refl _) h).1
    rw [hav, hd] at this
    omega
  · rename_i ht
    rw [if_neg ht]
    split at h
    · rename_i ht2
      rw [if_pos ht2]
      have := (decodeFlowSampleExpanded_cut (truncBy_refl _) h).1
      rw [hav, hd] at this
      omega
    · rename_i ht2
      rw [if_neg ht2]
      omega

theorem decodeSamplesLoop_cut (n : Nat) {c : Nat} :
    ∀ {rP r : Reader} (result : List sample), TruncBy c rP r →
      Cut c (needSamplesLoop n r.data) rP r
        (decodeSamplesLoop n rP result) (decodeSamplesLoop n r result) := by
  induction n with
  | zero => intro rP r result ht; exact cut_final _ ht
  | succ n ih =>
    intro rP r result ht
    unfold decodeSamplesLoop
    dsimp only
    have hst := cut_step (decodeSample_cut ht) rfl ht result id (fun _ _ h => h)
      (fun v a => decodeSamplesLoop n a (result ++ [v]))
      (fun hok => ⟨decodeSample_reader_of_header r (decodeSample_need_le r hok).1,
        (decodeSample_need_le r hok).2, by have := (decodeSample_need_le r hok).1; omega⟩)
      (fun v a h => ih _ h)
    refine cut_congr hst (fun hok => ?_)
    obtain ⟨hs, hloop⟩ := step_ok (decodeSample r) result id
      (fun v a => decodeSamplesLoop n a (result ++ [v])) hok
    have h8 := (decodeSample_need_le r hs).1
    simp only [id] at hloop
    rw [decodeSample_reader_of_header r h8] at hloop
    rw [needSamplesLoop]
    by_cases hn : n = 0
    · subst hn
      simp [needSamplesLoop]
    · obtain ⟨new, k1, _, _, e3, e4, e5, _⟩ := decodeSamplesLoop_shape n _ _
      have hlen := e5 hloop
      rw [Reader.avail_advance] at e3
      have e : min (beUint ((r.data.drop 4).take 4)) (r.avail - 8)
          = beUint ((r.data.drop 4).take 4) := by omega
      rw [e, Reader.data_advance]

theorem decodeSamples_cut (rt : Runtime) {c : Nat} {rP r : Reader} (ht : TruncBy c rP r) :
    Cut c (needSamples rt r.data) rP r (decodeSamples rt rP) (decodeSamples rt r) := by
  unfold needSamples decodeSamples
  apply cut_readThen ht; intro rP1 h1
  dsimp only
  apply cut_iteError
  intro _
  have h := decodeSamplesLoop_cut
    (intOfUint32 rt.intBits (beUint (List.take 4 r.data))).toNat [] h1
  rw [Reader.data_advance] at h
  exact h


theorem DecodeOnePacket_cut (rt : Runtime) {c : Nat} {rP r : Reader} (ht : TruncBy c rP r) :
    Cut c (needDecodeOnePacket rt r.data) rP r (DecodeOnePacket rt rP) (DecodeOnePacket rt r) := by
  have e : ∀ a w, 20 + a + w = 4 + (4 + (a + (4 + (4 + (4 + w))))) := by
    intro a w; omega
  unfold needDecodeOnePacket
  rw [e]
  unfold DecodeOnePacket
  dsimp only
  apply cut_readThen ht; intro rP1 h1
  apply cut_iteError
  intro _
  apply cut_readThen h1; intro rP2 h2
  simp only [Reader.advance_advance, Reader.data_advance, Nat.reduceAdd, List.length_replicate] at *
  unfold addressLength
  by_cases h0 : beUint (List.take 4 (List.drop 4 r.data)) = AddressTypeUnknown
  · have n1 : ¬ beUint (List.take 4 (List.drop 4 r.data)) = AddressTypeIPV4 := by
      rw [h0]; decide
    have n2 : ¬ beUint (List.take 4 (List.drop 4 r.data)) = AddressTypeIPV6 := by
      rw [h0]; decide
    rw [if_pos h0, if_pos h0, if_neg n1, if_neg n2]
    apply cut_readThen h2; intro rP3 h3
    apply cut_readThen h3; intro rP4 h4
    apply cut_readThen h4; intro rP5 h5
    apply cut_readThen h5; intro rP6 h6
    simp only [Reader.advance_advance, Reader.data_advance, Nat.reduceAdd] at h6 ⊢
    refine cut_inner (cut_congr (decodeSamples_cut rt h6) (fun _ => ?_)) _ _ ?_
    · rw [Reader.data_advance]
    · intro e; rw [e]
  · rw [if_neg h0, if_neg h0]
    by_cases h1 : beUint (List.take 4 (List.drop 4 r.data)) = AddressTypeIPV4
    · rw [if_pos h1, if_pos h1, if_pos h1]
      apply cut_readThen h2; intro rP3 h3
      apply cut_readThen h3; intro rP4 h4
      apply cut_readThen h4; intro rP5 h5
      apply cut_readThen h5; intro rP6 h6
      simp only [Reader.advance_advance, Reader.data_advance, Nat.reduceAdd] at h6 ⊢
      refine cut_inner (cut_congr (decodeSamples_cut rt h6) (fun _ => ?_)) _ _ ?_
      · rw [Reader.data_advance]
      · intro e; rw [e]
    · rw [if_neg h1, if_neg h1, if_neg h1]
      by_cases h2a : beUint (List.take 4 (List.drop 4 r.data)) = AddressTypeIPV6
      · rw [if_pos h2a, if_pos h2a, if_pos h2a]
        apply cut_readThen h2; intro rP3 h3
        apply cut_readThen h3; intro rP4 h4
        apply cut_readThen h4; intro rP5 h5
        apply cut_readThen h5; intro rP6 h6
        simp only [Reader.advance_advance, Reader.data_advance, Nat.reduceAdd] at h6 ⊢
        refine cut_inner (cut_congr (decodeSamples_cut rt h6) (fun _ => ?_)) _ _ ?_
        · rw [Reader.data_advance]
        · intro e; rw [e]
      · rw [if_neg h2a, if_neg h2a, if_neg h2a]
        exact cut_error _ _ _ _ _ _ _ _


theorem truncBy_base {cut whole : List UInt8} (h : cut <+: whole) :
    TruncBy (whole.length - cut.length) (.base cut) (.base whole) := by
  refine ⟨h, ?_⟩
  have := h.length_le
  simp only [Reader.data]
  omega

theorem needDecodeOnePacket_ge (rt : Runtime) (d : List UInt8) :
    24 ≤ needDecodeOnePacket rt d := by
  unfold needDecodeOnePacket needSamples
  omega

/-- C6 as amended: let `DecodeOnePacket` succeed on a byte string, and let
`needDecodeOnePacket` be the offset of the end of the last field it reads
there (at least 24, at most the length of the string; bytes that `Close` only
discards are not read). On a prefix that is shorter than this offset
`DecodeOnePacket` returns an error of the form "failed to read "<field>":
<cause>"; on a prefix that reaches it `DecodeOnePacket` returns the same
datagram without error. -/
theorem C6_truncated_datagram (rt : Runtime) (whole cut : List UInt8)
    (p : Option v5Format) (r1 : Reader)
    (hcut : cut <+: whole) (hwhole : DecodeOnePacket rt (.base whole) = (p, none, r1)) :
    24 ≤ needDecodeOnePacket rt whole
      ∧ needDecodeOnePacket rt whole ≤ whole.length
      ∧ (cut.length < needDecodeOnePacket rt whole →
          ∃ name c, (DecodeOnePacket rt (.base cut)).2.1 = some (.failedToRead name c)
            ∧ (Error.failedToRead name c).message
                = "failed to read \"" ++ name ++ "\": " ++ c.message)
      ∧ (needDecodeOnePacket rt whole ≤ cut.length →
          (DecodeOnePacket rt (.base cut)).1 = p
            ∧ (DecodeOnePacket rt (.base cut)).2.1 = none) := by
  have hc := DecodeOnePacket_cut rt (truncBy_base hcut) (by rw [hwhole])
  obtain ⟨h1, h2, h3⟩ := hc
  simp only [Reader.data, Reader.avail] at h1 h2 h3
  refine ⟨needDecodeOnePacket_ge rt whole, h1, ?_, ?_⟩
  · intro hlt
    obtain ⟨name, c, e⟩ := h3 hlt
    exact ⟨name, c, e, rfl⟩
  · intro hle
    obtain ⟨e1, e2, _⟩ := h2 hle
    rw [hwhole] at e1
    exact ⟨e1, e2⟩

/-- C6 as amended, at a datagram whose one sample is a flow sample of declared
length 32 with no flow record, with its last 4 bytes (the flow-record count)
removed: the last field read ends at offset 64, the prefix holds 60 bytes, and
the error names the field "FlowRecord count". -/
theorem C6_truncated_datagram_witness :
    (∃ name c, (DecodeOnePacket (runtime64 65536) (.base [0, 0, 0, 5, 0, 0, 0, 0, 0, 0, 0, 7,
          0, 0, 0, 9, 0, 0, 1, 0, 0, 0, 0, 1, 0, 0, 0, 1, 0, 0, 0, 32,
          0, 0, 0, 1, 0, 0, 0, 2, 0, 0, 0, 3, 0, 0, 0, 4, 0, 0, 0, 5, 0, 0, 0, 6,
          0, 0, 0, 7])).2.1 = some (.failedToRead name c)
        ∧ (Error.failedToRead name c).message
            = "failed to read \"" ++ name ++ "\": " ++ c.message)
      ∧ (DecodeOnePacket (runtime64 65536) (.base [0, 0, 0, 5, 0, 0, 0, 0, 0, 0, 0, 7,
          0, 0, 0, 9, 0, 0, 1, 0, 0, 0, 0, 1, 0, 0, 0, 1, 0, 0, 0, 32,
          0, 0, 0, 1, 0, 0, 0, 2, 0, 0, 0, 3, 0, 0, 0, 4, 0, 0, 0, 5, 0, 0, 0, 6,
          0, 0, 0, 7])).2.1 = some (.failedToRead "FlowRecord count" .EOF) :=
  ⟨(C6_truncated_datagram (runtime64 65536)
      [0, 0, 0, 5, 0, 0, 0, 0, 0, 0, 0, 7, 0, 0, 0, 9, 0, 0, 1, 0, 0, 0, 0, 1,
        0, 0, 0, 1, 0, 0, 0, 32,
        0, 0, 0, 1, 0, 0, 0, 2, 0, 0, 0, 3, 0, 0, 0, 4, 0, 0, 0, 5, 0, 0, 0, 6,
        0, 0, 0, 7, 0, 0, 0, 0]
      [0, 0, 0, 5, 0, 0, 0, 0, 0, 0, 0, 7, 0, 0, 0, 9, 0, 0, 1, 0, 0, 0, 0, 1,
        0, 0, 0, 1, 0, 0, 0, 32,
        0, 0, 0, 1, 0, 0, 0, 2, 0, 0, 0, 3, 0, 0, 0, 4, 0, 0, 0, 5, 0, 0, 0, 6,
        0, 0, 0, 7]
      (some { Version := 5, AgentAddress := { IP := [], Zone := "" }, SubAgentID := 7, SequenceNumber := 9, Uptime := 256, Samples := [{ SampleType := 1, SampleData := some { SequenceNumber := 1, SourceIDType := 0, SourceIDIndex := 2, SamplingRate := 3, SamplePool := 4, Drops := 5, InputIfFormat := 0, InputIfIndex := 6, OutputIfFormat := 0, OutputIfIndex := 7, SampleDirection := "", FlowRecords := [] } }] })
      (.base []) ⟨[0, 0, 0, 0], rfl⟩ (by decide)).2.2.1 (by decide),
    by decide⟩

end Sflow
